import Mathlib

/-!
Framed Bluetooth messaging: the class `BluetoothSocketCommunicate`.

A shallow embedding of `src/bt_control/BluetoothComm.cpp` / `BluetoothComm.h`.

* Bytes (`unsigned char`, and the `char`s of a `QByteArray`) are natural numbers
  below 256; 8-bit and 16-bit arithmetic is written with an explicit `% 256` /
  `% 65536` where the C++ variable has that width.
* The object's members are the fields of `BluetoothSocketCommunicate`, with the
  source's names.  The two facts the code asks of the socket (`IsOpen()`,
  `isWritable()`) and the two timers' running state are fields as well.
* Everything the object does to the outside world (Qt signals it emits, bytes it
  hands to `QBluetoothSocket::write`) is appended, in order, to the field `trace`.
* Memory accesses that C++ leaves undefined (an index outside a heap block or
  outside a `QByteArray`) stop the run with a `Fault`.
-/

namespace BtControl

/-! ## Constants (`#define`s of BluetoothComm.cpp) -/

/-- The start marker `FRAME_START_BYTE`. -/
def FRAME_START_BYTE : Nat := 0xAA

/-- The end marker `FRAME_END_BYTE`. -/
def FRAME_END_BYTE : Nat := 0x55

/-- The size of start byte + command + length + CRC, `FRAME_HEADER_SIZE`. -/
def FRAME_HEADER_SIZE : Nat := 4

/-- The number of retries `MAX_RETRIES`. -/
def MAX_RETRIES : Int := 3

/-! ## Data model -/

/-- Ways a run leaves defined C++ behaviour, or the model's loop budget. -/
inductive Fault where
  /-- A store outside the heap block it addresses. -/
  | writeOutOfBounds
  /-- A load outside the byte array or memory block it addresses. -/
  | readOutOfBounds
  /-- The loop budget of `processReceivedData.loop` ran out (it never does, see the theorem
  `loop_budget`). -/
  | outOfFuel
  deriving DecidableEq, Repr

/-- The queued frame `struct FrameData`: `data` is the heap block `new unsigned char[totalSize]`. -/
structure FrameData where
  data : List Nat
  length : Nat
  command : Nat
  requiresAck : Bool
  deriving DecidableEq, Repr

/-- What the object does to its environment: the signals `ReceivedData` and `DataSent`,
and a call of `p_BluetoothSocket->write(data, size)` with the bytes handed over. -/
inductive Effect where
  | ReceivedData (data : List Nat)
  | DataSent (success : Bool)
  | socketWrite (bytes : List Nat)
  deriving DecidableEq, Repr

/-- The members of `class BluetoothSocketCommunicate` that the protocol code uses. -/
structure BluetoothSocketCommunicate where
  m_receiveBuffer : List Nat
  m_sendQueue : List FrameData
  m_currentSendingFrame : Option FrameData
  m_currentSendSize : Nat
  m_retryCount : Int
  m_isWaitingForAck : Bool
  /-- Whether `m_ackTimer` is running. -/
  ackTimerActive : Bool
  /-- Whether `m_queueTimer` is running. -/
  queueTimerActive : Bool
  /-- The value of `IsOpen()`: the socket is in `ConnectedState`. -/
  socketConnected : Bool
  /-- The value of `p_BluetoothSocket->isWritable()`. -/
  socketWritable : Bool
  /-- Signals emitted and socket writes made so far, oldest first. -/
  trace : List Effect
  deriving DecidableEq, Repr

/-- The object as the constructor leaves it (timer for the queue running), on a socket in
the given state. -/
def BluetoothSocketCommunicate.init (connected writable : Bool) : BluetoothSocketCommunicate :=
  { m_receiveBuffer := [], m_sendQueue := [], m_currentSendingFrame := none,
    m_currentSendSize := 0, m_retryCount := 0, m_isWaitingForAck := false,
    ackTimerActive := false, queueTimerActive := true,
    socketConnected := connected, socketWritable := writable, trace := [] }

/-- Append one effect to the trace (`emit ...`, or a socket write). -/
def BluetoothSocketCommunicate.emit (s : BluetoothSocketCommunicate) (e : Effect) :
    BluetoothSocketCommunicate :=
  { s with trace := s.trace ++ [e] }

/-! ## Memory primitives -/

/-- The store `block[i] = v` into a heap block. -/
def store (block : List Nat) (i : Int) (v : Nat) : Except Fault (List Nat) :=
  if 0 ≤ i ∧ i < block.length then .ok (block.set i.toNat v) else .error .writeOutOfBounds

/-- The call `memcpy(block + off, src, n)`. -/
def memcpy (block : List Nat) (off : Nat) (src : List Nat) (n : Nat) : Except Fault (List Nat) :=
  if src.length < n then .error .readOutOfBounds
  else if block.length < off + n then .error .writeOutOfBounds
  else .ok (block.take off ++ src.take n ++ block.drop (off + n))

/-- The read `QByteArray::at(i)`. -/
def QByteArray_at (a : List Nat) (i : Nat) : Except Fault Nat :=
  match a.get? i with
  | some b => .ok b
  | none => .error .readOutOfBounds

/-- The search `QByteArray::indexOf(char)`; `none` stands for Qt's `-1`. -/
def QByteArray_indexOf : List Nat → Nat → Option Nat
  | [], _ => none
  | b :: rest, c => if b = c then some 0 else (QByteArray_indexOf rest c).map (· + 1)

/-- The slice `QByteArray::mid(pos, len)`. -/
def QByteArray_mid (a : List Nat) (pos len : Nat) : List Nat :=
  (a.drop pos).take len

/-- The removal `QByteArray::remove(0, len)`. -/
def QByteArray_remove0 (a : List Nat) (len : Nat) : List Nat :=
  a.drop len

/-! ## Checksum -/

/-- The function `CalcCRC(uCode, uSize, buffer)`: `uSum` is an `unsigned short`, `uCRC` an
`unsigned char`; `buffer[uNo]` is read for `uNo = 0 .. uSize - 1`. Both callers pass at least
`uSize` readable bytes whenever they go on to use the result (`processReceivedData` has checked
the buffer size, `SendFrameWithCommand` stops at its `memcpy` otherwise), so the value `0` taken
here for a byte beyond the list never reaches a result. -/
def CalcCRC (uCode uSize : Nat) (buffer : List Nat) : Nat :=
  let uSum0 : Nat := (0 + uSize) % 65536
  let uSum1 : Nat := (uSum0 + uCode) % 65536
  let uSum : Nat := (List.range uSize).foldl (fun acc uNo => (acc + buffer.getD uNo 0) % 65536) uSum1
  let uCRC0 : Nat := (uSum % 256) % 256
  (uCRC0 + (uSum / 256) % 256) % 256

/-! ## Sending -/

/-- The body of `SendFrameWithCommand` that fills the heap block `frameData`
(`totalSize` is an `unsigned char`). -/
def SendFrameWithCommand.frameData (command : Nat) (payload : List Nat) (length : Nat) :
    Except Fault (List Nat) := do
  let totalSize : Nat := (FRAME_HEADER_SIZE + length + 1) % 256
  let frameData : List Nat := List.replicate totalSize 0
  let frameData ← store frameData 0 FRAME_START_BYTE
  let frameData ← store frameData 1 command
  let frameData ← store frameData 2 length
  let frameData ← store frameData 3 (CalcCRC command length payload)
  let frameData ← memcpy frameData FRAME_HEADER_SIZE payload length
  store frameData ((totalSize : Int) - 1) FRAME_END_BYTE

/-- The method `SendFrameWithCommand(command, payload, length, requireAck)`. -/
def SendFrameWithCommand (command : Nat) (payload : List Nat) (length : Nat) (requireAck : Bool)
    (s : BluetoothSocketCommunicate) : Except Fault BluetoothSocketCommunicate :=
  if ¬ s.socketConnected then .ok (s.emit (.DataSent false))
  else do
    let frameData ← SendFrameWithCommand.frameData command payload length
    let frame : FrameData :=
      { data := frameData, length := length, command := command, requiresAck := requireAck }
    .ok { s with m_sendQueue := s.m_sendQueue ++ [frame] }

/-- The method `actualSendFrame(data, size)`. -/
def actualSendFrame (data : List Nat) (size : Nat) (s : BluetoothSocketCommunicate) :
    BluetoothSocketCommunicate :=
  if s.socketWritable then s.emit (.socketWrite (data.take size))
  else s.emit (.DataSent false)

/-- The slot `processSendQueue()`, run on every tick of `m_queueTimer`. -/
def processSendQueue (s : BluetoothSocketCommunicate) : BluetoothSocketCommunicate :=
  if s.m_isWaitingForAck then s
  else
    match s.m_sendQueue with
    | [] => s
    | frame :: rest =>
      let s := { s with m_sendQueue := rest, m_currentSendingFrame := some frame }
      let s := { s with m_currentSendSize := (FRAME_HEADER_SIZE + frame.length + 1) % 256 }
      let s := actualSendFrame frame.data s.m_currentSendSize s
      if frame.requiresAck then
        { s with m_isWaitingForAck := true, m_retryCount := 0, ackTimerActive := true }
      else
        ({ s with m_currentSendingFrame := none }).emit (.DataSent true)

/-- The slot `handleAckTimeout()`, run when `m_ackTimer` fires. -/
def handleAckTimeout (s : BluetoothSocketCommunicate) : BluetoothSocketCommunicate :=
  match s.m_isWaitingForAck, s.m_currentSendingFrame with
  | true, some frame =>
    if s.m_retryCount < MAX_RETRIES then
      let s := { s with m_retryCount := s.m_retryCount + 1 }
      let s := actualSendFrame frame.data s.m_currentSendSize s
      { s with ackTimerActive := true }
    else
      let s := { s with m_isWaitingForAck := false, m_currentSendingFrame := none,
                        m_retryCount := 0 }
      s.emit (.DataSent false)
  | _, _ => s

/-- The method `handleAcknowledgment(payload)`. -/
def handleAcknowledgment (payload : List Nat) (s : BluetoothSocketCommunicate) :
    Except Fault BluetoothSocketCommunicate :=
  match s.m_isWaitingForAck, s.m_currentSendingFrame with
  | true, some frame => do
    let ackCmd ← QByteArray_at payload 0
    if ackCmd = frame.command then
      let s := { s with ackTimerActive := false, m_isWaitingForAck := false,
                        m_currentSendingFrame := none, m_retryCount := 0 }
      .ok (s.emit (.DataSent true))
    else .ok s
  | _, _ => .ok s

/-- The method `sendAcknowledgment(originalCmd)`. -/
def sendAcknowledgment (originalCmd : Nat) (s : BluetoothSocketCommunicate) :
    Except Fault BluetoothSocketCommunicate :=
  SendFrameWithCommand 0x01 [originalCmd] 1 false s

/-! ## Receiving -/

/-- The branch of `processReceivedData` taken for a valid frame (source lines 229-241):
an ACK goes to `handleAcknowledgment`, anything else is emitted and acknowledged. -/
def processReceivedData.dispatch (cmd : Nat) (payload : List Nat) (s : BluetoothSocketCommunicate) :
    Except Fault BluetoothSocketCommunicate :=
  if cmd = 0x01 then handleAcknowledgment payload s
  else sendAcknowledgment cmd (s.emit (.ReceivedData payload))

/-- The `while` loop of `processReceivedData`, with a budget of iterations. -/
def processReceivedData.loop : Nat → BluetoothSocketCommunicate →
    Except Fault BluetoothSocketCommunicate
  | 0, s => if s.m_receiveBuffer.length < FRAME_HEADER_SIZE then .ok s else .error .outOfFuel
  | fuel + 1, s =>
    if s.m_receiveBuffer.length < FRAME_HEADER_SIZE then .ok s
    else
      match QByteArray_indexOf s.m_receiveBuffer FRAME_START_BYTE with
      | none => .ok { s with m_receiveBuffer := [] }
      | some startPos =>
        let s := if 0 < startPos
          then { s with m_receiveBuffer := QByteArray_remove0 s.m_receiveBuffer startPos }
          else s
        if s.m_receiveBuffer.length < FRAME_HEADER_SIZE then .ok s
        else do
          let cmd ← QByteArray_at s.m_receiveBuffer 1
          let length ← QByteArray_at s.m_receiveBuffer 2
          let expectedFrameSize : Nat := FRAME_HEADER_SIZE + length + 1
          if s.m_receiveBuffer.length < expectedFrameSize then .ok s
          else do
            let receivedCRC ← QByteArray_at s.m_receiveBuffer 3
            let calculatedCRC := CalcCRC cmd length (s.m_receiveBuffer.drop FRAME_HEADER_SIZE)
            let endByte ← QByteArray_at s.m_receiveBuffer (expectedFrameSize - 1)
            let s ← if receivedCRC = calculatedCRC ∧ endByte = FRAME_END_BYTE
              then processReceivedData.dispatch cmd
                     (QByteArray_mid s.m_receiveBuffer FRAME_HEADER_SIZE length) s
              else .ok s
            processReceivedData.loop fuel
              { s with m_receiveBuffer := QByteArray_remove0 s.m_receiveBuffer expectedFrameSize }

/-- The method `processReceivedData()`: every iteration that continues removes at least five
bytes, so the buffer's length is budget enough. -/
def processReceivedData (s : BluetoothSocketCommunicate) : Except Fault BluetoothSocketCommunicate :=
  processReceivedData.loop s.m_receiveBuffer.length s

/-- The slot `dataReceived()`, with `newData` the bytes `readAll()` returns. -/
def dataReceived (newData : List Nat) (s : BluetoothSocketCommunicate) :
    Except Fault BluetoothSocketCommunicate :=
  processReceivedData { s with m_receiveBuffer := s.m_receiveBuffer ++ newData }

/-! ## The wire format -/

/-- The bytes of a frame on the wire. -/
def wireFrame (command : Nat) (payload : List Nat) : List Nat :=
  [FRAME_START_BYTE, command, payload.length, CalcCRC command payload.length payload]
    ++ payload ++ [FRAME_END_BYTE]

/-! ## Events driving the object -/

/-- The three event sources of the object: a tick of `m_queueTimer`, a firing of
`m_ackTimer`, and `readyRead` with the bytes that `readAll()` then returns. -/
inductive Event where
  | tick
  | ackTimeout
  | received (newData : List Nat)
  deriving DecidableEq, Repr

/-- Run the slot connected to an event. -/
def step (e : Event) (s : BluetoothSocketCommunicate) : Except Fault BluetoothSocketCommunicate :=
  match e with
  | .tick => .ok (processSendQueue s)
  | .ackTimeout => .ok (handleAckTimeout s)
  | .received newData => dataReceived newData s

/-- Run the slots of a sequence of events, one after the other. -/
def run : List Event → BluetoothSocketCommunicate → Except Fault BluetoothSocketCommunicate
  | [], s => .ok s
  | e :: es, s => do
    let s ← step e s
    run es s

/-- The payloads of the `ReceivedData` signals in a trace, in order. -/
def receivedMessages : List Effect → List (List Nat)
  | [] => []
  | .ReceivedData d :: t => d :: receivedMessages t
  | _ :: t => receivedMessages t

/-- The byte strings handed to the socket in a trace, in order. -/
def socketWrites : List Effect → List (List Nat)
  | [] => []
  | .socketWrite b :: t => b :: socketWrites t
  | _ :: t => socketWrites t

/-- The results reported by `DataSent` in a trace, in order. -/
def sendResults : List Effect → List Bool
  | [] => []
  | .DataSent b :: t => b :: sendResults t
  | _ :: t => sendResults t

/-- Deliver a byte stream in chunks: one `readyRead` per chunk. -/
def feed (chunks : List (List Nat)) (s : BluetoothSocketCommunicate) :
    Except Fault BluetoothSocketCommunicate :=
  run (chunks.map Event.received) s

/-! ## Connection management -/

/-- The method `SendFrame(puBuffer, hLen)`, kept for older callers. -/
def SendFrame (puBuffer : List Nat) (hLen : Nat) (s : BluetoothSocketCommunicate) :
    Except Fault BluetoothSocketCommunicate :=
  SendFrameWithCommand 0x00 puBuffer hLen true s

/-- The method `clearSendQueue()`: every queued frame is deleted, and so is the frame in
`m_currentSendingFrame`; no other member is assigned and nothing is emitted. -/
def clearSendQueue (s : BluetoothSocketCommunicate) : BluetoothSocketCommunicate :=
  { s with m_sendQueue := [], m_currentSendingFrame := none }

/-- The method `enableConnection(bState)`. The connection of `readyRead` to `dataReceived`
decides only whether `received` events occur and is not part of the state. -/
def enableConnection (bState : Bool) (s : BluetoothSocketCommunicate) :
    BluetoothSocketCommunicate :=
  if bState then { s with queueTimerActive := true }
  else clearSendQueue { s with queueTimerActive := false, ackTimerActive := false }

/-- The socket states that `socketStateChanged` tells apart. -/
inductive SocketState where
  | ConnectedState
  | UnconnectedState
  | otherState
  deriving DecidableEq, Repr

/-- The slot `socketStateChanged(state)`, run when the socket has entered `state`: the fields
`socketConnected` and `socketWritable` follow the socket (a socket that is not connected is not
writable), then the slot's `switch` runs. -/
def socketStateChanged (state : SocketState) (s : BluetoothSocketCommunicate) :
    BluetoothSocketCommunicate :=
  match state with
  | .ConnectedState => enableConnection true { s with socketConnected := true }
  | .UnconnectedState =>
    enableConnection false { s with socketConnected := false, socketWritable := false }
  | .otherState => { s with socketConnected := false }

/-- The method `disconnectFromController()`, up to the return of `close()`: the timers are
stopped, the queue is cleared, and the socket is closed. The `stateChanged` signal that the
closing socket sends is the separate event `socketStateChanged`. -/
def disconnectFromController (s : BluetoothSocketCommunicate) : BluetoothSocketCommunicate :=
  let s := { s with ackTimerActive := false, queueTimerActive := false }
  let s := clearSendQueue s
  { s with socketConnected := false, socketWritable := false }

/-! ## Calls of the application together with events -/

/-- What can happen to the object: the application calls `SendFrameWithCommand` with a payload
and its length, or one of the three event sources fires. -/
inductive Action where
  | enqueue (command : Nat) (payload : List Nat) (requireAck : Bool)
  | event (e : Event)
  deriving DecidableEq, Repr

/-- Run one action. -/
def act (a : Action) (s : BluetoothSocketCommunicate) : Except Fault BluetoothSocketCommunicate :=
  match a with
  | .enqueue command payload requireAck =>
    SendFrameWithCommand command payload payload.length requireAck s
  | .event e => step e s

/-- Run a sequence of actions, one after the other. -/
def perform : List Action → BluetoothSocketCommunicate → Except Fault BluetoothSocketCommunicate
  | [], s => .ok s
  | a :: as, s => do
    let s ← act a s
    perform as s

/-- The scheduler waits for an ACK although no frame is in flight. -/
def Stuck (writes : List (List Nat)) (t : BluetoothSocketCommunicate) : Prop :=
  t.m_isWaitingForAck = true ∧ t.m_currentSendingFrame = none ∧ socketWrites t.trace = writes

/-! ## The decoder as a function of the bytes alone

The receive loop decides what to do from the receive buffer alone. The definitions of this
section state that decision as functions on byte lists; the theorems `loop_parse` and
`loop_decode` prove that the loop of the source, embedded above, computes them. -/

/-- The buffer from its first start marker on (empty when it holds none). -/
def skipNoise (b : List Nat) : List Nat :=
  b.dropWhile (fun x => decide (x ≠ FRAME_START_BYTE))

/-- What one iteration of the receive loop makes of a buffer. -/
inductive Parsed where
  /-- The loop ends and leaves `residue` in the buffer. -/
  | wait (residue : List Nat)
  /-- A complete frame was at the front: command, payload, whether checksum and end byte were
  right, and the bytes after the frame. -/
  | frame (cmd : Nat) (payload : List Nat) (valid : Bool) (rest : List Nat)
  deriving DecidableEq, Repr

/-- One iteration of the receive loop on the bytes `b`. -/
def parseStep (b : List Nat) : Parsed :=
  if b.length < 4 then .wait b
  else
    let b2 := skipNoise b
    if b2.length < 4 then .wait b2
    else
      let cmd := b2.getD 1 0
      let len := b2.getD 2 0
      if b2.length < 4 + len + 1 then .wait b2
      else
        .frame cmd ((b2.drop 4).take len)
          (decide (b2.getD 3 0 = CalcCRC cmd len (b2.drop 4) ∧ b2.getD (4 + len) 0 = FRAME_END_BYTE))
          (b2.drop (4 + len + 1))

/-- The valid frames that the receive loop dispatches on the bytes `b`, in order, and the bytes
it leaves, with a budget of iterations. -/
def decodeFuel : Nat → List Nat → List (Nat × List Nat) × List Nat
  | 0, b => ([], b)
  | fuel + 1, b =>
    match parseStep b with
    | .wait r => ([], r)
    | .frame cmd payload valid rest =>
      ((if valid then [(cmd, payload)] else []) ++ (decodeFuel fuel rest).1,
        (decodeFuel fuel rest).2)

/-- The valid frames that one call of `processReceivedData` dispatches on the bytes `b`, and
the bytes it leaves in the buffer. -/
def decode (b : List Nat) : List (Nat × List Nat) × List Nat :=
  decodeFuel b.length b

/-- The frames dispatched, and the bytes left, when the chunks arrive one `dataReceived` at a
time on a buffer that holds `r`. -/
def decodeChunks : List Nat → List (List Nat) → List (Nat × List Nat) × List Nat
  | r, [] => ([], r)
  | r, c :: cs =>
    ((decode (r ++ c)).1 ++ (decodeChunks (decode (r ++ c)).2 cs).1,
      (decodeChunks (decode (r ++ c)).2 cs).2)

/-- Dispatch a sequence of frames, one after the other. -/
def dispatchAll : List (Nat × List Nat) → BluetoothSocketCommunicate →
    Except Fault BluetoothSocketCommunicate
  | [], s => .ok s
  | f :: fs, s => processReceivedData.dispatch f.1 f.2 s >>= dispatchAll fs

/-- What `processReceivedData` can leave in the buffer: fewer than 4 bytes, or an incomplete
frame, which starts with `0xAA` and is shorter than the `4 + buffer[2] + 1` bytes it announces. -/
def Residue (b : List Nat) : Prop :=
  b.length < 4 ∨ (b.head? = some 0xAA ∧ b.length < 4 + b.getD 2 0 + 1)

/-! ## The order of transmission -/

/-- The frames that a sequence of actions enqueues on an open socket, in order. -/
def enqueued : List Action → List FrameData
  | [] => []
  | .enqueue command payload requireAck :: as =>
    FrameData.mk (wireFrame command payload) payload.length command requireAck :: enqueued as
  | .event _ :: as => enqueued as

/-- The actions of the send scheduler: enqueueing a payload of at most 250 bytes, a tick, an
ACK timeout, and the arrival of a well-formed ACK frame. -/
def Action.scheduling : Action → Prop
  | .enqueue _ payload _ => payload.length ≤ 250
  | .event .tick => True
  | .event .ackTimeout => True
  | .event (.received newData) => ∃ payload, newData = wireFrame 0x01 payload

/-- The bytes written for a list of frames, each with the number of times it was written. -/
def blocks (sent : List (FrameData × Nat)) : List (List Nat) :=
  sent.flatMap (fun p => List.replicate p.2 p.1.data)

/-- The transmission-order invariant: `sent` are the frames taken from the queue so far, in
order, each with its number of writes; with the queue they make up the frames `E` enqueued so
far; and the writes since the trace was `base` are the blocks of `sent`. -/
def OrderInv (base : List Effect) (E : List FrameData) (t : BluetoothSocketCommunicate) : Prop :=
  t.socketConnected = true ∧ t.socketWritable = true ∧ t.m_receiveBuffer = [] ∧
  (∀ f ∈ E, f.data.take ((4 + f.length + 1) % 256) = f.data) ∧
  ∃ (new : List Effect) (sent : List (FrameData × Nat)),
    t.trace = base ++ new ∧ sent.map Prod.fst ++ t.m_sendQueue = E ∧
    socketWrites new = blocks sent ∧ (∀ p ∈ sent, 1 ≤ p.2 ∧ p.2 ≤ 4) ∧
    (t.m_isWaitingForAck = true →
      ∃ (pre : List (FrameData × Nat)) (f : FrameData) (r : Nat),
        sent = pre ++ [(f, r + 1)] ∧ t.m_currentSendingFrame = some f ∧
        t.m_currentSendSize = (4 + f.length + 1) % 256 ∧ t.m_retryCount = (r : Int) ∧ r ≤ 3)

/-! ## Phases of the scheduler while two frames are pending -/

/-- The first frame of two has been released: the effects `new` hold a `DataSent`, and before the
first one there are only `k` writes of the bytes `w1`, with `1 <= k <= 4`, and `k = 4` when that
first report is a failure. -/
def FirstReleased (w1 : List Nat) (new : List Effect) : Prop :=
  ∃ (pre : List Effect) (b : Bool) (post : List Effect) (k : Nat),
    new = pre ++ Effect.DataSent b :: post ∧ sendResults pre = [] ∧
    socketWrites pre = List.replicate k w1 ∧ 1 ≤ k ∧ k ≤ 4 ∧ (b = false → k = 4)

/-- The first frame `f1` and the second frame `f2` are both still in the queue, nothing has been
written and nothing reported. -/
def BothQueued (f1 f2 : FrameData) (new : List Effect) (t : BluetoothSocketCommunicate) : Prop :=
  t.m_isWaitingForAck = false ∧ (∃ acks, t.m_sendQueue = f1 :: f2 :: acks) ∧
  socketWrites new = [] ∧ sendResults new = []

/-- The first frame `f1` is in flight with `k <= 3` retries behind it, every write so far is one
of the `k + 1` writes of its bytes `w1`, nothing has been reported, and `f2` heads the queue. -/
def FirstInFlight (f1 f2 : FrameData) (w1 : List Nat) (new : List Effect)
    (t : BluetoothSocketCommunicate) : Prop :=
  t.m_isWaitingForAck = true ∧ t.m_currentSendingFrame = some f1 ∧
  t.m_currentSendSize = (4 + f1.length + 1) % 256 ∧ (∃ acks, t.m_sendQueue = f2 :: acks) ∧
  sendResults new = [] ∧
  ∃ k : Nat, k ≤ 3 ∧ t.m_retryCount = (k : Int) ∧ socketWrites new = List.replicate (k + 1) w1

/-- The single-flight invariant for two frames `f1`, `f2` enqueued when the trace was `base`, on
a socket that is open and writable. -/
def SingleFlight (f1 f2 : FrameData) (base : List Effect) (t : BluetoothSocketCommunicate) : Prop :=
  t.socketConnected = true ∧ t.socketWritable = true ∧
  ∃ new, t.trace = base ++ new ∧
    (BothQueued f1 f2 new t
      ∨ FirstInFlight f1 f2 (f1.data.take ((4 + f1.length + 1) % 256)) new t
      ∨ FirstReleased (f1.data.take ((4 + f1.length + 1) % 256)) new)

/-! ## Checksum lemmas -/

theorem sum_take_succ_getD (l : List Nat) (n : Nat) :
    (l.take (n + 1)).sum = (l.take n).sum + l.getD n 0 := by
  induction l generalizing n with
  | nil => simp
  | cons a t ih =>
    cases n with
    | zero => simp
    | succ m =>
      have := ih m
      simp only [List.take_succ_cons, List.sum_cons, List.getD_cons_succ] at *
      omega

theorem foldl_range_sum (buffer : List Nat) (n init : Nat) :
    (List.range n).foldl (fun acc uNo => (acc + buffer.getD uNo 0) % 65536) (init % 65536)
      = (init + (buffer.take n).sum) % 65536 := by
  induction n with
  | zero => simp
  | succ k ih =>
    rw [List.range_succ, List.foldl_append, ih, sum_take_succ_getD]
    simp only [List.foldl_cons, List.foldl_nil]
    omega

theorem sum_le_of_bytes (l : List Nat) (hb : ∀ b ∈ l, b < 256) : l.sum ≤ 255 * l.length := by
  induction l with
  | nil => simp
  | cons a t ih =>
    have h1 : a < 256 := hb a (List.mem_cons_self a t)
    have h2 := ih (fun b hb2 => hb b (List.mem_cons_of_mem a hb2))
    simp only [List.sum_cons, List.length_cons]
    omega

/-- The accumulator of `CalcCRC` holds the sum of its inputs modulo 2^16. -/
theorem CalcCRC_eq_mod (uCode uSize : Nat) (buffer : List Nat) :
    CalcCRC uCode uSize buffer =
      (((uSize + uCode + (buffer.take uSize).sum) % 65536) % 256
        + ((uSize + uCode + (buffer.take uSize).sum) % 65536) / 256) % 256 := by
  have h := foldl_range_sum buffer uSize (uSize + uCode)
  have e : ((0 + uSize) % 65536 + uCode) % 65536 = (uSize + uCode) % 65536 := by omega
  simp only [CalcCRC, e, h]
  omega

/-- The checksum reads only the first `uSize` bytes of the buffer. -/
theorem CalcCRC_take (uCode uSize : Nat) (buffer : List Nat) :
    CalcCRC uCode uSize (buffer.take uSize) = CalcCRC uCode uSize buffer := by
  rw [CalcCRC_eq_mod, CalcCRC_eq_mod, List.take_take, Nat.min_self]

/-- The checksum of `CalcCRC` on byte inputs: no wrap of the 16-bit accumulator. -/
theorem CalcCRC_exact (uCode uSize : Nat) (buffer : List Nat)
    (hc : uCode < 256) (hs : uSize ≤ 255) (hl : buffer.length = uSize)
    (hb : ∀ b ∈ buffer, b < 256) :
    uSize + uCode + buffer.sum ≤ 65535 ∧
    CalcCRC uCode uSize buffer
      = ((uSize + uCode + buffer.sum) % 256 + (uSize + uCode + buffer.sum) / 256) % 256 := by
  have hsum := sum_le_of_bytes buffer hb
  have hle : buffer.sum ≤ 255 * 255 := by
    calc buffer.sum ≤ 255 * buffer.length := hsum
      _ ≤ 255 * 255 := by rw [hl]; exact Nat.mul_le_mul_left 255 hs
  have hbound : uSize + uCode + buffer.sum ≤ 65535 := by omega
  refine ⟨hbound, ?_⟩
  rw [CalcCRC_eq_mod, ← hl, List.take_length]
  omega

/-! ## Frame construction lemmas -/

theorem store_end (pre : List Nat) (x v : Nat) (n : Nat) (hn : n = pre.length + 1) :
    store (pre ++ [x]) ((n : Int) - 1) v = .ok (pre ++ [v]) := by
  subst hn
  have h1 : ((pre.length + 1 : Nat) : Int) - 1 = (pre.length : Int) := by push_cast; omega
  rw [h1]
  simp [store]

theorem frameData_ok (command : Nat) (payload : List Nat) (hl : payload.length ≤ 250) :
    SendFrameWithCommand.frameData command payload payload.length
      = .ok (wireFrame command payload) := by
  have hsz : (FRAME_HEADER_SIZE + payload.length + 1) % 256 = payload.length + 1 + 4 := by
    simp only [FRAME_HEADER_SIZE]; omega
  generalize hcrc : CalcCRC command payload.length payload = crc
  have e0 : store (List.replicate (payload.length + 1 + 4) 0) 0 FRAME_START_BYTE
      = .ok (FRAME_START_BYTE :: 0 :: 0 :: 0 :: List.replicate (payload.length + 1) 0) := by
    simp [store, List.replicate_succ]
    omega
  have e1 : store (FRAME_START_BYTE :: 0 :: 0 :: 0 :: List.replicate (payload.length + 1) 0) 1 command
      = .ok (FRAME_START_BYTE :: command :: 0 :: 0 :: List.replicate (payload.length + 1) 0) := by
    simp [store]
    omega
  have e2 : store (FRAME_START_BYTE :: command :: 0 :: 0 :: List.replicate (payload.length + 1) 0) 2
        payload.length
      = .ok (FRAME_START_BYTE :: command :: payload.length :: 0
              :: List.replicate (payload.length + 1) 0) := by
    simp [store]
    omega
  have e3 : store (FRAME_START_BYTE :: command :: payload.length :: 0
              :: List.replicate (payload.length + 1) 0) 3 crc
      = .ok (FRAME_START_BYTE :: command :: payload.length :: crc
              :: List.replicate (payload.length + 1) 0) := by
    simp [store]
    omega
  have e4 : memcpy (FRAME_START_BYTE :: command :: payload.length :: crc
              :: List.replicate (payload.length + 1) 0) FRAME_HEADER_SIZE payload payload.length
      = .ok (([FRAME_START_BYTE, command, payload.length, crc] ++ payload) ++ [0]) := by
    simp [memcpy, FRAME_HEADER_SIZE, Nat.add_comm 4 payload.length, List.drop_replicate]
  have e5 : store (([FRAME_START_BYTE, command, payload.length, crc] ++ payload) ++ [0])
        (((payload.length + 1 + 4 : Nat) : Int) - 1) FRAME_END_BYTE
      = .ok (([FRAME_START_BYTE, command, payload.length, crc] ++ payload) ++ [FRAME_END_BYTE]) := by
    apply store_end
    simp
  simp only [SendFrameWithCommand.frameData, hsz, hcrc, e0, e1, e2, e3, e4, e5, bind, Except.bind,
    wireFrame]

theorem wireFrame_length (command : Nat) (payload : List Nat) :
    (wireFrame command payload).length = payload.length + 5 := by
  simp [wireFrame]

theorem SendFrameWithCommand_ok (command : Nat) (payload : List Nat) (requireAck : Bool)
    (s : BluetoothSocketCommunicate) (hl : payload.length ≤ 250) (hopen : s.socketConnected = true) :
    SendFrameWithCommand command payload payload.length requireAck s
      = .ok { s with m_sendQueue := s.m_sendQueue ++
                [{ data := wireFrame command payload, length := payload.length,
                   command := command, requiresAck := requireAck }] } := by
  simp [SendFrameWithCommand, hopen, frameData_ok command payload hl, bind, Except.bind]

theorem SendFrameWithCommand_closed (command : Nat) (payload : List Nat) (length : Nat)
    (requireAck : Bool) (s : BluetoothSocketCommunicate) (hopen : s.socketConnected = false) :
    SendFrameWithCommand command payload length requireAck s = .ok (s.emit (.DataSent false)) := by
  simp [SendFrameWithCommand, hopen]

/-! ## One iteration of the receive loop -/

theorem indexOf_head (rest : List Nat) :
    QByteArray_indexOf (FRAME_START_BYTE :: rest) FRAME_START_BYTE = some 0 := by
  simp [QByteArray_indexOf]

theorem indexOf_garbage (g rest : List Nat) (hg : ∀ b ∈ g, b ≠ FRAME_START_BYTE) :
    QByteArray_indexOf (g ++ FRAME_START_BYTE :: rest) FRAME_START_BYTE = some g.length := by
  induction g with
  | nil => simp [QByteArray_indexOf]
  | cons a t ih =>
    have h1 : a ≠ FRAME_START_BYTE := hg a (List.mem_cons_self a t)
    have h2 := ih (fun b hb => hg b (List.mem_cons_of_mem a hb))
    simp [QByteArray_indexOf, h1, h2]

theorem indexOf_none (g : List Nat) (hg : ∀ b ∈ g, b ≠ FRAME_START_BYTE) :
    QByteArray_indexOf g FRAME_START_BYTE = none := by
  induction g with
  | nil => simp [QByteArray_indexOf]
  | cons a t ih =>
    have h1 : a ≠ FRAME_START_BYTE := hg a (List.mem_cons_self a t)
    have h2 := ih (fun b hb => hg b (List.mem_cons_of_mem a hb))
    simp [QByteArray_indexOf, h1, h2]

/-- The iteration of the receive loop on a buffer that starts with the start marker and holds
the whole frame announced by its length byte. -/
theorem loop_complete (fuel : Nat) (s : BluetoothSocketCommunicate) (cmd len crc : Nat)
    (body : List Nat) (hbuf : s.m_receiveBuffer = FRAME_START_BYTE :: cmd :: len :: crc :: body)
    (hlen : len + 1 ≤ body.length) :
    processReceivedData.loop (fuel + 1) s
      = (if crc = CalcCRC cmd len body ∧ body.getD len 0 = FRAME_END_BYTE
          then processReceivedData.dispatch cmd (body.take len) s else .ok s) >>= fun t =>
        processReceivedData.loop fuel
          { t with m_receiveBuffer := t.m_receiveBuffer.drop (FRAME_HEADER_SIZE + len + 1) } := by
  have hlt : len < body.length := by omega
  obtain ⟨e, he⟩ : ∃ e, body[len]? = some e := ⟨body[len], List.getElem?_eq_getElem hlt⟩
  have hd : body.getD len 0 = e := by simp [he]
  have a1 : QByteArray_at (FRAME_START_BYTE :: cmd :: len :: crc :: body) 1 = .ok cmd := rfl
  have a2 : QByteArray_at (FRAME_START_BYTE :: cmd :: len :: crc :: body) 2 = .ok len := rfl
  have a3 : QByteArray_at (FRAME_START_BYTE :: cmd :: len :: crc :: body) 3 = .ok crc := rfl
  have a4 : QByteArray_at (FRAME_START_BYTE :: cmd :: len :: crc :: body) (4 + len + 1 - 1)
      = .ok e := by
    have : 4 + len + 1 - 1 = len + 4 := by omega
    rw [this]
    simp [QByteArray_at, he]
  have hn4 : ¬ ((FRAME_START_BYTE :: cmd :: len :: crc :: body).length < 4) := by
    simp only [List.length_cons]; omega
  have hns : ¬ ((FRAME_START_BYTE :: cmd :: len :: crc :: body).length < 4 + len + 1) := by
    simp only [List.length_cons]; omega
  have hdrop : List.drop 4 (FRAME_START_BYTE :: cmd :: len :: crc :: body) = body := rfl
  rw [processReceivedData.loop]
  simp only [hbuf, indexOf_head, lt_self_iff_false, if_false]
  simp only [hbuf, FRAME_HEADER_SIZE, a1, a2, a3, a4, hn4, hns, hd, hdrop, QByteArray_mid,
    QByteArray_remove0, bind, Except.bind, if_false]
  by_cases hv : crc = CalcCRC cmd len body ∧ e = FRAME_END_BYTE
  · simp only [hv, and_self, if_true]
  · simp only [hv, if_false, hbuf]

theorem loop_short (fuel : Nat) (s : BluetoothSocketCommunicate)
    (h : s.m_receiveBuffer.length < 4) : processReceivedData.loop fuel s = .ok s := by
  cases fuel <;> simp [processReceivedData.loop, FRAME_HEADER_SIZE, h]

theorem loop_noise (fuel : Nat) (s : BluetoothSocketCommunicate)
    (h : 4 ≤ s.m_receiveBuffer.length) (hg : ∀ b ∈ s.m_receiveBuffer, b ≠ FRAME_START_BYTE) :
    processReceivedData.loop (fuel + 1) s = .ok { s with m_receiveBuffer := [] } := by
  have hn : ¬ (s.m_receiveBuffer.length < 4) := by omega
  rw [processReceivedData.loop]
  simp only [FRAME_HEADER_SIZE, hn, if_false, indexOf_none _ hg]

/-- Bytes before the first start marker are dropped before the frame is looked at. -/
theorem loop_skip (fuel : Nat) (s : BluetoothSocketCommunicate) (g rest : List Nat)
    (hbuf : s.m_receiveBuffer = g ++ FRAME_START_BYTE :: rest)
    (hg : ∀ b ∈ g, b ≠ FRAME_START_BYTE) (h : 4 ≤ s.m_receiveBuffer.length) :
    processReceivedData.loop (fuel + 1) s
      = processReceivedData.loop (fuel + 1)
          { s with m_receiveBuffer := FRAME_START_BYTE :: rest } := by
  cases g with
  | nil =>
    simp only [List.nil_append] at hbuf
    rw [← hbuf]
  | cons a t =>
    have hn : ¬ (s.m_receiveBuffer.length < 4) := by omega
    have hpos : 0 < (a :: t).length := by simp
    have hdrop : List.drop (a :: t).length (a :: t ++ FRAME_START_BYTE :: rest)
        = FRAME_START_BYTE :: rest := List.drop_left _ _
    rw [processReceivedData.loop, processReceivedData.loop]
    simp only [FRAME_HEADER_SIZE, hn, if_false]
    simp only [hbuf, indexOf_garbage _ _ hg, indexOf_head, hpos, if_true, QByteArray_remove0,
      hdrop, lt_self_iff_false, if_false]
    by_cases h4 : (FRAME_START_BYTE :: rest).length < 4
    · simp only [h4, if_true]
    · simp only [h4, if_false]

/-- A frame whose announced length exceeds what the buffer holds is left in the buffer. -/
theorem loop_incomplete (fuel : Nat) (s : BluetoothSocketCommunicate) (cmd len : Nat)
    (rest : List Nat) (hbuf : s.m_receiveBuffer = FRAME_START_BYTE :: cmd :: len :: rest)
    (h : s.m_receiveBuffer.length < 4 + len + 1) :
    processReceivedData.loop (fuel + 1) s = .ok s := by
  have a1 : QByteArray_at (FRAME_START_BYTE :: cmd :: len :: rest) 1 = .ok cmd := rfl
  have a2 : QByteArray_at (FRAME_START_BYTE :: cmd :: len :: rest) 2 = .ok len := rfl
  rw [hbuf] at h
  rw [processReceivedData.loop]
  simp only [hbuf, indexOf_head, lt_self_iff_false, if_false]
  simp only [hbuf, FRAME_HEADER_SIZE, a1, a2, h, bind, Except.bind, if_true]
  split <;> rfl

theorem handleAcknowledgment_buffer (payload : List Nat) (s t : BluetoothSocketCommunicate)
    (h : handleAcknowledgment payload s = .ok t) : t.m_receiveBuffer = s.m_receiveBuffer := by
  unfold handleAcknowledgment at h
  split at h
  · simp only [bind, Except.bind] at h
    split at h
    · cases h
    · split at h
      · cases h; rfl
      · cases h; rfl
  · cases h; rfl

theorem SendFrameWithCommand_buffer (command : Nat) (payload : List Nat) (length : Nat)
    (requireAck : Bool) (s t : BluetoothSocketCommunicate)
    (h : SendFrameWithCommand command payload length requireAck s = .ok t) :
    t.m_receiveBuffer = s.m_receiveBuffer := by
  unfold SendFrameWithCommand at h
  split at h
  · cases h; rfl
  · simp only [bind, Except.bind] at h
    split at h
    · cases h
    · cases h; rfl

theorem dispatch_buffer (cmd : Nat) (payload : List Nat) (s t : BluetoothSocketCommunicate)
    (h : processReceivedData.dispatch cmd payload s = .ok t) :
    t.m_receiveBuffer = s.m_receiveBuffer := by
  unfold processReceivedData.dispatch at h
  split at h
  · exact handleAcknowledgment_buffer _ _ _ h
  · exact SendFrameWithCommand_buffer 1 [cmd] 1 false (s.emit (.ReceivedData payload)) t h

theorem handleAcknowledgment_setBuffer (payload b : List Nat) (s : BluetoothSocketCommunicate) :
    handleAcknowledgment payload { s with m_receiveBuffer := b }
      = (handleAcknowledgment payload s >>= fun t => .ok { t with m_receiveBuffer := b }) := by
  obtain ⟨rb, q, cur, sz, rc, w, at1, qt, co, wr, tr⟩ := s
  unfold handleAcknowledgment
  cases w <;> cases cur <;> simp only [bind, Except.bind]
  cases ha : QByteArray_at payload 0 with
  | error e => rfl
  | ok v =>
    simp only
    split <;> rfl

theorem SendFrameWithCommand_setBuffer (command : Nat) (payload : List Nat) (length : Nat)
    (requireAck : Bool) (b : List Nat) (s : BluetoothSocketCommunicate) :
    SendFrameWithCommand command payload length requireAck { s with m_receiveBuffer := b }
      = (SendFrameWithCommand command payload length requireAck s >>= fun t =>
          .ok { t with m_receiveBuffer := b }) := by
  obtain ⟨rb, q, cur, sz, rc, w, at1, qt, co, wr, tr⟩ := s
  unfold SendFrameWithCommand
  cases co
  · simp [bind, Except.bind, BluetoothSocketCommunicate.emit]
  · simp only [bind, Except.bind]
    cases hfd : SendFrameWithCommand.frameData command payload length <;> simp

/-- The receive buffer plays no part in the dispatch of a frame. -/
theorem dispatch_setBuffer (cmd : Nat) (payload b : List Nat) (s : BluetoothSocketCommunicate) :
    processReceivedData.dispatch cmd payload { s with m_receiveBuffer := b }
      = (processReceivedData.dispatch cmd payload s >>= fun t =>
          .ok { t with m_receiveBuffer := b }) := by
  unfold processReceivedData.dispatch
  by_cases h1 : cmd = 1
  · simp only [h1, if_true]
    exact handleAcknowledgment_setBuffer payload b s
  · simp only [h1, if_false, sendAcknowledgment]
    exact SendFrameWithCommand_setBuffer 1 [cmd] 1 false b (s.emit (.ReceivedData payload))

/-! ## Receiving a well-formed frame -/

theorem CalcCRC_append (command : Nat) (payload rest : List Nat) :
    CalcCRC command payload.length (payload ++ rest) = CalcCRC command payload.length payload := by
  rw [← CalcCRC_take command payload.length (payload ++ rest), List.take_left]

/-- The iteration of the receive loop on a buffer that starts with a well-formed frame: the
frame is dispatched with its command and payload, and removed from the buffer. -/
theorem loop_wireFrame (fuel : Nat) (s : BluetoothSocketCommunicate) (command : Nat)
    (payload rest : List Nat) (hbuf : s.m_receiveBuffer = wireFrame command payload ++ rest) :
    processReceivedData.loop (fuel + 1) s
      = processReceivedData.dispatch command payload s >>= fun t =>
          processReceivedData.loop fuel { t with m_receiveBuffer := rest } := by
  have hbuf2 : s.m_receiveBuffer = FRAME_START_BYTE :: command :: payload.length
      :: CalcCRC command payload.length payload :: (payload ++ FRAME_END_BYTE :: rest) := by
    rw [hbuf]; simp [wireFrame]
  have hlen : payload.length + 1 ≤ (payload ++ FRAME_END_BYTE :: rest).length := by
    simp
  rw [loop_complete fuel s command payload.length _ _ hbuf2 hlen]
  have hv : CalcCRC command payload.length payload
      = CalcCRC command payload.length (payload ++ FRAME_END_BYTE :: rest)
      ∧ (payload ++ FRAME_END_BYTE :: rest).getD payload.length 0 = FRAME_END_BYTE := by
    refine ⟨(CalcCRC_append _ _ _).symm, ?_⟩
    rw [List.getD_eq_getElem?_getD, List.getElem?_append_right (Nat.le_refl _)]
    simp
  simp only [hv, and_self, if_true, List.take_left]
  cases hd : processReceivedData.dispatch command payload s with
  | error e => rfl
  | ok t =>
    have hb := dispatch_buffer _ _ _ _ hd
    simp only [bind, Except.bind]
    congr 2
    rw [hb, hbuf2]
    simp [FRAME_HEADER_SIZE, Nat.add_comm 4 payload.length]

/-- Receiving exactly one well-formed frame into an empty buffer dispatches it and leaves the
buffer empty. -/
theorem dataReceived_wireFrame (command : Nat) (payload : List Nat)
    (s : BluetoothSocketCommunicate) (hempty : s.m_receiveBuffer = []) :
    dataReceived (wireFrame command payload) s = processReceivedData.dispatch command payload s := by
  have hlenw : (wireFrame command payload).length = (payload.length + 4) + 1 := by
    simp [wireFrame]
  unfold dataReceived processReceivedData
  simp only [hempty, List.nil_append, hlenw]
  rw [loop_wireFrame (payload.length + 4) _ command payload [] (by simp)]
  rw [dispatch_setBuffer]
  cases hd : processReceivedData.dispatch command payload s with
  | error e => rfl
  | ok t =>
    have hb := dispatch_buffer _ _ _ _ hd
    simp only [bind, Except.bind]
    rw [loop_short _ _ (by simp)]
    congr 1
    rw [hempty] at hb
    cases t
    simp only at hb
    simp [hb]

/-! ## Trace projections -/

theorem socketWrites_append (a b : List Effect) :
    socketWrites (a ++ b) = socketWrites a ++ socketWrites b := by
  induction a with
  | nil => rfl
  | cons e t ih => cases e <;> simp [socketWrites, ih]

theorem sendResults_append (a b : List Effect) :
    sendResults (a ++ b) = sendResults a ++ sendResults b := by
  induction a with
  | nil => rfl
  | cons e t ih => cases e <;> simp [sendResults, ih]

theorem receivedMessages_append (a b : List Effect) :
    receivedMessages (a ++ b) = receivedMessages a ++ receivedMessages b := by
  induction a with
  | nil => rfl
  | cons e t ih => cases e <;> simp [receivedMessages, ih]

/-! ## When a dispatch returns -/

theorem sendAcknowledgment_ok (cmd : Nat) (s : BluetoothSocketCommunicate) :
    sendAcknowledgment cmd s
      = .ok (if s.socketConnected then
              { s with m_sendQueue := s.m_sendQueue ++
                  [{ data := wireFrame 1 [cmd], length := 1, command := 1, requiresAck := false }] }
             else s.emit (.DataSent false)) := by
  unfold sendAcknowledgment
  cases hc : s.socketConnected
  · simp [SendFrameWithCommand_closed 1 [cmd] 1 false s hc]
  · have h := SendFrameWithCommand_ok 1 [cmd] false s (by simp) hc
    simp only [List.length_singleton] at h
    simp [h, hc]

theorem dispatch_ok (cmd : Nat) (payload : List Nat) (s : BluetoothSocketCommunicate)
    (h : cmd = 1 → payload ≠ [] ∨ s.m_isWaitingForAck = false ∨ s.m_currentSendingFrame = none) :
    ∃ t, processReceivedData.dispatch cmd payload s = .ok t := by
  unfold processReceivedData.dispatch
  by_cases h1 : cmd = 1
  · simp only [h1, if_true]
    unfold handleAcknowledgment
    rcases h h1 with hp | hw | hf
    · cases payload with
      | nil => exact absurd rfl hp
      | cons a t =>
        split
        · simp only [QByteArray_at, List.get?_cons_zero, bind, Except.bind]
          split <;> exact ⟨_, rfl⟩
        · exact ⟨_, rfl⟩
    · split
      · rename_i hw2 _
        rw [hw] at hw2
        cases hw2
      · exact ⟨_, rfl⟩
    · split
      · rename_i _ hf2
        rw [hf] at hf2
        cases hf2
      · exact ⟨_, rfl⟩
  · simp only [h1, if_false]
    exact ⟨_, sendAcknowledgment_ok cmd _⟩

/-! ## Receiving a damaged frame -/

/-- A complete frame that fails validation is removed from the buffer and nothing else is done. -/
theorem dataReceived_invalid (s : BluetoothSocketCommunicate) (cmd len crc : Nat) (body : List Nat)
    (hempty : s.m_receiveBuffer = []) (hlen : body.length = len + 1)
    (hbad : ¬ (crc = CalcCRC cmd len body ∧ body.getD len 0 = FRAME_END_BYTE)) :
    dataReceived (FRAME_START_BYTE :: cmd :: len :: crc :: body) s = .ok s := by
  unfold dataReceived processReceivedData
  simp only [hempty, List.nil_append, List.length_cons]
  rw [loop_complete _ _ cmd len crc body rfl (by omega)]
  simp only [hbad, if_false, bind, Except.bind]
  rw [loop_short _ _ (by simp [FRAME_HEADER_SIZE, hlen]; omega)]
  congr 1
  obtain ⟨rb, q, cur, sz, rc, w, at1, qt, co, wr, tr⟩ := s
  simp only at hempty
  simp [hempty, FRAME_HEADER_SIZE, hlen]
  omega

/-- A frame that announces more bytes than have arrived stays in the buffer untouched. -/
theorem dataReceived_incomplete (s : BluetoothSocketCommunicate) (cmd len crc : Nat)
    (body : List Nat) (hempty : s.m_receiveBuffer = []) (hlen : body.length < len + 1) :
    dataReceived (FRAME_START_BYTE :: cmd :: len :: crc :: body) s
      = .ok { s with m_receiveBuffer := FRAME_START_BYTE :: cmd :: len :: crc :: body } := by
  unfold dataReceived processReceivedData
  simp only [hempty, List.nil_append, List.length_cons]
  rw [loop_incomplete _ _ cmd len (crc :: body) rfl (by simp only [List.length_cons]; omega)]

theorem sum_set (l : List Nat) (i b : Nat) (hi : i < l.length) :
    (l.set i b).sum + l.getD i 0 = l.sum + b := by
  induction l generalizing i with
  | nil => simp at hi
  | cons a t ih =>
    cases i with
    | zero => simp; omega
    | succ k =>
      have := ih k (by simpa using hi)
      simp only [List.set_cons_succ, List.sum_cons, List.getD_cons_succ]
      omega

theorem getD_lt_of_bytes (l : List Nat) (i : Nat) (hb : ∀ b ∈ l, b < 256) : l.getD i 0 < 256 := by
  by_cases hi : i < l.length
  · rw [List.getD_eq_getElem _ _ hi]
    exact hb _ (List.getElem_mem hi)
  · rw [List.getD_eq_default _ _ (by omega)]
    omega

/-- The two-stage fold tells two sums apart when they differ by 1 to 254. -/
theorem fold_ne_of_diff (a b : Nat) (ha : a ≤ 65535) (hb : b ≤ 65535) (hne : a ≠ b)
    (h1 : a + 255 ≠ b) (h2 : b + 255 ≠ a) (h3 : a < b + 256) (h4 : b < a + 256) :
    (a % 256 + a / 256) % 256 ≠ (b % 256 + b / 256) % 256 := by
  have hq : a / 256 = b / 256 ∨ a / 256 + 1 = b / 256 ∨ b / 256 + 1 = a / 256 := by omega
  have ha1 : a / 256 ≤ 255 := by omega
  have hb1 : b / 256 ≤ 255 := by omega
  have ha2 := Nat.div_add_mod a 256
  have hb2 := Nat.div_add_mod b 256
  have ha3 := Nat.mod_lt a (by decide : 256 > 0)
  have hb3 := Nat.mod_lt b (by decide : 256 > 0)
  generalize a / 256 = ah at *
  generalize a % 256 = al at *
  generalize b / 256 = bh at *
  generalize b % 256 = bl at *
  rcases hq with h | h | h <;> omega

theorem CalcCRC_command_ne (c c2 : Nat) (p : List Nat) (hc : c < 256) (hc2 : c2 < 256)
    (hl : p.length ≤ 255) (hb : ∀ b ∈ p, b < 256) (hne : c2 ≠ c)
    (h1 : ¬ (c = 0 ∧ c2 = 255)) (h2 : ¬ (c = 255 ∧ c2 = 0)) :
    CalcCRC c p.length p ≠ CalcCRC c2 p.length p := by
  obtain ⟨b1, e1⟩ := CalcCRC_exact c p.length p hc hl rfl hb
  obtain ⟨b2, e2⟩ := CalcCRC_exact c2 p.length p hc2 hl rfl hb
  rw [e1, e2]
  apply fold_ne_of_diff _ _ b1 b2 <;> omega

theorem CalcCRC_payload_ne (c : Nat) (p : List Nat) (i b : Nat) (hc : c < 256)
    (hl : p.length ≤ 255) (hb : ∀ x ∈ p, x < 256) (hi : i < p.length) (hb2 : b < 256)
    (hne : b ≠ p.getD i 0)
    (h1 : ¬ (p.getD i 0 = 0 ∧ b = 255)) (h2 : ¬ (p.getD i 0 = 255 ∧ b = 0)) :
    CalcCRC c p.length p ≠ CalcCRC c p.length (p.set i b) := by
  have hb3 : ∀ x ∈ p.set i b, x < 256 := by
    intro x hx
    rcases List.mem_or_eq_of_mem_set hx with h | h
    · exact hb x h
    · rw [h]; exact hb2
  obtain ⟨b1, e1⟩ := CalcCRC_exact c p.length p hc hl rfl hb
  obtain ⟨b2, e2⟩ := CalcCRC_exact c p.length (p.set i b) hc hl (by simp) hb3
  have hs := sum_set p i b hi
  have hg := getD_lt_of_bytes p i hb
  rw [e1, e2]
  apply fold_ne_of_diff _ _ b1 b2 <;> omega

/-! ## Receiving a frame after noise -/

theorem wireFrame_eq_cons (command : Nat) (payload : List Nat) :
    wireFrame command payload = FRAME_START_BYTE :: (command :: payload.length
      :: CalcCRC command payload.length payload :: (payload ++ [FRAME_END_BYTE])) := by
  simp [wireFrame]

theorem dispatch_clear (cmd : Nat) (payload : List Nat) (s : BluetoothSocketCommunicate)
    (hempty : s.m_receiveBuffer = []) :
    (processReceivedData.dispatch cmd payload s >>= fun t =>
      (.ok { t with m_receiveBuffer := [] } : Except Fault BluetoothSocketCommunicate))
      = processReceivedData.dispatch cmd payload s := by
  cases hd : processReceivedData.dispatch cmd payload s with
  | error e => rfl
  | ok t =>
    have hb := dispatch_buffer _ _ _ _ hd
    rw [hempty] at hb
    obtain ⟨rb, q, cur, sz, rc, w, at1, qt, co, wr, tr⟩ := t
    simp only at hb
    simp [bind, Except.bind, hb]

/-- Bytes without a start marker in front of a well-formed frame change nothing: the buffer
`g ++ frame` is processed exactly like `frame` alone. -/
theorem dataReceived_noise_wireFrame (g : List Nat) (command : Nat) (payload : List Nat)
    (s : BluetoothSocketCommunicate) (hg : ∀ b ∈ g, b ≠ FRAME_START_BYTE)
    (hempty : s.m_receiveBuffer = []) :
    dataReceived (g ++ wireFrame command payload) s
      = processReceivedData.dispatch command payload s := by
  have hlen : (g ++ wireFrame command payload).length = (g.length + payload.length + 4) + 1 := by
    simp [wireFrame]; omega
  unfold dataReceived processReceivedData
  simp only [hempty, List.nil_append, hlen]
  rw [loop_skip _ _ g _ (by simp only; rw [wireFrame_eq_cons]) hg (by simp only; omega)]
  rw [loop_wireFrame _ _ command payload [] (by simp [wireFrame_eq_cons])]
  rw [dispatch_setBuffer, dispatch_setBuffer]
  cases hd : processReceivedData.dispatch command payload s with
  | error e => rfl
  | ok t =>
    have hb := dispatch_buffer _ _ _ _ hd
    rw [hempty] at hb
    obtain ⟨rb, q, cur, sz, rc, w, at1, qt, co, wr, tr⟩ := t
    simp only at hb
    simp only [bind, Except.bind]
    rw [loop_short _ _ (by simp)]
    simp [hb]

/-- The dispatch of a frame that is not an ACK: the payload is emitted once, and an ACK frame
for the command is queued (or, on a closed socket, `DataSent(false)` is emitted). -/
theorem dispatch_data (cmd : Nat) (payload : List Nat) (s : BluetoothSocketCommunicate)
    (h1 : cmd ≠ 1) :
    ∃ t, processReceivedData.dispatch cmd payload s = .ok t
      ∧ receivedMessages t.trace = receivedMessages s.trace ++ [payload]
      ∧ socketWrites t.trace = socketWrites s.trace
      ∧ t.m_receiveBuffer = s.m_receiveBuffer
      ∧ t.m_currentSendingFrame = s.m_currentSendingFrame
      ∧ t.m_isWaitingForAck = s.m_isWaitingForAck
      ∧ t.m_retryCount = s.m_retryCount := by
  unfold processReceivedData.dispatch
  simp only [h1, if_false]
  refine ⟨_, sendAcknowledgment_ok cmd _, ?_⟩
  cases hc : s.socketConnected <;>
    simp [BluetoothSocketCommunicate.emit, hc, receivedMessages_append, receivedMessages,
      socketWrites_append, socketWrites]

/-! ## Receiving a frame in pieces -/

/-- While only a proper initial part of a frame has arrived, `processReceivedData` leaves the
object as it is. -/
theorem processReceivedData_partial (s : BluetoothSocketCommunicate) (command : Nat)
    (payload suffix : List Nat) (hbuf : s.m_receiveBuffer ++ suffix = wireFrame command payload)
    (hlt : s.m_receiveBuffer.length < (wireFrame command payload).length) :
    processReceivedData s = .ok s := by
  unfold processReceivedData
  by_cases h4 : s.m_receiveBuffer.length < 4
  · exact loop_short _ _ h4
  · rw [wireFrame_length] at hlt
    rw [wireFrame_eq_cons] at hbuf
    obtain ⟨k, hk⟩ : ∃ k, s.m_receiveBuffer.length = k + 1 := ⟨s.m_receiveBuffer.length - 1, by omega⟩
    rw [hk]
    match hb : s.m_receiveBuffer with
    | [] => rw [hb] at h4; simp at h4
    | [_] => rw [hb] at h4; simp at h4
    | [_, _] => rw [hb] at h4; simp at h4
    | x :: y :: z :: rest =>
      rw [hb] at hbuf hlt
      simp only [List.cons_append, List.cons.injEq] at hbuf
      obtain ⟨hx, hy, hz, _⟩ := hbuf
      rw [hx, hy, hz] at hb
      apply loop_incomplete _ _ command payload.length rest hb
      rw [hb]
      simp only [List.length_cons] at hlt ⊢
      omega

theorem feed_nil_chunks (chunks : List (List Nat)) (s : BluetoothSocketCommunicate)
    (hc : ∀ ch ∈ chunks, ch = []) (hempty : s.m_receiveBuffer = []) :
    feed chunks s = .ok s := by
  induction chunks with
  | nil => rfl
  | cons ch rest ih =>
    have h1 : ch = [] := hc ch (List.mem_cons_self ch rest)
    have h2 := ih (fun c hcm => hc c (List.mem_cons_of_mem ch hcm))
    subst h1
    have hstep : dataReceived [] s = .ok s := by
      unfold dataReceived processReceivedData
      simp only [hempty, List.append_nil, List.length_nil]
      rw [loop_short _ _ (by simp)]
      congr 1
      obtain ⟨rb, q, cur, sz, rc, w, at1, qt, co, wr, tr⟩ := s
      simp only at hempty
      simp [hempty]
    unfold feed at h2 ⊢
    simp only [List.map_cons, run, step, hstep, bind, Except.bind]
    exact h2

/-- Delivering a frame in chunks, onto an initial part of it already in the buffer, ends like
the dispatch of the frame. -/
theorem feed_fragments (command : Nat) (payload : List Nat) (chunks : List (List Nat)) :
    ∀ s : BluetoothSocketCommunicate,
      s.m_receiveBuffer ++ chunks.flatten = wireFrame command payload →
      s.m_receiveBuffer.length < (wireFrame command payload).length →
      feed chunks s
        = processReceivedData.dispatch command payload { s with m_receiveBuffer := [] } := by
  induction chunks with
  | nil =>
    intro s hbuf hlt
    simp only [List.flatten_nil, List.append_nil] at hbuf
    rw [hbuf] at hlt
    exact absurd hlt (Nat.lt_irrefl _)
  | cons ch rest ih =>
    intro s hbuf hlt
    simp only [List.flatten_cons, ← List.append_assoc] at hbuf
    unfold feed
    simp only [List.map_cons, run, step]
    by_cases hfull : (s.m_receiveBuffer ++ ch).length < (wireFrame command payload).length
    · have hno : dataReceived ch s = .ok { s with m_receiveBuffer := s.m_receiveBuffer ++ ch } :=
        processReceivedData_partial { s with m_receiveBuffer := s.m_receiveBuffer ++ ch }
          command payload rest.flatten hbuf hfull
      simp only [hno, bind, Except.bind]
      exact ih { s with m_receiveBuffer := s.m_receiveBuffer ++ ch } hbuf hfull
    · have hlen := congrArg List.length hbuf
      simp only [List.length_append] at hlen hfull
      have hrest : rest.flatten = [] := List.eq_nil_of_length_eq_zero (by omega)
      rw [hrest, List.append_nil] at hbuf
      have hrest2 : ∀ c ∈ rest, c = [] := List.flatten_eq_nil_iff.mp hrest
      have hd : dataReceived ch s
          = processReceivedData.dispatch command payload { s with m_receiveBuffer := [] } := by
        have := dataReceived_wireFrame command payload { s with m_receiveBuffer := [] } rfl
        rw [← this]
        unfold dataReceived
        simp only [List.nil_append, hbuf]
      rw [hd]
      cases hdis : processReceivedData.dispatch command payload { s with m_receiveBuffer := [] } with
      | error e => rfl
      | ok t =>
        have hb := dispatch_buffer _ _ _ _ hdis
        simp only [bind, Except.bind]
        exact feed_nil_chunks rest t hrest2 hb

/-! ## Runs of events -/

theorem run_append (es1 es2 : List Event) (s : BluetoothSocketCommunicate) :
    run (es1 ++ es2) s = run es1 s >>= run es2 := by
  induction es1 generalizing s with
  | nil => rfl
  | cons e r ih =>
    simp only [List.cons_append, run, bind, Except.bind]
    cases step e s with
    | error x => rfl
    | ok t => exact ih t

theorem handleAckTimeout_idle (s : BluetoothSocketCommunicate) (h : s.m_isWaitingForAck = false) :
    handleAckTimeout s = s := by
  unfold handleAckTimeout
  split
  · rename_i hw _
    rw [h] at hw
    cases hw
  · rfl

theorem run_ackTimeout_idle (n : Nat) (s : BluetoothSocketCommunicate)
    (h : s.m_isWaitingForAck = false) :
    run (List.replicate n Event.ackTimeout) s = .ok s := by
  induction n with
  | zero => rfl
  | succ k ih =>
    simp only [List.replicate_succ, run, step, bind, Except.bind, handleAckTimeout_idle s h]
    exact ih

/-! ## Invariants of the receive loop -/

/-- A property of the object kept by every change of the receive buffer and by every dispatch
is kept by the receive loop. -/
theorem loop_preserves (P : BluetoothSocketCommunicate → Prop)
    (hbuf : ∀ s b, P s → P { s with m_receiveBuffer := b })
    (hdis : ∀ cmd payload s t, P s → processReceivedData.dispatch cmd payload s = .ok t → P t) :
    ∀ (fuel : Nat) (s t : BluetoothSocketCommunicate),
      P s → processReceivedData.loop fuel s = .ok t → P t := by
  intro fuel
  induction fuel with
  | zero =>
    intro s t hs h
    unfold processReceivedData.loop at h
    split at h
    · cases h; exact hs
    · cases h
  | succ n ih =>
    intro s t hs h
    unfold processReceivedData.loop at h
    split at h
    · cases h; exact hs
    · split at h
      · cases h; exact hbuf s [] hs
      · rename_i startPos _
        have hs2 : P (if 0 < startPos
            then { s with m_receiveBuffer := QByteArray_remove0 s.m_receiveBuffer startPos }
            else s) := by
          split
          · exact hbuf s _ hs
          · exact hs
        revert h hs2
        generalize (if 0 < startPos
            then { s with m_receiveBuffer := QByteArray_remove0 s.m_receiveBuffer startPos }
            else s) = s2
        intro h hs2
        simp only at h
        by_cases h4 : s2.m_receiveBuffer.length < FRAME_HEADER_SIZE
        · simp only [h4, if_true] at h
          cases h; exact hs2
        · simp only [h4, if_false, bind, Except.bind] at h
          cases h1 : QByteArray_at s2.m_receiveBuffer 1 with
          | error e => simp only [h1] at h; cases h
          | ok cmd =>
            simp only [h1] at h
            cases h2 : QByteArray_at s2.m_receiveBuffer 2 with
            | error e => simp only [h2] at h; cases h
            | ok len =>
              simp only [h2] at h
              by_cases hsz : s2.m_receiveBuffer.length < FRAME_HEADER_SIZE + len + 1
              · simp only [hsz, if_true] at h
                cases h; exact hs2
              · simp only [hsz, if_false] at h
                cases h3 : QByteArray_at s2.m_receiveBuffer 3 with
                | error e => simp only [h3] at h; cases h
                | ok crc =>
                  simp only [h3] at h
                  cases h5 : QByteArray_at s2.m_receiveBuffer (FRAME_HEADER_SIZE + len + 1 - 1) with
                  | error e => simp only [h5] at h; cases h
                  | ok endByte =>
                    simp only [h5] at h
                    by_cases hv : crc = CalcCRC cmd len (List.drop FRAME_HEADER_SIZE s2.m_receiveBuffer)
                        ∧ endByte = FRAME_END_BYTE
                    · simp only [hv, and_self, if_true] at h
                      cases hd : processReceivedData.dispatch cmd
                          (QByteArray_mid s2.m_receiveBuffer FRAME_HEADER_SIZE len) s2 with
                      | error e => simp only [hd] at h; cases h
                      | ok s3 =>
                        simp only [hd] at h
                        exact ih _ t (hbuf s3 _ (hdis _ _ _ _ hs2 hd)) h
                    · simp only [hv, if_false] at h
                      exact ih _ t (hbuf s2 _ hs2) h

/-! ## A frame in flight under ticks and timeouts -/

/-- While a frame is in flight on a writable socket, ticks change nothing and each ACK timeout
up to the third writes the frame again and counts one retry. -/
theorem inflight_run (frame : FrameData) (es : List Event)
    (hes : ∀ e ∈ es, e = Event.tick ∨ e = Event.ackTimeout) :
    ∀ (rb : List Nat) (q : List FrameData) (sz : Nat) (qt co : Bool) (tr : List Effect) (r : Nat),
      r + es.count Event.ackTimeout ≤ 3 →
      run es ⟨rb, q, some frame, sz, (r : Int), true, true, qt, co, true, tr⟩
        = .ok ⟨rb, q, some frame, sz, ((r + es.count Event.ackTimeout : Nat) : Int), true, true,
            qt, co, true,
            tr ++ List.replicate (es.count Event.ackTimeout)
              (Effect.socketWrite (frame.data.take sz))⟩ := by
  induction es with
  | nil =>
    intro rb q sz qt co tr r _
    simp [run]
  | cons e rest ih =>
    intro rb q sz qt co tr r hr
    have hrest : ∀ x ∈ rest, x = Event.tick ∨ x = Event.ackTimeout :=
      fun x hx => hes x (List.mem_cons_of_mem e hx)
    rcases hes e (List.mem_cons_self e rest) with he | he
    · subst he
      have hc : (Event.tick :: rest).count Event.ackTimeout = rest.count Event.ackTimeout := by
        simp [List.count_cons]
      rw [hc] at hr ⊢
      simp only [run, step, processSendQueue, bind, Except.bind, if_true]
      exact ih hrest rb q sz qt co tr r hr
    · subst he
      have hc : (Event.ackTimeout :: rest).count Event.ackTimeout
          = rest.count Event.ackTimeout + 1 := by
        simp [List.count_cons]
      rw [hc] at hr ⊢
      have hlt : (r : Int) < MAX_RETRIES := by simp only [MAX_RETRIES]; omega
      simp only [run, step, handleAckTimeout, hlt, if_true, actualSendFrame,
        BluetoothSocketCommunicate.emit, bind, Except.bind]
      have := ih hrest rb q sz qt co
        (tr ++ [Effect.socketWrite (frame.data.take sz)]) (r + 1) (by omega)
      rw [show ((r : Int) + 1) = ((r + 1 : Nat) : Int) by push_cast; rfl, this]
      congr 2
      · congr 1; omega
      · rw [List.append_assoc, List.replicate_succ]
        rfl

/-! ## The loop budget -/

theorem QByteArray_at_fault (a : List Nat) (i : Nat) (e : Fault)
    (h : QByteArray_at a i = .error e) : e = .readOutOfBounds := by
  unfold QByteArray_at at h
  split at h
  · cases h
  · cases h; rfl

theorem dispatch_fault (cmd : Nat) (payload : List Nat) (s : BluetoothSocketCommunicate)
    (e : Fault) (h : processReceivedData.dispatch cmd payload s = .error e) :
    e = .readOutOfBounds := by
  unfold processReceivedData.dispatch at h
  split at h
  · unfold handleAcknowledgment at h
    split at h
    · simp only [bind, Except.bind] at h
      cases ha : QByteArray_at payload 0 with
      | error x =>
        simp only [ha] at h
        cases h
        exact QByteArray_at_fault _ _ _ ha
      | ok v =>
        simp only [ha] at h
        split at h <;> cases h
    · cases h
  · rw [sendAcknowledgment_ok] at h
    cases h

/-- The budget given by `processReceivedData` is never used up: with at least as much budget as
there are bytes in the buffer, the loop returns a state or stops at a read out of bounds. -/
theorem loop_budget : ∀ (fuel : Nat) (s : BluetoothSocketCommunicate) (e : Fault),
    s.m_receiveBuffer.length ≤ fuel → processReceivedData.loop fuel s = .error e →
    e = .readOutOfBounds := by
  intro fuel
  induction fuel with
  | zero =>
    intro s e hlen h
    unfold processReceivedData.loop at h
    have : s.m_receiveBuffer.length < FRAME_HEADER_SIZE := by
      simp only [FRAME_HEADER_SIZE]; omega
    simp only [this, if_true] at h
    cases h
  | succ n ih =>
    intro s e hlen h
    unfold processReceivedData.loop at h
    split at h
    · cases h
    · split at h
      · cases h
      · rename_i startPos _
        have hl2 : (if 0 < startPos
            then { s with m_receiveBuffer := QByteArray_remove0 s.m_receiveBuffer startPos }
            else s).m_receiveBuffer.length ≤ n + 1 := by
          split
          · simp only [QByteArray_remove0, List.length_drop]; omega
          · exact hlen
        revert h hl2
        generalize (if 0 < startPos
            then { s with m_receiveBuffer := QByteArray_remove0 s.m_receiveBuffer startPos }
            else s) = s2
        intro h hl2
        simp only at h
        by_cases h4 : s2.m_receiveBuffer.length < FRAME_HEADER_SIZE
        · simp only [h4, if_true] at h
          cases h
        · simp only [h4, if_false, bind, Except.bind] at h
          cases h1 : QByteArray_at s2.m_receiveBuffer 1 with
          | error x => simp only [h1] at h; cases h; exact QByteArray_at_fault _ _ _ h1
          | ok cmd =>
            simp only [h1] at h
            cases h2 : QByteArray_at s2.m_receiveBuffer 2 with
            | error x => simp only [h2] at h; cases h; exact QByteArray_at_fault _ _ _ h2
            | ok len =>
              simp only [h2] at h
              by_cases hsz : s2.m_receiveBuffer.length < FRAME_HEADER_SIZE + len + 1
              · simp only [hsz, if_true] at h
                cases h
              · simp only [hsz, if_false] at h
                cases h3 : QByteArray_at s2.m_receiveBuffer 3 with
                | error x => simp only [h3] at h; cases h; exact QByteArray_at_fault _ _ _ h3
                | ok crc =>
                  simp only [h3] at h
                  cases h5 : QByteArray_at s2.m_receiveBuffer (FRAME_HEADER_SIZE + len + 1 - 1) with
                  | error x => simp only [h5] at h; cases h; exact QByteArray_at_fault _ _ _ h5
                  | ok endByte =>
                    simp only [h5] at h
                    have hdrop : ∀ b : List Nat, b.length = s2.m_receiveBuffer.length →
                        (QByteArray_remove0 b (FRAME_HEADER_SIZE + len + 1)).length ≤ n := by
                      intro b hb
                      simp only [QByteArray_remove0, List.length_drop, FRAME_HEADER_SIZE, hb]
                      omega
                    by_cases hv : crc = CalcCRC cmd len (List.drop FRAME_HEADER_SIZE s2.m_receiveBuffer)
                        ∧ endByte = FRAME_END_BYTE
                    · simp only [hv, and_self, if_true] at h
                      cases hd : processReceivedData.dispatch cmd
                          (QByteArray_mid s2.m_receiveBuffer FRAME_HEADER_SIZE len) s2 with
                      | error x =>
                        simp only [hd] at h
                        cases h
                        exact dispatch_fault _ _ _ _ hd
                      | ok s3 =>
                        simp only [hd] at h
                        have hb3 := dispatch_buffer _ _ _ _ hd
                        exact ih _ e (hdrop _ (by rw [hb3])) h
                    · simp only [hv, if_false] at h
                      exact ih _ e (hdrop _ rfl) h

/-- A run of events that does not return a state has stopped at a read out of bounds. -/
theorem run_fault (es : List Event) :
    ∀ (s : BluetoothSocketCommunicate) (e : Fault), run es s = .error e → e = .readOutOfBounds := by
  induction es with
  | nil => intro s e h; cases h
  | cons ev r ih =>
    intro s e h
    simp only [run, bind, Except.bind] at h
    cases hs : step ev s with
    | error x =>
      simp only [hs] at h
      cases h
      cases ev with
      | tick => cases hs
      | ackTimeout => cases hs
      | received newData =>
        simp only [step, dataReceived, processReceivedData] at hs
        exact loop_budget (s.m_receiveBuffer ++ newData).length
          { s with m_receiveBuffer := s.m_receiveBuffer ++ newData } e (Nat.le_refl _) hs
    | ok u =>
      simp only [hs] at h
      exact ih u e h

/-! ## The single-flight invariant -/

theorem FirstReleased_extend (w1 : List Nat) (new extra : List Effect)
    (h : FirstReleased w1 new) : FirstReleased w1 (new ++ extra) := by
  obtain ⟨pre, b, post, k, hnew, h1, h2, h3, h4, h5⟩ := h
  exact ⟨pre, b, post ++ extra, k, by rw [hnew]; simp, h1, h2, h3, h4, h5⟩

theorem processSendQueue_grows (s : BluetoothSocketCommunicate) :
    ∃ extra, (processSendQueue s).trace = s.trace ++ extra
      ∧ (processSendQueue s).socketConnected = s.socketConnected
      ∧ (processSendQueue s).socketWritable = s.socketWritable := by
  obtain ⟨rb, q, cur, sz, rc, w, at1, qt, co, wr, tr⟩ := s
  unfold processSendQueue
  cases w
  · cases q with
    | nil => exact ⟨[], by simp⟩
    | cons f r =>
      cases hr : f.requiresAck <;> cases wr <;>
        simp [actualSendFrame, BluetoothSocketCommunicate.emit, hr]
  · exact ⟨[], by simp⟩

theorem handleAckTimeout_grows (s : BluetoothSocketCommunicate) :
    ∃ extra, (handleAckTimeout s).trace = s.trace ++ extra
      ∧ (handleAckTimeout s).socketConnected = s.socketConnected
      ∧ (handleAckTimeout s).socketWritable = s.socketWritable := by
  obtain ⟨rb, q, cur, sz, rc, w, at1, qt, co, wr, tr⟩ := s
  unfold handleAckTimeout
  cases w <;> cases cur
  · exact ⟨[], by simp⟩
  · exact ⟨[], by simp⟩
  · exact ⟨[], by simp⟩
  · by_cases hr : rc < MAX_RETRIES <;> cases wr <;>
      simp [actualSendFrame, BluetoothSocketCommunicate.emit, hr]

theorem dispatch_grows (cmd : Nat) (payload : List Nat) (s t : BluetoothSocketCommunicate)
    (h : processReceivedData.dispatch cmd payload s = .ok t) :
    ∃ extra, t.trace = s.trace ++ extra
      ∧ t.socketConnected = s.socketConnected ∧ t.socketWritable = s.socketWritable := by
  obtain ⟨rb, q, cur, sz, rc, w, at1, qt, co, wr, tr⟩ := s
  unfold processReceivedData.dispatch at h
  by_cases h1 : cmd = 1
  · simp only [h1, if_true] at h
    unfold handleAcknowledgment at h
    cases w <;> cases cur <;> simp only [bind, Except.bind] at h
    · cases h; exact ⟨[], by simp⟩
    · cases h; exact ⟨[], by simp⟩
    · cases h; exact ⟨[], by simp⟩
    · cases ha : QByteArray_at payload 0 with
      | error e => simp only [ha] at h; cases h
      | ok v =>
        simp only [ha] at h
        split at h
        · cases h; exact ⟨[Effect.DataSent true], by simp [BluetoothSocketCommunicate.emit]⟩
        · cases h; exact ⟨[], by simp⟩
  · simp only [h1, if_false] at h
    rw [sendAcknowledgment_ok] at h
    cases co
    · simp [BluetoothSocketCommunicate.emit] at h
      subst h
      exact ⟨[Effect.ReceivedData payload, Effect.DataSent false], by simp⟩
    · simp [BluetoothSocketCommunicate.emit] at h
      subst h
      exact ⟨[Effect.ReceivedData payload], by simp⟩

theorem SingleFlight_setBuffer (f1 f2 : FrameData) (base : List Effect)
    (s : BluetoothSocketCommunicate) (b : List Nat) (h : SingleFlight f1 f2 base s) :
    SingleFlight f1 f2 base { s with m_receiveBuffer := b } := h

theorem SingleFlight_tick (f1 f2 : FrameData) (base : List Effect)
    (s : BluetoothSocketCommunicate) (hack : f1.requiresAck = true)
    (h : SingleFlight f1 f2 base s) : SingleFlight f1 f2 base (processSendQueue s) := by
  obtain ⟨hc, hw, new, htr, hq | hf | hd⟩ := h
  · obtain ⟨hwait, ⟨acks, hqq⟩, hsw, hsr⟩ := hq
    obtain ⟨rb, q, cur, sz, rc, w, at1, qt, co, wr, tr⟩ := s
    simp only at hc hw htr hwait hqq
    subst hc hw htr hwait hqq
    refine ⟨?_, ?_, new ++ [Effect.socketWrite (f1.data.take ((4 + f1.length + 1) % 256))], ?_,
      Or.inr (Or.inl ⟨?_, ?_, ?_, ⟨acks, ?_⟩, ?_, 0, by omega, ?_, ?_⟩)⟩ <;>
      simp [processSendQueue, actualSendFrame, BluetoothSocketCommunicate.emit, hack,
        FRAME_HEADER_SIZE, socketWrites_append, sendResults_append, socketWrites, sendResults,
        hsw, hsr]
  · have hsame : processSendQueue s = s := by
      unfold processSendQueue
      simp [hf.1]
    rw [hsame]
    exact ⟨hc, hw, new, htr, Or.inr (Or.inl hf)⟩
  · obtain ⟨extra, he, hc2, hw2⟩ := processSendQueue_grows s
    exact ⟨by rw [hc2, hc], by rw [hw2, hw], new ++ extra, by rw [he, htr, List.append_assoc],
      Or.inr (Or.inr (FirstReleased_extend _ _ _ hd))⟩

theorem SingleFlight_timeout (f1 f2 : FrameData) (base : List Effect)
    (s : BluetoothSocketCommunicate)
    (h : SingleFlight f1 f2 base s) : SingleFlight f1 f2 base (handleAckTimeout s) := by
  obtain ⟨hc, hw, new, htr, hq | hf | hd⟩ := h
  · rw [handleAckTimeout_idle s hq.1]
    exact ⟨hc, hw, new, htr, Or.inl hq⟩
  · obtain ⟨hwait, hcur, hsz, ⟨acks, hqq⟩, hsr, k, hk, hrc, hsw⟩ := hf
    obtain ⟨rb, q, cur, sz, rc, w, at1, qt, co, wr, tr⟩ := s
    simp only at hc hw htr hwait hcur hsz hqq hrc
    subst hc hw htr hwait hcur hsz hqq hrc
    by_cases hk3 : k < 3
    · have hlt : (k : Int) < MAX_RETRIES := by simp only [MAX_RETRIES]; omega
      refine ⟨?_, ?_, new ++ [Effect.socketWrite (f1.data.take ((4 + f1.length + 1) % 256))], ?_,
        Or.inr (Or.inl ⟨?_, ?_, ?_, ⟨acks, ?_⟩, ?_, k + 1, by omega, ?_, ?_⟩)⟩ <;>
        simp [handleAckTimeout, actualSendFrame, BluetoothSocketCommunicate.emit, hlt,
          socketWrites_append, sendResults_append, socketWrites, sendResults, hsw, hsr,
          List.replicate_succ' (k + 1)]
    · have hk4 : k = 3 := by omega
      subst hk4
      refine ⟨?_, ?_, new ++ [Effect.DataSent false], ?_,
        Or.inr (Or.inr ⟨new, false, [], 4, rfl, hsr, hsw, by omega, by omega, fun _ => rfl⟩)⟩ <;>
        simp [handleAckTimeout, BluetoothSocketCommunicate.emit, MAX_RETRIES]
  · obtain ⟨extra, he, hc2, hw2⟩ := handleAckTimeout_grows s
    exact ⟨by rw [hc2, hc], by rw [hw2, hw], new ++ extra, by rw [he, htr, List.append_assoc],
      Or.inr (Or.inr (FirstReleased_extend _ _ _ hd))⟩

theorem SingleFlight_dispatch (f1 f2 : FrameData) (base : List Effect) (cmd : Nat)
    (payload : List Nat) (s t : BluetoothSocketCommunicate) (h : SingleFlight f1 f2 base s)
    (hd : processReceivedData.dispatch cmd payload s = .ok t) : SingleFlight f1 f2 base t := by
  obtain ⟨hc, hw, new, htr, hphase⟩ := h
  rcases hphase with hq | hf | hrel
  · obtain ⟨hwait, ⟨acks, hqq⟩, hsw, hsr⟩ := hq
    obtain ⟨rb, q, cur, sz, rc, w, at1, qt, co, wr, tr⟩ := s
    simp only at hc hw htr hwait hqq
    subst hc hw htr hwait hqq
    unfold processReceivedData.dispatch at hd
    by_cases h1 : cmd = 1
    · simp only [h1, if_true, handleAcknowledgment] at hd
      cases hd
      exact ⟨rfl, rfl, new, rfl, Or.inl ⟨rfl, ⟨acks, rfl⟩, hsw, hsr⟩⟩
    · simp only [h1, if_false] at hd
      rw [sendAcknowledgment_ok] at hd
      simp only [BluetoothSocketCommunicate.emit, if_true] at hd
      cases hd
      refine ⟨rfl, rfl, new ++ [Effect.ReceivedData payload], by simp,
        Or.inl ⟨rfl, ⟨acks ++ [FrameData.mk (wireFrame 1 [cmd]) 1 1 false], by simp⟩, ?_, ?_⟩⟩ <;>
        simp [socketWrites_append, sendResults_append, socketWrites, sendResults, hsw, hsr]
  · obtain ⟨hwait, hcur, hsz, ⟨acks, hqq⟩, hsr, k, hk, hrc, hsw⟩ := hf
    obtain ⟨rb, q, cur, sz, rc, w, at1, qt, co, wr, tr⟩ := s
    simp only at hc hw htr hwait hcur hsz hqq hrc
    subst hc hw htr hwait hcur hsz hqq hrc
    unfold processReceivedData.dispatch at hd
    by_cases h1 : cmd = 1
    · simp only [h1, if_true, handleAcknowledgment, bind, Except.bind] at hd
      cases ha : QByteArray_at payload 0 with
      | error e => simp only [ha] at hd; cases hd
      | ok v =>
        simp only [ha] at hd
        by_cases hv : v = f1.command
        · simp only [hv, if_true, BluetoothSocketCommunicate.emit] at hd
          cases hd
          exact ⟨rfl, rfl, new ++ [Effect.DataSent true], by simp,
            Or.inr (Or.inr ⟨new, true, [], k + 1, rfl, hsr, hsw, by omega, by omega,
              fun hb => by cases hb⟩)⟩
        · simp only [hv, if_false] at hd
          cases hd
          exact ⟨rfl, rfl, new, rfl,
            Or.inr (Or.inl ⟨rfl, rfl, rfl, ⟨acks, rfl⟩, hsr, k, hk, rfl, hsw⟩)⟩
    · simp only [h1, if_false] at hd
      rw [sendAcknowledgment_ok] at hd
      simp only [BluetoothSocketCommunicate.emit, if_true] at hd
      cases hd
      refine ⟨rfl, rfl, new ++ [Effect.ReceivedData payload], by simp,
        Or.inr (Or.inl ⟨rfl, rfl, rfl, ⟨acks ++ [FrameData.mk (wireFrame 1 [cmd]) 1 1 false], by simp⟩, ?_, k, hk, rfl, ?_⟩)⟩ <;>
        simp [socketWrites_append, sendResults_append, socketWrites, sendResults, hsw, hsr]
  · obtain ⟨extra, he, hc2, hw2⟩ := dispatch_grows cmd payload s t hd
    exact ⟨by rw [hc2, hc], by rw [hw2, hw], new ++ extra, by rw [he, htr, List.append_assoc],
      Or.inr (Or.inr (FirstReleased_extend _ _ _ hrel))⟩

theorem SingleFlight_step (f1 f2 : FrameData) (base : List Effect) (e : Event)
    (s t : BluetoothSocketCommunicate) (hack : f1.requiresAck = true)
    (h : SingleFlight f1 f2 base s) (hs : step e s = .ok t) : SingleFlight f1 f2 base t := by
  cases e with
  | tick =>
    simp only [step, Except.ok.injEq] at hs
    rw [← hs]
    exact SingleFlight_tick f1 f2 base s hack h
  | ackTimeout =>
    simp only [step, Except.ok.injEq] at hs
    rw [← hs]
    exact SingleFlight_timeout f1 f2 base s h
  | received newData =>
    simp only [step, dataReceived, processReceivedData] at hs
    exact loop_preserves (SingleFlight f1 f2 base)
      (fun s b hs => SingleFlight_setBuffer f1 f2 base s b hs)
      (fun cmd payload s t hs hd => SingleFlight_dispatch f1 f2 base cmd payload s t hs hd)
      _ _ t (SingleFlight_setBuffer f1 f2 base s _ h) hs

theorem SingleFlight_run (f1 f2 : FrameData) (base : List Effect) (es : List Event)
    (hack : f1.requiresAck = true) :
    ∀ s t : BluetoothSocketCommunicate,
      SingleFlight f1 f2 base s → run es s = .ok t → SingleFlight f1 f2 base t := by
  induction es with
  | nil =>
    intro s t h hr
    simp only [run, Except.ok.injEq] at hr
    rw [← hr]
    exact h
  | cons e r ih =>
    intro s t h hr
    simp only [run, bind, Except.bind] at hr
    cases hs : step e s with
    | error x => simp only [hs] at hr; cases hr
    | ok u =>
      simp only [hs] at hr
      exact ih u t (SingleFlight_step f1 f2 base e s u hack h hs) hr

/-! ## A scheduler that waits with nothing in flight -/

theorem Stuck_tick (w : List (List Nat)) (s : BluetoothSocketCommunicate) (h : Stuck w s) :
    processSendQueue s = s := by
  unfold processSendQueue
  simp [h.1]

theorem Stuck_timeout (w : List (List Nat)) (s : BluetoothSocketCommunicate) (h : Stuck w s) :
    handleAckTimeout s = s := by
  unfold handleAckTimeout
  split
  · rename_i _ hf
    rw [h.2.1] at hf
    cases hf
  · rfl

theorem Stuck_enqueue (w : List (List Nat)) (command : Nat) (payload : List Nat) (length : Nat)
    (requireAck : Bool) (s t : BluetoothSocketCommunicate) (h : Stuck w s)
    (ht : SendFrameWithCommand command payload length requireAck s = .ok t) : Stuck w t := by
  obtain ⟨h1, h2, h3⟩ := h
  unfold SendFrameWithCommand at ht
  split at ht
  · cases ht
    exact ⟨h1, h2, by simp [BluetoothSocketCommunicate.emit, socketWrites_append, socketWrites, h3]⟩
  · simp only [bind, Except.bind] at ht
    split at ht
    · cases ht
    · cases ht
      exact ⟨h1, h2, h3⟩

theorem Stuck_dispatch (w : List (List Nat)) (cmd : Nat) (payload : List Nat)
    (s t : BluetoothSocketCommunicate) (h : Stuck w s)
    (ht : processReceivedData.dispatch cmd payload s = .ok t) : Stuck w t := by
  unfold processReceivedData.dispatch at ht
  split at ht
  · unfold handleAcknowledgment at ht
    split at ht
    · rename_i _ hf
      rw [h.2.1] at hf
      cases hf
    · cases ht
      exact h
  · unfold sendAcknowledgment at ht
    refine Stuck_enqueue w _ _ _ _ _ t ?_ ht
    obtain ⟨h1, h2, h3⟩ := h
    exact ⟨h1, h2, by simp [BluetoothSocketCommunicate.emit, socketWrites_append, socketWrites, h3]⟩

theorem Stuck_step (w : List (List Nat)) (e : Event) (s t : BluetoothSocketCommunicate)
    (h : Stuck w s) (ht : step e s = .ok t) : Stuck w t := by
  cases e with
  | tick =>
    simp only [step, Except.ok.injEq, Stuck_tick w s h] at ht
    rw [← ht]; exact h
  | ackTimeout =>
    simp only [step, Except.ok.injEq, Stuck_timeout w s h] at ht
    rw [← ht]; exact h
  | received newData =>
    simp only [step, dataReceived, processReceivedData] at ht
    exact loop_preserves (Stuck w) (fun s b hs => hs)
      (fun cmd payload s t hs hd => Stuck_dispatch w cmd payload s t hs hd)
      _ { s with m_receiveBuffer := s.m_receiveBuffer ++ newData } t h ht

theorem Stuck_perform (w : List (List Nat)) (as : List Action) :
    ∀ s t : BluetoothSocketCommunicate, Stuck w s → perform as s = .ok t → Stuck w t := by
  induction as with
  | nil =>
    intro s t h ht
    simp only [perform, Except.ok.injEq] at ht
    rw [← ht]; exact h
  | cons a r ih =>
    intro s t h ht
    simp only [perform, bind, Except.bind] at ht
    cases ha : act a s with
    | error x => simp only [ha] at ht; cases ht
    | ok u =>
      simp only [ha] at ht
      refine ih u t ?_ ht
      cases a with
      | enqueue c p q => exact Stuck_enqueue w c p p.length q s u h ha
      | event e => exact Stuck_step w e s u h ha

/-! ## The trace only grows -/

theorem run_grows (es : List Event) :
    ∀ s t : BluetoothSocketCommunicate, run es s = .ok t → ∃ new, t.trace = s.trace ++ new := by
  induction es with
  | nil =>
    intro s t h
    simp only [run, Except.ok.injEq] at h
    exact ⟨[], by rw [← h]; simp⟩
  | cons e r ih =>
    intro s t h
    simp only [run, bind, Except.bind] at h
    cases hs : step e s with
    | error x => simp only [hs] at h; cases h
    | ok u =>
      simp only [hs] at h
      obtain ⟨n2, h2⟩ := ih u t h
      have h1 : ∃ n1, u.trace = s.trace ++ n1 := by
        cases e with
        | tick =>
          simp only [step, Except.ok.injEq] at hs
          obtain ⟨x, hx, _⟩ := processSendQueue_grows s
          exact ⟨x, by rw [← hs]; exact hx⟩
        | ackTimeout =>
          simp only [step, Except.ok.injEq] at hs
          obtain ⟨x, hx, _⟩ := handleAckTimeout_grows s
          exact ⟨x, by rw [← hs]; exact hx⟩
        | received newData =>
          simp only [step, dataReceived, processReceivedData] at hs
          exact loop_preserves (fun v => ∃ n1, v.trace = s.trace ++ n1)
            (fun v b hv => hv)
            (fun cmd payload v v2 hv hd => by
              obtain ⟨n1, hn1⟩ := hv
              obtain ⟨x, hx, _⟩ := dispatch_grows cmd payload v v2 hd
              exact ⟨n1 ++ x, by rw [hx, hn1, List.append_assoc]⟩)
            _ { s with m_receiveBuffer := s.m_receiveBuffer ++ newData } u ⟨[], by simp⟩ hs
      obtain ⟨n1, h1⟩ := h1
      exact ⟨n1 ++ n2, by rw [h2, h1, List.append_assoc]⟩

/-! ## Bytes before the first start marker -/

theorem skipNoise_nil : skipNoise [] = [] := rfl

theorem skipNoise_start (rest : List Nat) :
    skipNoise (FRAME_START_BYTE :: rest) = FRAME_START_BYTE :: rest := by
  simp [skipNoise, List.dropWhile]

theorem skipNoise_other (a : Nat) (rest : List Nat) (h : a ≠ FRAME_START_BYTE) :
    skipNoise (a :: rest) = skipNoise rest := by
  simp [skipNoise, List.dropWhile, h]

theorem skipNoise_split (b : List Nat) :
    ∃ g, b = g ++ skipNoise b ∧ ∀ x ∈ g, x ≠ FRAME_START_BYTE := by
  induction b with
  | nil => exact ⟨[], rfl, by simp⟩
  | cons a t ih =>
    by_cases h : a = FRAME_START_BYTE
    · subst h
      exact ⟨[], by rw [skipNoise_start]; rfl, by simp⟩
    · obtain ⟨g, hg1, hg2⟩ := ih
      refine ⟨a :: g, ?_, ?_⟩
      · rw [skipNoise_other a t h, List.cons_append, ← hg1]
      · intro x hx
        rcases List.mem_cons.mp hx with hx | hx
        · rw [hx]; exact h
        · exact hg2 x hx

theorem skipNoise_head (b : List Nat) :
    skipNoise b = [] ∨ ∃ rest, skipNoise b = FRAME_START_BYTE :: rest := by
  induction b with
  | nil => exact Or.inl rfl
  | cons a t ih =>
    by_cases h : a = FRAME_START_BYTE
    · subst h
      exact Or.inr ⟨t, skipNoise_start t⟩
    · rw [skipNoise_other a t h]
      exact ih

theorem skipNoise_length (b : List Nat) : (skipNoise b).length ≤ b.length := by
  obtain ⟨g, hg, _⟩ := skipNoise_split b
  have := congrArg List.length hg
  simp only [List.length_append] at this
  omega

theorem skipNoise_mem (b : List Nat) (x : Nat) (h : x ∈ skipNoise b) : x ∈ b := by
  obtain ⟨g, hg, _⟩ := skipNoise_split b
  rw [hg]
  exact List.mem_append_right g h

theorem skipNoise_noise (b : List Nat) (h : skipNoise b = []) :
    ∀ x ∈ b, x ≠ FRAME_START_BYTE := by
  obtain ⟨g, hg, hg2⟩ := skipNoise_split b
  rw [h, List.append_nil] at hg
  rw [hg]
  exact hg2

theorem skipNoise_idem (b : List Nat) : skipNoise (skipNoise b) = skipNoise b := by
  rcases skipNoise_head b with h | ⟨rest, h⟩
  · rw [h]; rfl
  · rw [h, skipNoise_start]

theorem skipNoise_append_nil (b c : List Nat) (h : skipNoise b = []) :
    skipNoise (b ++ c) = skipNoise c := by
  induction b with
  | nil => rfl
  | cons a t ih =>
    by_cases ha : a = FRAME_START_BYTE
    · subst ha
      rw [skipNoise_start] at h
      cases h
    · rw [skipNoise_other a t ha] at h
      rw [List.cons_append, skipNoise_other a _ ha]
      exact ih h

theorem skipNoise_append (b c : List Nat) (h : skipNoise b ≠ []) :
    skipNoise (b ++ c) = skipNoise b ++ c := by
  induction b with
  | nil => exact absurd rfl h
  | cons a t ih =>
    by_cases ha : a = FRAME_START_BYTE
    · subst ha
      rw [List.cons_append, skipNoise_start, skipNoise_start, List.cons_append]
    · rw [skipNoise_other a t ha] at h ⊢
      rw [List.cons_append, skipNoise_other a _ ha]
      exact ih h

/-! ## The receive loop computes the decoder -/

theorem parseStep_short (b : List Nat) (h : b.length < 4) : parseStep b = .wait b := by
  simp [parseStep, h]

theorem parseStep_long (b : List Nat) (h : ¬ b.length < 4) :
    parseStep b =
      if (skipNoise b).length < 4 then .wait (skipNoise b)
      else if (skipNoise b).length < 4 + (skipNoise b).getD 2 0 + 1 then .wait (skipNoise b)
      else .frame ((skipNoise b).getD 1 0)
        (((skipNoise b).drop 4).take ((skipNoise b).getD 2 0))
        (decide ((skipNoise b).getD 3 0
            = CalcCRC ((skipNoise b).getD 1 0) ((skipNoise b).getD 2 0) ((skipNoise b).drop 4)
          ∧ (skipNoise b).getD (4 + (skipNoise b).getD 2 0) 0 = FRAME_END_BYTE))
        ((skipNoise b).drop (4 + (skipNoise b).getD 2 0 + 1)) := by
  simp only [parseStep, h, if_false]

theorem setBuffer_self (s : BluetoothSocketCommunicate) :
    ({ s with m_receiveBuffer := s.m_receiveBuffer } : BluetoothSocketCommunicate) = s := rfl

/-- One iteration of the receive loop is `parseStep` on the buffer, with the dispatch of the
frame when it is valid. -/
theorem loop_parse (fuel : Nat) (s : BluetoothSocketCommunicate) :
    processReceivedData.loop (fuel + 1) s =
      match parseStep s.m_receiveBuffer with
      | .wait r => .ok { s with m_receiveBuffer := r }
      | .frame cmd payload valid rest =>
        (if valid = true then processReceivedData.dispatch cmd payload s else .ok s) >>= fun t =>
          processReceivedData.loop fuel { t with m_receiveBuffer := rest } := by
  by_cases h4 : s.m_receiveBuffer.length < 4
  · rw [parseStep_short _ h4, loop_short _ _ h4]
  · rw [parseStep_long _ h4]
    obtain ⟨g, hg, hg2⟩ := skipNoise_split s.m_receiveBuffer
    rcases skipNoise_head s.m_receiveBuffer with hn | ⟨rest, hn⟩
    · rw [loop_noise fuel s (by omega) (skipNoise_noise _ hn), hn]
      rfl
    · rw [hn] at hg
      rw [loop_skip fuel s g rest hg hg2 (by omega), hn]
      by_cases h5 : (FRAME_START_BYTE :: rest).length < 4
      · rw [loop_short _ _ h5]
        simp only [h5, if_true]
      · simp only [h5, if_false]
        match rest, h5 with
        | [], h5 => simp at h5
        | [_], h5 => simp at h5
        | [_, _], h5 => simp at h5
        | cmd :: len :: crc :: body, h5 =>
          simp only [List.getD_cons_succ, List.getD_cons_zero]
          by_cases h6 : (FRAME_START_BYTE :: cmd :: len :: crc :: body).length < 4 + len + 1
          · rw [loop_incomplete fuel _ cmd len (crc :: body) rfl h6]
            simp only [h6, if_true]
          · simp only [h6, if_false]
            have hlen : len + 1 ≤ body.length := by
              simp only [List.length_cons] at h6; omega
            rw [loop_complete fuel _ cmd len crc body rfl hlen]
            have hg4 : (FRAME_START_BYTE :: cmd :: len :: crc :: body).getD (4 + len) 0
                = body.getD len 0 := by
              rw [Nat.add_comm]; rfl
            have hd4 : List.drop 4 (FRAME_START_BYTE :: cmd :: len :: crc :: body) = body := rfl
            simp only [hg4, hd4, decide_eq_true_eq]
            by_cases hv : crc = CalcCRC cmd len body ∧ body.getD len 0 = FRAME_END_BYTE
            · rw [if_pos hv, if_pos hv, dispatch_setBuffer]
              cases hd : processReceivedData.dispatch cmd (List.take len body) s with
              | error e => rfl
              | ok t => rfl
            · rw [if_neg hv, if_neg hv]
              rfl

/-! ## What an iteration leaves and what it removes -/

theorem parseStep_wait (b r : List Nat) (h : parseStep b = .wait r) :
    Residue r ∧ skipNoise r = skipNoise b ∧ (∀ x ∈ r, x ∈ b) ∧ parseStep r = .wait r := by
  by_cases h4 : b.length < 4
  · rw [parseStep_short _ h4] at h
    cases h
    exact ⟨Or.inl h4, rfl, fun x hx => hx, parseStep_short _ h4⟩
  · rw [parseStep_long _ h4] at h
    by_cases h5 : (skipNoise b).length < 4
    · simp only [h5, if_true, Parsed.wait.injEq] at h
      rw [← h]
      exact ⟨Or.inl h5, skipNoise_idem b, skipNoise_mem b, parseStep_short _ h5⟩
    · simp only [h5, if_false] at h
      by_cases h6 : (skipNoise b).length < 4 + (skipNoise b).getD 2 0 + 1
      · simp only [h6, if_true, Parsed.wait.injEq] at h
        rw [← h]
        have hhead : (skipNoise b).head? = some 0xAA := by
          rcases skipNoise_head b with hn | ⟨rest, hn⟩
          · rw [hn] at h5; simp at h5
          · rw [hn]; rfl
        refine ⟨Or.inr ⟨hhead, h6⟩, skipNoise_idem b, skipNoise_mem b, ?_⟩
        rw [parseStep_long _ h5, skipNoise_idem]
        simp only [h5, h6, if_true, if_false]
      · simp only [h6, if_false] at h
        cases h

theorem parseStep_frame (b : List Nat) (cmd : Nat) (payload : List Nat) (valid : Bool)
    (rest : List Nat) (h : parseStep b = .frame cmd payload valid rest) :
    rest.length + 5 ≤ b.length ∧ (∀ x ∈ rest, x ∈ b)
    ∧ 4 + (skipNoise b).getD 2 0 + 1 ≤ (skipNoise b).length
    ∧ cmd = (skipNoise b).getD 1 0
    ∧ payload = ((skipNoise b).drop 4).take ((skipNoise b).getD 2 0)
    ∧ valid = decide ((skipNoise b).getD 3 0
            = CalcCRC ((skipNoise b).getD 1 0) ((skipNoise b).getD 2 0) ((skipNoise b).drop 4)
          ∧ (skipNoise b).getD (4 + (skipNoise b).getD 2 0) 0 = FRAME_END_BYTE)
    ∧ rest = (skipNoise b).drop (4 + (skipNoise b).getD 2 0 + 1) := by
  by_cases h4 : b.length < 4
  · rw [parseStep_short _ h4] at h
    cases h
  · rw [parseStep_long _ h4] at h
    by_cases h5 : (skipNoise b).length < 4
    · simp only [h5, if_true] at h
      cases h
    · simp only [h5, if_false] at h
      by_cases h6 : (skipNoise b).length < 4 + (skipNoise b).getD 2 0 + 1
      · simp only [h6, if_true] at h
        cases h
      · simp only [h6, if_false, Parsed.frame.injEq] at h
        obtain ⟨e1, e2, e3, e4⟩ := h
        have hl := skipNoise_length b
        refine ⟨?_, ?_, by omega, e1.symm, e2.symm, e3.symm, e4.symm⟩
        · rw [← e4, List.length_drop]
          omega
        · intro x hx
          rw [← e4] at hx
          exact skipNoise_mem b x (List.mem_of_mem_drop hx)

/-! ## Dispatching a sequence of frames -/

theorem dispatchAll_append (f1 f2 : List (Nat × List Nat)) (s : BluetoothSocketCommunicate) :
    dispatchAll (f1 ++ f2) s = dispatchAll f1 s >>= dispatchAll f2 := by
  induction f1 generalizing s with
  | nil => rfl
  | cons f r ih =>
    simp only [List.cons_append, dispatchAll, bind, Except.bind]
    cases processReceivedData.dispatch f.1 f.2 s with
    | error e => rfl
    | ok t => exact ih t

theorem dispatchAll_setBuffer (fs : List (Nat × List Nat)) (b : List Nat)
    (s : BluetoothSocketCommunicate) :
    dispatchAll fs { s with m_receiveBuffer := b }
      = dispatchAll fs s >>= fun t => .ok { t with m_receiveBuffer := b } := by
  induction fs generalizing s with
  | nil => rfl
  | cons f r ih =>
    simp only [dispatchAll]
    rw [dispatch_setBuffer]
    cases processReceivedData.dispatch f.1 f.2 s with
    | error e => rfl
    | ok t => exact ih t

/-- The receive loop, given budget enough, dispatches the frames of `decodeFuel` in order and
leaves its residue in the buffer. -/
theorem loop_decode : ∀ (fuel : Nat) (s : BluetoothSocketCommunicate),
    s.m_receiveBuffer.length ≤ fuel →
    processReceivedData.loop fuel s
      = dispatchAll (decodeFuel fuel s.m_receiveBuffer).1 s >>= fun t =>
          .ok { t with m_receiveBuffer := (decodeFuel fuel s.m_receiveBuffer).2 } := by
  intro fuel
  induction fuel with
  | zero =>
    intro s h
    rw [loop_short 0 s (by omega)]
    rfl
  | succ n ih =>
    intro s h
    rw [loop_parse]
    cases hp : parseStep s.m_receiveBuffer with
    | wait r =>
      simp only [decodeFuel, hp]
      rfl
    | frame cmd payload valid rest =>
      obtain ⟨hl, _⟩ := parseStep_frame _ _ _ _ _ hp
      have hrest : rest.length ≤ n := by omega
      simp only [decodeFuel, hp]
      cases valid with
      | false =>
        simp only [Bool.false_eq_true, if_false, List.nil_append, bind, Except.bind]
        rw [ih { s with m_receiveBuffer := rest } hrest, dispatchAll_setBuffer]
        simp only [bind, Except.bind]
        cases dispatchAll (decodeFuel n rest).1 s with
        | error e => rfl
        | ok t => rfl
      | true =>
        simp only [if_true, List.singleton_append, dispatchAll, bind, Except.bind]
        cases hd : processReceivedData.dispatch cmd payload s with
        | error e => rfl
        | ok t =>
          simp only
          rw [ih { t with m_receiveBuffer := rest } hrest, dispatchAll_setBuffer]
          simp only [bind, Except.bind]
          have hx : ([] : List (Nat × List Nat)).append (decodeFuel n rest).1
              = (decodeFuel n rest).1 := rfl
          rw [hx]
          cases dispatchAll (decodeFuel n rest).1 t with
          | error e => rfl
          | ok u => rfl

/-- The method `processReceivedData` dispatches the frames of `decode` and leaves its residue. -/
theorem processReceivedData_decode (s : BluetoothSocketCommunicate) :
    processReceivedData s
      = dispatchAll (decode s.m_receiveBuffer).1 s >>= fun t =>
          .ok { t with m_receiveBuffer := (decode s.m_receiveBuffer).2 } :=
  loop_decode _ s (Nat.le_refl _)

/-! ## The decoder does not depend on its budget -/

theorem decodeFuel_succ : ∀ (fuel : Nat) (b : List Nat), b.length ≤ fuel →
    decodeFuel (fuel + 1) b = decodeFuel fuel b := by
  intro fuel
  induction fuel with
  | zero =>
    intro b h
    have hb : b = [] := List.eq_nil_of_length_eq_zero (by omega)
    subst hb
    rfl
  | succ n ih =>
    intro b h
    rw [decodeFuel, decodeFuel]
    cases hp : parseStep b with
    | wait r => rfl
    | frame cmd payload valid rest =>
      obtain ⟨hl, _⟩ := parseStep_frame _ _ _ _ _ hp
      simp only
      rw [ih rest (by omega)]

theorem decodeFuel_ge (fuel : Nat) (b : List Nat) (h : b.length ≤ fuel) :
    decodeFuel fuel b = decode b := by
  induction fuel with
  | zero =>
    have hb : b = [] := List.eq_nil_of_length_eq_zero (by omega)
    subst hb
    rfl
  | succ n ih =>
    by_cases hn : b.length ≤ n
    · rw [decodeFuel_succ n b hn]
      exact ih hn
    · have : b.length = n + 1 := by omega
      unfold decode
      rw [this]

/-- The decoder, one frame at a time. -/
theorem decode_unfold (b : List Nat) :
    decode b =
      match parseStep b with
      | .wait r => ([], r)
      | .frame cmd payload valid rest =>
        ((if valid then [(cmd, payload)] else []) ++ (decode rest).1, (decode rest).2) := by
  have h1 : decode b = decodeFuel (b.length + 1) b :=
    (decodeFuel_ge (b.length + 1) b (by omega)).symm
  rw [h1, decodeFuel]
  cases hp : parseStep b with
  | wait r => rfl
  | frame cmd payload valid rest =>
    obtain ⟨hl, _⟩ := parseStep_frame _ _ _ _ _ hp
    simp only
    rw [decodeFuel_ge b.length rest (by omega)]

/-- What the decoder leaves is a residue, is made of bytes of its input, and is left alone by
a further call. -/
theorem decode_residue (b : List Nat) :
    Residue (decode b).2 ∧ (∀ x ∈ (decode b).2, x ∈ b) ∧ decode (decode b).2 = ([], (decode b).2) := by
  generalize hn : b.length = n
  induction n using Nat.strong_induction_on generalizing b with
  | _ n ih =>
    rw [decode_unfold b]
    cases hp : parseStep b with
    | wait r =>
      obtain ⟨h1, _, h3, h4⟩ := parseStep_wait b r hp
      refine ⟨h1, h3, ?_⟩
      simp only
      rw [decode_unfold r, h4]
    | frame cmd payload valid rest =>
      obtain ⟨hl, hm, _⟩ := parseStep_frame _ _ _ _ _ hp
      obtain ⟨h1, h2, h3⟩ := ih rest.length (by omega) rest rfl
      exact ⟨h1, fun x hx => hm x (h2 x hx), h3⟩

/-! ## The decoder and chunk boundaries -/

/-- Two buffers that agree from their first start marker on decode alike. -/
theorem decode_congr (b b2 : List Nat) (h : skipNoise b = skipNoise b2) :
    (decode b).1 = (decode b2).1 ∧ skipNoise (decode b).2 = skipNoise (decode b2).2 := by
  by_cases h4 : (skipNoise b).length < 4
  · have hw : ∀ x : List Nat, (skipNoise x).length < 4 → ∃ r, parseStep x = .wait r := by
      intro x hx
      by_cases hx4 : x.length < 4
      · exact ⟨x, parseStep_short x hx4⟩
      · exact ⟨skipNoise x, by rw [parseStep_long x hx4]; simp only [hx, if_true]⟩
    obtain ⟨r, hr⟩ := hw b h4
    obtain ⟨r2, hr2⟩ := hw b2 (by rw [← h]; exact h4)
    obtain ⟨_, e1, _⟩ := parseStep_wait b r hr
    obtain ⟨_, e2, _⟩ := parseStep_wait b2 r2 hr2
    rw [decode_unfold b, decode_unfold b2, hr, hr2]
    exact ⟨rfl, by simp only; rw [e1, e2, h]⟩
  · have hb := skipNoise_length b
    have hb2 := skipNoise_length b2
    have hp : parseStep b = parseStep b2 := by
      rw [parseStep_long b (by omega), parseStep_long b2 (by rw [h] at h4; omega), h]
    rw [decode_unfold b, decode_unfold b2, hp]
    exact ⟨rfl, rfl⟩

/-- A complete frame at the front is parsed the same whatever follows. -/
theorem parseStep_frame_append (b c : List Nat) (cmd : Nat) (payload : List Nat) (valid : Bool)
    (rest : List Nat) (h : parseStep b = .frame cmd payload valid rest) :
    parseStep (b ++ c) = .frame cmd payload valid (rest ++ c) := by
  obtain ⟨hl, _, hsz, e1, e2, e3, e4⟩ := parseStep_frame _ _ _ _ _ h
  have hne : skipNoise b ≠ [] := by
    intro hn
    rw [hn] at hsz
    simp at hsz
  have hsk := skipNoise_append b c hne
  generalize skipNoise b = n at *
  have hlen : ¬ (b ++ c).length < 4 := by
    simp only [List.length_append]; omega
  have g1 : (n ++ c).getD 1 0 = n.getD 1 0 := List.getD_append n c 0 1 (by omega)
  have g2 : (n ++ c).getD 2 0 = n.getD 2 0 := List.getD_append n c 0 2 (by omega)
  have g3 : (n ++ c).getD 3 0 = n.getD 3 0 := List.getD_append n c 0 3 (by omega)
  have g4 : (n ++ c).getD (4 + n.getD 2 0) 0 = n.getD (4 + n.getD 2 0) 0 :=
    List.getD_append n c 0 _ (by omega)
  have d4 : (n ++ c).drop 4 = n.drop 4 ++ c := List.drop_append_of_le_length (by omega)
  have d5 : (n ++ c).drop (4 + n.getD 2 0 + 1) = n.drop (4 + n.getD 2 0 + 1) ++ c :=
    List.drop_append_of_le_length (by omega)
  have t4 : (n.drop 4 ++ c).take (n.getD 2 0) = (n.drop 4).take (n.getD 2 0) :=
    List.take_append_of_le_length (by rw [List.length_drop]; omega)
  have hcrc : CalcCRC (n.getD 1 0) (n.getD 2 0) (n.drop 4 ++ c)
      = CalcCRC (n.getD 1 0) (n.getD 2 0) (n.drop 4) := by
    rw [← CalcCRC_take _ _ (n.drop 4 ++ c), t4, CalcCRC_take]
  have h5 : ¬ (n ++ c).length < 4 := by
    simp only [List.length_append]; omega
  have h6 : ¬ (n ++ c).length < 4 + n.getD 2 0 + 1 := by
    simp only [List.length_append]; omega
  rw [parseStep_long _ hlen, hsk]
  simp only [g2, h5, h6, if_false, g1, g3, g4, d4, d5, t4, hcrc]
  rw [e1, e2, e3, e4]

/-- Decoding `b ++ c` at once gives the frames of `b` followed by the frames found when `c`
is appended to what decoding `b` left. -/
theorem decode_append (b c : List Nat) :
    (decode (b ++ c)).1 = (decode b).1 ++ (decode ((decode b).2 ++ c)).1
    ∧ skipNoise (decode (b ++ c)).2 = skipNoise (decode ((decode b).2 ++ c)).2 := by
  generalize hn : b.length = n
  induction n using Nat.strong_induction_on generalizing b with
  | _ n ih =>
    cases hp : parseStep b with
    | wait r =>
      obtain ⟨_, e1, _⟩ := parseStep_wait b r hp
      have hd : decode b = ([], r) := by rw [decode_unfold b, hp]
      rw [hd]
      simp only [List.nil_append]
      apply decode_congr
      by_cases hnil : skipNoise b = []
      · rw [skipNoise_append_nil b c hnil, skipNoise_append_nil r c (by rw [e1]; exact hnil)]
      · rw [skipNoise_append b c hnil, skipNoise_append r c (by rw [e1]; exact hnil), e1]
    | frame cmd payload valid rest =>
      obtain ⟨hl, _⟩ := parseStep_frame _ _ _ _ _ hp
      have hpa := parseStep_frame_append b c cmd payload valid rest hp
      obtain ⟨i1, i2⟩ := ih rest.length (by omega) rest rfl
      have hd : decode b
          = ((if valid then [(cmd, payload)] else []) ++ (decode rest).1, (decode rest).2) := by
        rw [decode_unfold b, hp]
      have hda : decode (b ++ c)
          = ((if valid then [(cmd, payload)] else []) ++ (decode (rest ++ c)).1,
              (decode (rest ++ c)).2) := by
        rw [decode_unfold (b ++ c), hpa]
      rw [hd, hda]
      simp only
      exact ⟨by rw [i1, List.append_assoc], i2⟩

/-- Decoding chunk by chunk finds the frames of decoding everything at once. -/
theorem decodeChunks_decode (cs : List (List Nat)) :
    ∀ r : List Nat, decode r = ([], r) →
      (decodeChunks r cs).1 = (decode (r ++ cs.flatten)).1
      ∧ skipNoise (decodeChunks r cs).2 = skipNoise (decode (r ++ cs.flatten)).2 := by
  induction cs with
  | nil =>
    intro r hr
    simp [decodeChunks, hr]
  | cons c rest ih =>
    intro r hr
    obtain ⟨_, _, hfix⟩ := decode_residue (r ++ c)
    obtain ⟨i1, i2⟩ := ih (decode (r ++ c)).2 hfix
    obtain ⟨a1, a2⟩ := decode_append (r ++ c) rest.flatten
    simp only [decodeChunks, List.flatten_cons, ← List.append_assoc]
    exact ⟨by rw [i1, a1], by rw [i2, a2]⟩

/-- Feeding chunks runs the dispatches that `decodeChunks` lists and leaves its residue. -/
theorem feed_decodeChunks (cs : List (List Nat)) :
    ∀ s : BluetoothSocketCommunicate,
      feed cs s = dispatchAll (decodeChunks s.m_receiveBuffer cs).1 s >>= fun t =>
        .ok { t with m_receiveBuffer := (decodeChunks s.m_receiveBuffer cs).2 } := by
  induction cs with
  | nil =>
    intro s
    rfl
  | cons c rest ih =>
    intro s
    unfold feed at ih ⊢
    simp only [List.map_cons, run, step, dataReceived, decodeChunks]
    rw [processReceivedData_decode, dispatchAll_setBuffer, dispatchAll_append]
    simp only [bind, Except.bind]
    cases hd : dispatchAll (decode (s.m_receiveBuffer ++ c)).1 s with
    | error e => rfl
    | ok t =>
      simp only
      rw [ih, dispatchAll_setBuffer]
      simp only [bind, Except.bind]
      cases dispatchAll (decodeChunks (decode (s.m_receiveBuffer ++ c)).2 rest).1 t with
      | error e => rfl
      | ok u => rfl

/-! ## The transmission-order invariant -/

theorem blocks_snoc (sent : List (FrameData × Nat)) (f : FrameData) (k : Nat) :
    blocks (sent ++ [(f, k)]) = blocks sent ++ List.replicate k f.data := by
  simp [blocks, List.flatMap_append]

theorem blocks_retry (pre : List (FrameData × Nat)) (f : FrameData) (r : Nat) :
    blocks (pre ++ [(f, r + 1 + 1)]) = blocks (pre ++ [(f, r + 1)]) ++ [f.data] := by
  rw [blocks_snoc, blocks_snoc, List.append_assoc, List.replicate_succ' (r + 1)]

theorem OrderInv_enqueue (base : List Effect) (E : List FrameData) (command : Nat)
    (payload : List Nat) (requireAck : Bool) (s t : BluetoothSocketCommunicate)
    (hl : payload.length ≤ 250) (h : OrderInv base E s)
    (ht : SendFrameWithCommand command payload payload.length requireAck s = .ok t) :
    OrderInv base
      (E ++ [FrameData.mk (wireFrame command payload) payload.length command requireAck]) t := by
  obtain ⟨hc, hw, hb, hsz, new, sent, htr, hE, hwr, hcnt, hwait⟩ := h
  rw [SendFrameWithCommand_ok command payload requireAck s hl hc] at ht
  cases ht
  refine ⟨hc, hw, hb, ?_, new, sent, htr, ?_, hwr, hcnt, hwait⟩
  · intro f hf
    rcases List.mem_append.mp hf with hf | hf
    · exact hsz f hf
    · simp only [List.mem_singleton] at hf
      subst hf
      have : (4 + payload.length + 1) % 256 = (wireFrame command payload).length := by
        rw [wireFrame_length]; omega
      simp only
      rw [this, List.take_length]
  · simp only
    rw [← List.append_assoc, hE]

theorem OrderInv_tick (base : List Effect) (E : List FrameData) (s : BluetoothSocketCommunicate)
    (h : OrderInv base E s) : OrderInv base E (processSendQueue s) := by
  obtain ⟨hc, hw, hb, hsz, new, sent, htr, hE, hwr, hcnt, hwait⟩ := h
  obtain ⟨rb, q, cur, sz, rc, w, at1, qt, co, wr, tr⟩ := s
  simp only at hc hw hb htr hE hwait
  subst hc hw hb htr
  cases w with
  | true =>
    have hsame : processSendQueue ⟨[], q, cur, sz, rc, true, at1, qt, true, true, base ++ new⟩
        = ⟨[], q, cur, sz, rc, true, at1, qt, true, true, base ++ new⟩ := by
      simp [processSendQueue]
    rw [hsame]
    exact ⟨rfl, rfl, rfl, hsz, new, sent, rfl, hE, hwr, hcnt, hwait⟩
  | false =>
    cases q with
    | nil =>
      have hsame : processSendQueue ⟨[], [], cur, sz, rc, false, at1, qt, true, true, base ++ new⟩
          = ⟨[], [], cur, sz, rc, false, at1, qt, true, true, base ++ new⟩ := by
        simp [processSendQueue]
      rw [hsame]
      exact ⟨rfl, rfl, rfl, hsz, new, sent, rfl, hE, hwr, hcnt, hwait⟩
    | cons f rest =>
      have hfE : f ∈ E := by
        rw [← hE]
        exact List.mem_append_right _ (List.mem_cons_self f rest)
      have htake := hsz f hfE
      have hE2 : (sent ++ [(f, 1)]).map Prod.fst ++ rest = E := by
        rw [← hE]; simp
      have hcnt2 : ∀ p ∈ sent ++ [(f, 1)], 1 ≤ p.2 ∧ p.2 ≤ 4 := by
        intro p hp
        rcases List.mem_append.mp hp with hp | hp
        · exact hcnt p hp
        · simp only [List.mem_singleton] at hp
          subst hp
          exact ⟨Nat.le_refl 1, by omega⟩
      have hwr2 : socketWrites (new ++ [Effect.socketWrite f.data]) = blocks (sent ++ [(f, 1)]) := by
        rw [socketWrites_append, blocks_snoc, hwr]
        rfl
      cases hr : f.requiresAck with
      | true =>
        refine ⟨?_, ?_, ?_, hsz, new ++ [Effect.socketWrite f.data], sent ++ [(f, 1)], ?_, ?_,
          hwr2, hcnt2, fun _ => ⟨sent, f, 0, rfl, ?_, ?_, ?_, by omega⟩⟩ <;>
          simp [processSendQueue, actualSendFrame, BluetoothSocketCommunicate.emit, hr,
            FRAME_HEADER_SIZE, htake, hE]
      | false =>
        have hwr3 : socketWrites (new ++ [Effect.socketWrite f.data, Effect.DataSent true])
            = blocks (sent ++ [(f, 1)]) := by
          rw [← hwr2, socketWrites_append, socketWrites_append]
          rfl
        refine ⟨?_, ?_, ?_, hsz, new ++ [Effect.socketWrite f.data, Effect.DataSent true],
          sent ++ [(f, 1)], ?_, ?_, hwr3, hcnt2, ?_⟩ <;>
          simp [processSendQueue, actualSendFrame, BluetoothSocketCommunicate.emit, hr,
            FRAME_HEADER_SIZE, htake, hE]

theorem OrderInv_timeout (base : List Effect) (E : List FrameData)
    (s : BluetoothSocketCommunicate) (h : OrderInv base E s) :
    OrderInv base E (handleAckTimeout s) := by
  obtain ⟨hc, hw, hb, hsz, new, sent, htr, hE, hwr, hcnt, hwait⟩ := h
  cases hwt : s.m_isWaitingForAck with
  | false =>
    rw [handleAckTimeout_idle s hwt]
    exact ⟨hc, hw, hb, hsz, new, sent, htr, hE, hwr, hcnt, hwait⟩
  | true =>
    obtain ⟨pre, f, r, hsent, hcur, hsize, hrc, hr3⟩ := hwait hwt
    obtain ⟨rb, q, cur, sz, rc, w, at1, qt, co, wr, tr⟩ := s
    simp only at hc hw hb htr hE hwt hcur hsize hrc
    subst hc hw hb htr hwt hcur hsize hrc hsent
    have hfE : f ∈ E := by
      rw [← hE]
      exact List.mem_append_left _ (by simp)
    have htake := hsz f hfE
    have hE3 : List.map Prod.fst pre ++ f :: q = E := by
      rw [← hE]; simp
    by_cases hlt : r < 3
    · have hlt2 : (r : Int) < MAX_RETRIES := by simp only [MAX_RETRIES]; omega
      have hE2 : (pre ++ [(f, r + 1 + 1)]).map Prod.fst ++ q = E := by
        rw [← hE]; simp
      have hcnt2 : ∀ p ∈ pre ++ [(f, r + 1 + 1)], 1 ≤ p.2 ∧ p.2 ≤ 4 := by
        intro p hp
        rcases List.mem_append.mp hp with hp | hp
        · exact hcnt p (List.mem_append_left _ hp)
        · simp only [List.mem_singleton] at hp
          subst hp
          exact ⟨by simp, by simp only; omega⟩
      have hwr2 : socketWrites (new ++ [Effect.socketWrite f.data])
          = blocks (pre ++ [(f, r + 1 + 1)]) := by
        rw [socketWrites_append, blocks_retry, hwr]
        rfl
      refine ⟨?_, ?_, ?_, hsz, new ++ [Effect.socketWrite f.data], pre ++ [(f, r + 1 + 1)],
        ?_, ?_, hwr2, hcnt2, fun _ => ⟨pre, f, r + 1, rfl, ?_, ?_, ?_, by omega⟩⟩ <;>
        simp [handleAckTimeout, actualSendFrame, BluetoothSocketCommunicate.emit, hlt2, htake,
          hE3]
    · have hge : ¬ ((r : Int) < MAX_RETRIES) := by simp only [MAX_RETRIES]; omega
      have hwr2 : socketWrites (new ++ [Effect.DataSent false]) = blocks (pre ++ [(f, r + 1)]) := by
        rw [socketWrites_append, hwr]
        simp [socketWrites]
      refine ⟨?_, ?_, ?_, hsz, new ++ [Effect.DataSent false], pre ++ [(f, r + 1)],
        ?_, ?_, hwr2, hcnt, ?_⟩ <;>
        simp [handleAckTimeout, BluetoothSocketCommunicate.emit, hge, hE3]

theorem OrderInv_ack (base : List Effect) (E : List FrameData) (payload : List Nat)
    (s t : BluetoothSocketCommunicate) (h : OrderInv base E s)
    (ht : dataReceived (wireFrame 0x01 payload) s = .ok t) : OrderInv base E t := by
  obtain ⟨hc, hw, hb, hsz, new, sent, htr, hE, hwr, hcnt, hwait⟩ := h
  rw [dataReceived_wireFrame 1 payload s hb] at ht
  have hbt := dispatch_buffer _ _ _ _ ht
  simp only [processReceivedData.dispatch, if_true] at ht
  unfold handleAcknowledgment at ht
  split at ht
  · simp only [bind, Except.bind] at ht
    cases ha : QByteArray_at payload 0 with
    | error e => simp only [ha] at ht; cases ht
    | ok v =>
      simp only [ha] at ht
      split at ht
      · cases ht
        refine ⟨hc, hw, hb, hsz, new ++ [Effect.DataSent true], sent, ?_, hE, ?_, hcnt, ?_⟩
        · simp [BluetoothSocketCommunicate.emit, htr]
        · rw [socketWrites_append, hwr]
          simp [socketWrites]
        · intro hx
          simp [BluetoothSocketCommunicate.emit] at hx
      · cases ht
        exact ⟨hc, hw, hb, hsz, new, sent, htr, hE, hwr, hcnt, hwait⟩
  · cases ht
    exact ⟨hc, hw, hb, hsz, new, sent, htr, hE, hwr, hcnt, hwait⟩

theorem enqueued_cons (a : Action) (as : List Action) :
    enqueued (a :: as) = enqueued [a] ++ enqueued as := by
  cases a <;> rfl

theorem OrderInv_act (base : List Effect) (E : List FrameData) (a : Action)
    (s u : BluetoothSocketCommunicate) (ha : a.scheduling) (h : OrderInv base E s)
    (hs : act a s = .ok u) : OrderInv base (E ++ enqueued [a]) u := by
  cases a with
  | enqueue c p q => exact OrderInv_enqueue base E c p q s u ha h hs
  | event e =>
    have he : E ++ enqueued [Action.event e] = E := by simp [enqueued]
    rw [he]
    cases e with
    | tick =>
      simp only [act, step, Except.ok.injEq] at hs
      rw [← hs]
      exact OrderInv_tick base E s h
    | ackTimeout =>
      simp only [act, step, Except.ok.injEq] at hs
      rw [← hs]
      exact OrderInv_timeout base E s h
    | received newData =>
      obtain ⟨payload, hp⟩ := ha
      subst hp
      exact OrderInv_ack base E payload s u h hs

theorem OrderInv_perform (base : List Effect) (as : List Action) :
    ∀ (E : List FrameData) (s t : BluetoothSocketCommunicate),
      (∀ a ∈ as, a.scheduling) → OrderInv base E s → perform as s = .ok t →
      OrderInv base (E ++ enqueued as) t := by
  induction as with
  | nil =>
    intro E s t _ h ht
    simp only [perform, Except.ok.injEq] at ht
    rw [← ht]
    simpa [enqueued] using h
  | cons a r ih =>
    intro E s t hall h ht
    have ha : a.scheduling := hall a (List.mem_cons_self a r)
    have hr : ∀ x ∈ r, x.scheduling := fun x hx => hall x (List.mem_cons_of_mem a hx)
    simp only [perform, bind, Except.bind] at ht
    cases hs : act a s with
    | error x => simp only [hs] at ht; cases ht
    | ok u =>
      simp only [hs] at ht
      have := ih _ u t hr (OrderInv_act base E a s u ha h hs) ht
      rw [enqueued_cons, ← List.append_assoc]
      exact this

/-- A run of scheduling actions that does not return a state has stopped at a read out of
bounds. -/
theorem OrderInv_fault (base : List Effect) (as : List Action) :
    ∀ (E : List FrameData) (s : BluetoothSocketCommunicate) (e : Fault),
      (∀ a ∈ as, a.scheduling) → OrderInv base E s → perform as s = .error e →
      e = .readOutOfBounds := by
  induction as with
  | nil => intro E s e _ _ h; cases h
  | cons a r ih =>
    intro E s e hall h ht
    have ha : a.scheduling := hall a (List.mem_cons_self a r)
    have hr : ∀ x ∈ r, x.scheduling := fun x hx => hall x (List.mem_cons_of_mem a hx)
    simp only [perform, bind, Except.bind] at ht
    cases hs : act a s with
    | error x =>
      simp only [hs] at ht
      cases ht
      cases a with
      | enqueue c p q =>
        simp only [act] at hs
        rw [SendFrameWithCommand_ok c p q s ha h.1] at hs
        cases hs
      | event ev => exact run_fault [ev] s e (by simp only [run, bind, Except.bind]; simp only [act] at hs; rw [hs])
    | ok u =>
      simp only [hs] at ht
      exact ih _ u e hr (OrderInv_act base E a s u ha h hs) ht

/-! ## Claims about the frame codec -/

/-- C1 (round trip). For every command and every payload of at most 250 bytes, on an open
transport `SendFrameWithCommand` queues one frame; when the bytes of that frame arrive in an
empty receive buffer, `dataReceived` does exactly what the dispatch of one valid frame with the
original command and payload does, any state it returns has an empty receive buffer, and it
returns a state whenever the ACK handler does not index an empty payload. -/
theorem round_trip (command : Nat) (payload : List Nat) (requireAck : Bool)
    (sender receiver : BluetoothSocketCommunicate)
    (hl : payload.length ≤ 250) (hopen : sender.socketConnected = true)
    (hempty : receiver.m_receiveBuffer = []) :
    ∃ frame : FrameData,
      SendFrameWithCommand command payload payload.length requireAck sender
        = .ok { sender with m_sendQueue := sender.m_sendQueue ++ [frame] }
      ∧ frame.command = command ∧ frame.length = payload.length
      ∧ dataReceived frame.data receiver
          = processReceivedData.dispatch command payload receiver
      ∧ (∀ t, dataReceived frame.data receiver = .ok t → t.m_receiveBuffer = [])
      ∧ ((command = 1 → payload ≠ [] ∨ receiver.m_isWaitingForAck = false
            ∨ receiver.m_currentSendingFrame = none)
          → ∃ t, dataReceived frame.data receiver = .ok t) := by
  refine ⟨{ data := wireFrame command payload, length := payload.length, command := command,
            requiresAck := requireAck },
    SendFrameWithCommand_ok command payload requireAck sender hl hopen, rfl, rfl,
    dataReceived_wireFrame command payload receiver hempty, ?_, ?_⟩
  · intro t ht
    rw [dataReceived_wireFrame command payload receiver hempty] at ht
    rw [dispatch_buffer _ _ _ _ ht, hempty]
  · intro h
    rw [dataReceived_wireFrame command payload receiver hempty]
    exact dispatch_ok command payload receiver h

/-- C1, at command `0x02` with payload `[0x31]`, sent and received by freshly constructed
objects on an open transport. -/
theorem round_trip_witness :
    ∃ frame : FrameData,
      SendFrameWithCommand 2 [0x31] [0x31].length true (BluetoothSocketCommunicate.init true true)
        = .ok { BluetoothSocketCommunicate.init true true with
                m_sendQueue := (BluetoothSocketCommunicate.init true true).m_sendQueue ++ [frame] }
      ∧ frame.command = 2 ∧ frame.length = [0x31].length
      ∧ dataReceived frame.data (BluetoothSocketCommunicate.init true true)
          = processReceivedData.dispatch 2 [0x31] (BluetoothSocketCommunicate.init true true)
      ∧ (∀ t, dataReceived frame.data (BluetoothSocketCommunicate.init true true) = .ok t
          → t.m_receiveBuffer = [])
      ∧ (((2 : Nat) = 1 → [0x31] ≠ ([] : List Nat)
            ∨ (BluetoothSocketCommunicate.init true true).m_isWaitingForAck = false
            ∨ (BluetoothSocketCommunicate.init true true).m_currentSendingFrame = none)
          → ∃ t, dataReceived frame.data (BluetoothSocketCommunicate.init true true) = .ok t) :=
  round_trip 2 [0x31] true (BluetoothSocketCommunicate.init true true)
    (BluetoothSocketCommunicate.init true true)
    (by decide : [0x31].length ≤ 250)
    (rfl : (BluetoothSocketCommunicate.init true true).socketConnected = true)
    (rfl : (BluetoothSocketCommunicate.init true true).m_receiveBuffer = [])

/-- C2 (wire layout). For every command and every payload of `L <= 250` bytes, the frame that
`SendFrameWithCommand` appends to the queue holds exactly the `L + 5` bytes
`[0xAA, command, L, CalcCRC(command, L, payload), payload.., 0x55]`, and when `processSendQueue`
takes that frame from the head of the queue the 8-bit `m_currentSendSize` is `L + 5` and, on a
writable socket, all `L + 5` bytes are handed to the socket. -/
theorem wire_layout (command : Nat) (payload : List Nat) (requireAck : Bool)
    (s : BluetoothSocketCommunicate) (hl : payload.length ≤ 250)
    (hopen : s.socketConnected = true) :
    ∃ frame : FrameData,
      SendFrameWithCommand command payload payload.length requireAck s
        = .ok { s with m_sendQueue := s.m_sendQueue ++ [frame] }
      ∧ frame.data = [0xAA, command, payload.length, CalcCRC command payload.length payload]
                        ++ payload ++ [0x55]
      ∧ frame.data.length = payload.length + 5
      ∧ ∀ (t : BluetoothSocketCommunicate) (rest : List FrameData),
          t.m_isWaitingForAck = false → t.m_sendQueue = frame :: rest →
            (processSendQueue t).m_currentSendSize = payload.length + 5
            ∧ (t.socketWritable = true →
                socketWrites (processSendQueue t).trace = socketWrites t.trace ++ [frame.data]) := by
  refine ⟨{ data := wireFrame command payload, length := payload.length, command := command,
            requiresAck := requireAck },
    SendFrameWithCommand_ok command payload requireAck s hl hopen, rfl,
    wireFrame_length command payload, ?_⟩
  intro t rest hw hq
  have hsz : (FRAME_HEADER_SIZE + payload.length + 1) % 256 = payload.length + 5 := by
    simp only [FRAME_HEADER_SIZE]; omega
  have htake : List.take (payload.length + 5) (wireFrame command payload)
      = wireFrame command payload := by
    rw [← wireFrame_length command payload, List.take_length]
  constructor
  · cases requireAck <;>
      simp [processSendQueue, hw, hq, hsz, actualSendFrame, BluetoothSocketCommunicate.emit] <;>
      split <;> rfl
  · intro hwr
    cases requireAck <;>
      simp [processSendQueue, hw, hq, hsz, actualSendFrame, BluetoothSocketCommunicate.emit, hwr,
        htake, socketWrites_append, socketWrites]

/-- C2, at command `0x02` with payload `[0x31]` on a freshly constructed object. -/
theorem wire_layout_witness :
    ∃ frame : FrameData,
      SendFrameWithCommand 2 [0x31] [0x31].length true (BluetoothSocketCommunicate.init true true)
        = .ok { BluetoothSocketCommunicate.init true true with
                m_sendQueue := (BluetoothSocketCommunicate.init true true).m_sendQueue ++ [frame] }
      ∧ frame.data = [0xAA, 2, [0x31].length, CalcCRC 2 [0x31].length [0x31]] ++ [0x31] ++ [0x55]
      ∧ frame.data.length = [0x31].length + 5
      ∧ ∀ (t : BluetoothSocketCommunicate) (rest : List FrameData),
          t.m_isWaitingForAck = false → t.m_sendQueue = frame :: rest →
            (processSendQueue t).m_currentSendSize = [0x31].length + 5
            ∧ (t.socketWritable = true →
                socketWrites (processSendQueue t).trace = socketWrites t.trace ++ [frame.data]) :=
  wire_layout 2 [0x31] true (BluetoothSocketCommunicate.init true true)
    (by decide : [0x31].length ≤ 250)
    (rfl : (BluetoothSocketCommunicate.init true true).socketConnected = true)

/-- C3 (payload limit, as the code has it). For every payload of 251 to 255 bytes on an open
transport, `SendFrameWithCommand` makes no length check: the 8-bit `totalSize` wraps round to
`length + 5 - 256` (0 to 4), and a store of the frame falls outside that block. -/
theorem payload_over_250_overruns (command : Nat) (payload : List Nat) (requireAck : Bool)
    (s : BluetoothSocketCommunicate) (hlo : 250 < payload.length) (hhi : payload.length ≤ 255)
    (hopen : s.socketConnected = true) :
    (FRAME_HEADER_SIZE + payload.length + 1) % 256 = payload.length + 5 - 256
    ∧ SendFrameWithCommand command payload payload.length requireAck s
        = .error .writeOutOfBounds := by
  constructor
  · simp only [FRAME_HEADER_SIZE]; omega
  · generalize hL : payload.length = L at hlo hhi
    have hm : ¬ (payload.length < L) := by omega
    unfold SendFrameWithCommand SendFrameWithCommand.frameData
    simp only [hopen, not_true_eq_false, if_false]
    interval_cases L <;>
      simp [FRAME_HEADER_SIZE, store, memcpy, bind, Except.bind, List.replicate, hL]

/-- C3, at a payload of 251 zero bytes with command `0x02` on a freshly constructed object:
a block of 0 bytes is allocated and the first header store is outside it. -/
theorem payload_over_250_overruns_witness :
    250 < (List.replicate 251 0).length ∧ (List.replicate 251 0).length ≤ 255
    ∧ (FRAME_HEADER_SIZE + (List.replicate 251 0).length + 1) % 256
        = (List.replicate 251 0).length + 5 - 256
    ∧ SendFrameWithCommand 2 (List.replicate 251 0) (List.replicate 251 0).length true
        (BluetoothSocketCommunicate.init true true) = .error .writeOutOfBounds :=
  ⟨by rw [List.length_replicate]; omega, by rw [List.length_replicate]; omega,
   payload_over_250_overruns 2 (List.replicate 251 0) true
     (BluetoothSocketCommunicate.init true true) (by rw [List.length_replicate]; omega)
     (by rw [List.length_replicate]; omega) rfl⟩

/-- C4 (checksum). For every command byte, every length `L` in `0..255` and every payload of
`L` bytes, the exact sum `s = L + command + sum of the payload` is at most 65535, so the 16-bit
accumulator of `CalcCRC` never wraps, and `CalcCRC` returns `((s mod 256) + (s div 256)) mod 256`. -/
theorem checksum_fold (uCode uSize : Nat) (buffer : List Nat)
    (hc : uCode < 256) (hs : uSize ≤ 255) (hl : buffer.length = uSize)
    (hb : ∀ b ∈ buffer, b < 256) :
    uSize + uCode + buffer.sum ≤ 65535 ∧
    CalcCRC uCode uSize buffer
      = ((uSize + uCode + buffer.sum) % 256 + (uSize + uCode + buffer.sum) / 256) % 256 :=
  CalcCRC_exact uCode uSize buffer hc hs hl hb

/-- C4, at command `0xFF` with the three payload bytes `0xFF, 0xFF, 0x10`. -/
theorem checksum_fold_witness :
    (0xFF : Nat) < 256 ∧ (3 : Nat) ≤ 255 ∧ [0xFF, 0xFF, 0x10].length = 3
    ∧ (∀ b ∈ [0xFF, 0xFF, 0x10], b < 256)
    ∧ 3 + 0xFF + [0xFF, 0xFF, 0x10].sum ≤ 65535
    ∧ CalcCRC 0xFF 3 [0xFF, 0xFF, 0x10]
      = ((3 + 0xFF + [0xFF, 0xFF, 0x10].sum) % 256 + (3 + 0xFF + [0xFF, 0xFF, 0x10].sum) / 256) % 256 :=
  ⟨by decide, by decide, rfl, by decide,
   checksum_fold 0xFF 3 [0xFF, 0xFF, 0x10] (by decide) (by decide) rfl (by decide)⟩

/-! ## Claims about the receive path -/

/-- C5 as stated fails. (1) `SendFrameWithCommand(0x02, [0x00], 1)` builds `AA 02 01 03 00 55`;
with the payload byte changed to `0xFF` and the checksum left at `03`, the frame is accepted and
`ReceivedData([0xFF])` is emitted. (2) `SendFrameWithCommand(0x02, [0x55, 0xA7, 0x00], 3)` builds
`AA 02 03 02 55 A7 00 55`; with the length byte changed to `00`, the first five bytes are
accepted as a frame and `ReceivedData([])` is emitted. -/
theorem checksum_sensitivity_counterexample :
    (SendFrameWithCommand 2 [0x00] 1 true (BluetoothSocketCommunicate.init true true)
        = .ok { BluetoothSocketCommunicate.init true true with
                m_sendQueue := [{ data := [0xAA, 0x02, 0x01, 0x03, 0x00, 0x55], length := 1,
                                  command := 2, requiresAck := true }] }
      ∧ (dataReceived [0xAA, 0x02, 0x01, 0x03, 0xFF, 0x55]
            (BluetoothSocketCommunicate.init true true)).toOption.map
          (fun t => receivedMessages t.trace) = some [[0xFF]])
    ∧ (SendFrameWithCommand 2 [0x55, 0xA7, 0x00] 3 true (BluetoothSocketCommunicate.init true true)
        = .ok { BluetoothSocketCommunicate.init true true with
                m_sendQueue := [{ data := [0xAA, 0x02, 0x03, 0x02, 0x55, 0xA7, 0x00, 0x55],
                                  length := 3, command := 2, requiresAck := true }] }
      ∧ (dataReceived [0xAA, 0x02, 0x00, 0x02, 0x55, 0xA7, 0x00, 0x55]
            (BluetoothSocketCommunicate.init true true)).toOption.map
          (fun t => receivedMessages t.trace) = some [[]]) :=
  ⟨⟨rfl, rfl⟩, ⟨rfl, rfl⟩⟩

/-- C5, amended. Take a frame built from a command byte and a payload of at most 250 bytes,
and change one byte, keeping the checksum byte. If the command byte, or one payload byte, is
changed to a different value and the change is not between `0x00` and `0xFF`, then the
checksum recomputed by the receiver differs from the checksum byte, and `dataReceived` on the
changed frame (empty receive buffer before) removes it and does nothing else: the object is
exactly as before, in every state, nothing emitted, nothing queued, no ACK handled. If the
length byte is changed to a larger value, the bytes stay in the buffer as an incomplete frame
and nothing else changes. -/
theorem checksum_sensitivity (c : Nat) (p : List Nat) (s : BluetoothSocketCommunicate)
    (hc : c < 256) (hl : p.length ≤ 250) (hb : ∀ x ∈ p, x < 256)
    (hempty : s.m_receiveBuffer = []) :
    (∀ c2, c2 < 256 → c2 ≠ c → ¬ (c = 0 ∧ c2 = 255) → ¬ (c = 255 ∧ c2 = 0) →
        CalcCRC c p.length p ≠ CalcCRC c2 p.length p
        ∧ dataReceived ([0xAA, c2, p.length, CalcCRC c p.length p] ++ p ++ [0x55]) s = .ok s)
    ∧ (∀ i b, i < p.length → b < 256 → b ≠ p.getD i 0 →
          ¬ (p.getD i 0 = 0 ∧ b = 255) → ¬ (p.getD i 0 = 255 ∧ b = 0) →
        CalcCRC c p.length p ≠ CalcCRC c p.length (p.set i b)
        ∧ dataReceived ([0xAA, c, p.length, CalcCRC c p.length p] ++ p.set i b ++ [0x55]) s = .ok s)
    ∧ (∀ len2, p.length < len2 →
        dataReceived ([0xAA, c, len2, CalcCRC c p.length p] ++ p ++ [0x55]) s
          = .ok { s with m_receiveBuffer :=
                    [0xAA, c, len2, CalcCRC c p.length p] ++ p ++ [0x55] }) := by
  have hl2 : p.length ≤ 255 := by omega
  refine ⟨?_, ?_, ?_⟩
  · intro c2 hc2 hne h1 h2
    have hcrc := CalcCRC_command_ne c c2 p hc hc2 hl2 hb hne h1 h2
    have := dataReceived_invalid s c2 p.length (CalcCRC c p.length p) (p ++ [0x55]) hempty
      (by simp) (by rw [CalcCRC_append]; exact fun h => hcrc h.1)
    exact ⟨hcrc, by simpa [FRAME_START_BYTE] using this⟩
  · intro i b hi hb2 hne h1 h2
    have hcrc := CalcCRC_payload_ne c p i b hc hl2 hb hi hb2 hne h1 h2
    have hlen : (p.set i b).length = p.length := by simp
    have := dataReceived_invalid s c p.length (CalcCRC c p.length p) (p.set i b ++ [0x55]) hempty
      (by simp) (by
        rw [← hlen, CalcCRC_append, hlen]
        exact fun h => hcrc h.1)
    exact ⟨hcrc, by simpa [FRAME_START_BYTE] using this⟩
  · intro len2 hlt
    have := dataReceived_incomplete s c len2 (CalcCRC c p.length p) (p ++ [0x55]) hempty
      (by simp; omega)
    simpa [FRAME_START_BYTE] using this

/-- C5 amended, at the frame `AA 02 01 03 00 55` of command `0x02` and payload `[0x00]`. -/
theorem checksum_sensitivity_witness :
    ((2 : Nat) < 256 ∧ [0x00].length ≤ 250 ∧ (∀ x ∈ [0x00], x < 256)
      ∧ (BluetoothSocketCommunicate.init true true).m_receiveBuffer = [])
    ∧ (CalcCRC 2 [0x00].length [0x00] ≠ CalcCRC 3 [0x00].length [0x00]
      ∧ dataReceived ([0xAA, 0x03, [0x00].length, CalcCRC 2 [0x00].length [0x00]] ++ [0x00] ++ [0x55])
          (BluetoothSocketCommunicate.init true true)
        = .ok (BluetoothSocketCommunicate.init true true))
    ∧ (CalcCRC 2 [0x00].length [0x00] ≠ CalcCRC 2 [0x00].length ([0x00].set 0 0x07)
      ∧ dataReceived ([0xAA, 0x02, [0x00].length, CalcCRC 2 [0x00].length [0x00]]
            ++ [0x00].set 0 0x07 ++ [0x55])
          (BluetoothSocketCommunicate.init true true)
        = .ok (BluetoothSocketCommunicate.init true true)) :=
  ⟨⟨by decide, by decide, by decide, rfl⟩,
   (checksum_sensitivity 2 [0x00] (BluetoothSocketCommunicate.init true true)
      (by decide) (by decide) (by decide) rfl).1 3 (by decide) (by decide) (by decide) (by decide),
   (checksum_sensitivity 2 [0x00] (BluetoothSocketCommunicate.init true true)
      (by decide) (by decide) (by decide) rfl).2.1 0 7 (by decide) (by decide) (by decide)
      (by decide) (by decide)⟩

/-- C6 as stated fails when the garbage holds a start marker. (1) The frame of command `0x02`
and payload `[0x31]` is `AA 02 01 34 31 55`; after the garbage `AA 00 00 07` the decoder takes
`AA 00 00 07 AA` for a frame, discards it as invalid, and then drops the remaining bytes for
want of a start marker: no message is emitted and the buffer is empty. (2) After the garbage
`AA` alone the decoder reads command `AA` and length 2, takes all seven bytes for one frame and
discards it as invalid: no message again. -/
theorem resynchronization_counterexample :
    SendFrameWithCommand 2 [0x31] 1 true (BluetoothSocketCommunicate.init true true)
        = .ok { BluetoothSocketCommunicate.init true true with
                m_sendQueue := [{ data := [0xAA, 0x02, 0x01, 0x34, 0x31, 0x55], length := 1,
                                  command := 2, requiresAck := true }] }
    ∧ (dataReceived ([0xAA, 0x00, 0x00, 0x07] ++ [0xAA, 0x02, 0x01, 0x34, 0x31, 0x55])
          (BluetoothSocketCommunicate.init true true)).toOption.map
        (fun t => (receivedMessages t.trace, t.m_receiveBuffer)) = some ([], [])
    ∧ (dataReceived ([0xAA] ++ [0xAA, 0x02, 0x01, 0x34, 0x31, 0x55])
          (BluetoothSocketCommunicate.init true true)).toOption.map
        (fun t => (receivedMessages t.trace, t.m_receiveBuffer))
        = some ([], []) :=
  ⟨rfl, rfl, rfl⟩

/-- C6, amended. For every sequence of garbage bytes that holds no start marker `0xAA` and
every well-formed frame with a command other than ACK, `dataReceived` on garbage followed by
the frame (empty receive buffer before) does exactly what it does on the frame alone: it
returns, exactly one message is emitted, the payload of the frame, and the buffer is empty. -/
theorem resynchronization (g : List Nat) (c : Nat) (p : List Nat) (s : BluetoothSocketCommunicate)
    (hg : ∀ b ∈ g, b ≠ 0xAA) (hc : c ≠ 0x01) (hempty : s.m_receiveBuffer = []) :
    dataReceived (g ++ ([0xAA, c, p.length, CalcCRC c p.length p] ++ p ++ [0x55])) s
      = dataReceived ([0xAA, c, p.length, CalcCRC c p.length p] ++ p ++ [0x55]) s
    ∧ ∃ t, dataReceived (g ++ ([0xAA, c, p.length, CalcCRC c p.length p] ++ p ++ [0x55])) s = .ok t
        ∧ receivedMessages t.trace = receivedMessages s.trace ++ [p]
        ∧ t.m_receiveBuffer = [] := by
  have h1 := dataReceived_noise_wireFrame g c p s hg hempty
  have h2 := dataReceived_wireFrame c p s hempty
  obtain ⟨t, ht, hm, _, hb, _⟩ := dispatch_data c p s hc
  have hw : wireFrame c p = [0xAA, c, p.length, CalcCRC c p.length p] ++ p ++ [0x55] := rfl
  rw [hw] at h1 h2
  refine ⟨by rw [h1, h2], t, by rw [h1, ht], hm, by rw [hb, hempty]⟩

/-- C6 amended, at the garbage `01 02 03` before the frame of command `0x02`, payload `[0x31]`. -/
theorem resynchronization_witness :
    ((∀ b ∈ [0x01, 0x02, 0x03], b ≠ 0xAA) ∧ (2 : Nat) ≠ 0x01
      ∧ (BluetoothSocketCommunicate.init true true).m_receiveBuffer = [])
    ∧ dataReceived ([0x01, 0x02, 0x03]
          ++ ([0xAA, 2, [0x31].length, CalcCRC 2 [0x31].length [0x31]] ++ [0x31] ++ [0x55]))
        (BluetoothSocketCommunicate.init true true)
      = dataReceived ([0xAA, 2, [0x31].length, CalcCRC 2 [0x31].length [0x31]] ++ [0x31] ++ [0x55])
          (BluetoothSocketCommunicate.init true true)
    ∧ ∃ t, dataReceived ([0x01, 0x02, 0x03]
          ++ ([0xAA, 2, [0x31].length, CalcCRC 2 [0x31].length [0x31]] ++ [0x31] ++ [0x55]))
          (BluetoothSocketCommunicate.init true true) = .ok t
        ∧ receivedMessages t.trace
            = receivedMessages (BluetoothSocketCommunicate.init true true).trace ++ [[0x31]]
        ∧ t.m_receiveBuffer = [] :=
  ⟨⟨by decide, by decide, rfl⟩,
   resynchronization [0x01, 0x02, 0x03] 2 [0x31] (BluetoothSocketCommunicate.init true true)
     (by decide) (by decide) rfl⟩

/-- C7 (fragmentation). For every well-formed frame with a command other than ACK and every
split of its bytes into consecutive chunks (empty and short chunks included), delivering the
chunks one `dataReceived` at a time into an empty receive buffer ends in the same state as
delivering the frame as one chunk; the run returns and exactly one message is emitted in total,
the payload of the frame. -/
theorem fragmentation (c : Nat) (p : List Nat) (chunks : List (List Nat))
    (s : BluetoothSocketCommunicate) (hc : c ≠ 0x01)
    (hsplit : chunks.flatten = [0xAA, c, p.length, CalcCRC c p.length p] ++ p ++ [0x55])
    (hempty : s.m_receiveBuffer = []) :
    chunks.length ≥ 1
    ∧ feed chunks s = feed [[0xAA, c, p.length, CalcCRC c p.length p] ++ p ++ [0x55]] s
    ∧ ∃ t, feed chunks s = .ok t
        ∧ receivedMessages t.trace = receivedMessages s.trace ++ [p]
        ∧ t.m_receiveBuffer = [] := by
  have hw : wireFrame c p = [0xAA, c, p.length, CalcCRC c p.length p] ++ p ++ [0x55] := rfl
  rw [← hw] at hsplit ⊢
  have hs : ({ s with m_receiveBuffer := [] } : BluetoothSocketCommunicate) = s := by
    obtain ⟨rb, q, cur, sz, rc, w, at1, qt, co, wr, tr⟩ := s
    simp only at hempty
    simp [hempty]
  have hpos : s.m_receiveBuffer.length < (wireFrame c p).length := by
    rw [hempty, wireFrame_length]; simp
  have h1 := feed_fragments c p chunks s (by rw [hempty, List.nil_append, hsplit]) hpos
  have h2 := feed_fragments c p [wireFrame c p] s (by rw [hempty]; simp) hpos
  rw [hs] at h1 h2
  obtain ⟨t, ht, hm, _, hb, _⟩ := dispatch_data c p s hc
  refine ⟨?_, by rw [h1, h2], t, by rw [h1, ht], hm, by rw [hb, hempty]⟩
  cases chunks with
  | nil => simp [wireFrame] at hsplit
  | cons a r => simp

/-- C7, at the frame `AA 02 01 34 31 55` delivered as `AA 02`, nothing, `01 34 31`, `55`. -/
theorem fragmentation_witness :
    ((2 : Nat) ≠ 0x01
      ∧ [[0xAA, 0x02], [], [0x01, 0x34, 0x31], [0x55]].flatten
          = [0xAA, 2, [0x31].length, CalcCRC 2 [0x31].length [0x31]] ++ [0x31] ++ [0x55]
      ∧ (BluetoothSocketCommunicate.init true true).m_receiveBuffer = [])
    ∧ [[0xAA, 0x02], [], [0x01, 0x34, 0x31], [0x55]].length ≥ 1
    ∧ feed [[0xAA, 0x02], [], [0x01, 0x34, 0x31], [0x55]] (BluetoothSocketCommunicate.init true true)
        = feed [[0xAA, 2, [0x31].length, CalcCRC 2 [0x31].length [0x31]] ++ [0x31] ++ [0x55]]
            (BluetoothSocketCommunicate.init true true)
    ∧ ∃ t, feed [[0xAA, 0x02], [], [0x01, 0x34, 0x31], [0x55]]
            (BluetoothSocketCommunicate.init true true) = .ok t
        ∧ receivedMessages t.trace
            = receivedMessages (BluetoothSocketCommunicate.init true true).trace ++ [[0x31]]
        ∧ t.m_receiveBuffer = [] :=
  ⟨⟨by decide, by decide, rfl⟩,
   fragmentation 2 [0x31] [[0xAA, 0x02], [], [0x01, 0x34, 0x31], [0x55]]
     (BluetoothSocketCommunicate.init true true) (by decide) (by decide) rfl⟩

/-! ## Claims about the send scheduler -/

/-- C8 (single-flight). On an open, writable socket with an idle scheduler and an empty queue,
enqueue two frames that require an ACK, `F1` then `F2` (payloads of at most 250 bytes). Both
calls return and the queue is `[F1, F2]`. After every sequence of ticks, ACK timeouts and
received chunks of bytes that returns, the effects `new` since the enqueue are in one of three
shapes: (1) nothing written, nothing reported, `F1` and `F2` still queued in that order;
(2) `F1` in flight with `k <= 3` retries, every write so far one of `k + 1` writes of the bytes
of `F1`, nothing reported, `F2` still at the head of the queue; (3) a `DataSent` has been
emitted, and before the first one there are only `k` writes of the bytes of `F1`, with
`1 <= k <= 4`, and `k = 4` (one write and `MAX_RETRIES` retries) if that first report is a
failure. So nothing of `F2` is written before `F1` is acknowledged or abandoned. A sequence of
events that does not return has stopped at a read out of bounds, never for want of loop budget. -/
theorem single_flight (c1 c2 : Nat) (p1 p2 : List Nat) (s0 : BluetoothSocketCommunicate)
    (hl1 : p1.length ≤ 250) (hl2 : p2.length ≤ 250)
    (hopen : s0.socketConnected = true) (hwr : s0.socketWritable = true)
    (hidle : s0.m_isWaitingForAck = false) (hq0 : s0.m_sendQueue = []) :
    ∃ s2 : BluetoothSocketCommunicate,
      (SendFrameWithCommand c1 p1 p1.length true s0
          >>= SendFrameWithCommand c2 p2 p2.length true) = .ok s2
      ∧ s2.m_sendQueue = [FrameData.mk (wireFrame c1 p1) p1.length c1 true,
                          FrameData.mk (wireFrame c2 p2) p2.length c2 true]
      ∧ (∀ (es : List Event) (e : Fault), run es s2 = .error e → e = .readOutOfBounds)
      ∧ ∀ (es : List Event) (t : BluetoothSocketCommunicate), run es s2 = .ok t →
          ∃ new, t.trace = s0.trace ++ new ∧
            ((t.m_isWaitingForAck = false
                ∧ (∃ acks, t.m_sendQueue = FrameData.mk (wireFrame c1 p1) p1.length c1 true
                    :: FrameData.mk (wireFrame c2 p2) p2.length c2 true :: acks)
                ∧ socketWrites new = [] ∧ sendResults new = [])
              ∨ (t.m_isWaitingForAck = true
                ∧ t.m_currentSendingFrame = some (FrameData.mk (wireFrame c1 p1) p1.length c1 true)
                ∧ (∃ acks, t.m_sendQueue
                    = FrameData.mk (wireFrame c2 p2) p2.length c2 true :: acks)
                ∧ sendResults new = []
                ∧ ∃ k : Nat, k ≤ 3 ∧ t.m_retryCount = (k : Int)
                    ∧ socketWrites new = List.replicate (k + 1) (wireFrame c1 p1))
              ∨ (∃ (pre : List Effect) (b : Bool) (post : List Effect) (k : Nat),
                  new = pre ++ Effect.DataSent b :: post ∧ sendResults pre = []
                  ∧ socketWrites pre = List.replicate k (wireFrame c1 p1)
                  ∧ 1 ≤ k ∧ k ≤ 4 ∧ (b = false → k = 4))) := by
  have e1 := SendFrameWithCommand_ok c1 p1 true s0 hl1 hopen
  have e2 := SendFrameWithCommand_ok c2 p2 true
    { s0 with m_sendQueue := s0.m_sendQueue ++
        [FrameData.mk (wireFrame c1 p1) p1.length c1 true] } hl2 hopen
  have htake : List.take ((4 + p1.length + 1) % 256) (wireFrame c1 p1) = wireFrame c1 p1 := by
    have : (4 + p1.length + 1) % 256 = (wireFrame c1 p1).length := by
      rw [wireFrame_length]; omega
    rw [this, List.take_length]
  refine ⟨_, by rw [e1]; exact e2, by simp [hq0], fun es e h => run_fault es _ e h, ?_⟩
  intro es t hrun
  have hinit : SingleFlight (FrameData.mk (wireFrame c1 p1) p1.length c1 true)
      (FrameData.mk (wireFrame c2 p2) p2.length c2 true) s0.trace
      { s0 with m_sendQueue := s0.m_sendQueue ++
          [FrameData.mk (wireFrame c1 p1) p1.length c1 true] ++
          [FrameData.mk (wireFrame c2 p2) p2.length c2 true] } :=
    ⟨hopen, hwr, [], by simp, Or.inl ⟨hidle, ⟨[], by simp [hq0]⟩, rfl, rfl⟩⟩
  have hfin := SingleFlight_run _ _ s0.trace es rfl _ t hinit hrun
  obtain ⟨_, _, new, htr, hq | hf | hrel⟩ := hfin
  · exact ⟨new, htr, Or.inl hq⟩
  · obtain ⟨hwait, hcur, _, hqq, hsr, k, hk, hrc, hsw⟩ := hf
    simp only [htake] at hsw
    exact ⟨new, htr, Or.inr (Or.inl ⟨hwait, hcur, hqq, hsr, k, hk, hrc, hsw⟩)⟩
  · unfold FirstReleased at hrel
    simp only [htake] at hrel
    exact ⟨new, htr, Or.inr (Or.inr hrel)⟩

/-- C8, for the frames of command `0x02`, payload `[0x31]` and command `0x03`, payload
`[0x32]`, enqueued on a freshly constructed object with an open, writable socket. -/
theorem single_flight_witness :
    ([0x31].length ≤ 250 ∧ [0x32].length ≤ 250
      ∧ (BluetoothSocketCommunicate.init true true).socketConnected = true
      ∧ (BluetoothSocketCommunicate.init true true).socketWritable = true
      ∧ (BluetoothSocketCommunicate.init true true).m_isWaitingForAck = false
      ∧ (BluetoothSocketCommunicate.init true true).m_sendQueue = []) ∧
    ∃ s2 : BluetoothSocketCommunicate,
      (SendFrameWithCommand 2 [0x31] [0x31].length true (BluetoothSocketCommunicate.init true true)
          >>= SendFrameWithCommand 3 [0x32] [0x32].length true) = .ok s2
      ∧ s2.m_sendQueue = [FrameData.mk (wireFrame 2 [0x31]) [0x31].length 2 true,
                          FrameData.mk (wireFrame 3 [0x32]) [0x32].length 3 true]
      ∧ (∀ (es : List Event) (e : Fault), run es s2 = .error e → e = .readOutOfBounds)
      ∧ ∀ (es : List Event) (t : BluetoothSocketCommunicate), run es s2 = .ok t →
          ∃ new, t.trace = (BluetoothSocketCommunicate.init true true).trace ++ new ∧
            ((t.m_isWaitingForAck = false
                ∧ (∃ acks, t.m_sendQueue = FrameData.mk (wireFrame 2 [0x31]) [0x31].length 2 true
                    :: FrameData.mk (wireFrame 3 [0x32]) [0x32].length 3 true :: acks)
                ∧ socketWrites new = [] ∧ sendResults new = [])
              ∨ (t.m_isWaitingForAck = true
                ∧ t.m_currentSendingFrame = some (FrameData.mk (wireFrame 2 [0x31]) [0x31].length 2 true)
                ∧ (∃ acks, t.m_sendQueue
                    = FrameData.mk (wireFrame 3 [0x32]) [0x32].length 3 true :: acks)
                ∧ sendResults new = []
                ∧ ∃ k : Nat, k ≤ 3 ∧ t.m_retryCount = (k : Int)
                    ∧ socketWrites new = List.replicate (k + 1) (wireFrame 2 [0x31]))
              ∨ (∃ (pre : List Effect) (b : Bool) (post : List Effect) (k : Nat),
                  new = pre ++ Effect.DataSent b :: post ∧ sendResults pre = []
                  ∧ socketWrites pre = List.replicate k (wireFrame 2 [0x31])
                  ∧ 1 ≤ k ∧ k ≤ 4 ∧ (b = false → k = 4))) :=
  ⟨⟨by decide, by decide, rfl, rfl, rfl, rfl⟩,
   single_flight 2 3 [0x31] [0x32] (BluetoothSocketCommunicate.init true true)
     (by decide) (by decide) rfl rfl rfl rfl⟩

/-- C9 (retry bound). Let a tick take a frame that requires an ACK from the head of the queue
on a writable socket, and let only ticks and ACK timeouts follow (no ACK arrives). As long as
at most 3 timeouts have fired, say `k`, the frame is still in flight, `m_retryCount` is `k`, and
the same bytes have been written `k + 1` times, nothing else being emitted. With the fourth
timeout the frame is abandoned: `DataSent(false)` is emitted once, after exactly
`MAX_RETRIES + 1 = 4` writes, and the scheduler is idle (`m_isWaitingForAck` false, no frame in
flight, `m_retryCount = 0`); timeouts after that change nothing. -/
theorem retry_bound (s : BluetoothSocketCommunicate) (frame : FrameData) (rest : List FrameData)
    (es : List Event)
    (hidle : s.m_isWaitingForAck = false) (hq : s.m_sendQueue = frame :: rest)
    (hack : frame.requiresAck = true) (hwr : s.socketWritable = true)
    (hes : ∀ e ∈ es, e = Event.tick ∨ e = Event.ackTimeout) :
    (es.count Event.ackTimeout ≤ 3 →
      run (Event.tick :: es) s
        = .ok { s with
            m_sendQueue := rest, m_currentSendingFrame := some frame,
            m_currentSendSize := (4 + frame.length + 1) % 256,
            m_isWaitingForAck := true, m_retryCount := ((es.count Event.ackTimeout : Nat) : Int),
            ackTimerActive := true,
            trace := s.trace ++ List.replicate (es.count Event.ackTimeout + 1)
              (Effect.socketWrite (frame.data.take ((4 + frame.length + 1) % 256))) })
    ∧ (es.count Event.ackTimeout = 3 → ∀ n : Nat,
      run (Event.tick :: (es ++ Event.ackTimeout :: List.replicate n Event.ackTimeout)) s
        = .ok { s with
            m_sendQueue := rest, m_currentSendingFrame := none,
            m_currentSendSize := (4 + frame.length + 1) % 256,
            m_isWaitingForAck := false, m_retryCount := 0, ackTimerActive := true,
            trace := s.trace ++ List.replicate 4
              (Effect.socketWrite (frame.data.take ((4 + frame.length + 1) % 256)))
              ++ [Effect.DataSent false] }) := by
  obtain ⟨rb, q, cur, sz, rc, w, at1, qt, co, wr, tr⟩ := s
  simp only at hidle hq hwr
  subst hidle hq hwr
  have htick : step Event.tick
      ⟨rb, frame :: rest, cur, sz, rc, false, at1, qt, co, true, tr⟩
      = .ok ⟨rb, rest, some frame, (4 + frame.length + 1) % 256, ((0 : Nat) : Int), true, true, qt,
          co, true,
          tr ++ [Effect.socketWrite (frame.data.take ((4 + frame.length + 1) % 256))]⟩ := by
    simp [step, processSendQueue, actualSendFrame, BluetoothSocketCommunicate.emit, hack,
      FRAME_HEADER_SIZE]
  constructor
  · intro hk
    simp only [run, htick, bind, Except.bind]
    rw [inflight_run frame es hes _ _ _ _ _ _ 0 (by omega)]
    congr 2
    · congr 1; omega
    · rw [List.append_assoc, List.replicate_succ]
      rfl
  · intro hk n
    simp only [run, htick, bind, Except.bind]
    rw [run_append, inflight_run frame es hes _ _ _ _ _ _ 0 (by omega), hk]
    have hlt : ¬ (((0 + 3 : Nat) : Int) < MAX_RETRIES) := by simp [MAX_RETRIES]
    simp only [run, step, handleAckTimeout, hlt, if_false, BluetoothSocketCommunicate.emit, bind,
      Except.bind]
    rw [run_ackTimeout_idle n _ rfl]
    congr 2
    simp [List.replicate]

/-- C9, on the frame `AA 02 01 34 31 55` alone in the queue of a freshly constructed object:
a tick, three timeouts with ticks in between, and two more timeouts. -/
theorem retry_bound_witness :
    ((∀ e ∈ [Event.tick, Event.ackTimeout, Event.tick, Event.ackTimeout, Event.ackTimeout],
        e = Event.tick ∨ e = Event.ackTimeout)
      ∧ [Event.tick, Event.ackTimeout, Event.tick, Event.ackTimeout, Event.ackTimeout].count
          Event.ackTimeout = 3)
    ∧ run (Event.tick
          :: ([Event.tick, Event.ackTimeout, Event.tick, Event.ackTimeout, Event.ackTimeout]
              ++ Event.ackTimeout :: List.replicate 1 Event.ackTimeout))
        { BluetoothSocketCommunicate.init true true with
          m_sendQueue := [FrameData.mk [0xAA, 0x02, 0x01, 0x34, 0x31, 0x55] 1 2 true] }
      = .ok { BluetoothSocketCommunicate.init true true with
          m_sendQueue := [], m_currentSendingFrame := none,
          m_currentSendSize := 6,
          m_isWaitingForAck := false, m_retryCount := 0, ackTimerActive := true,
          trace := [Effect.socketWrite [0xAA, 0x02, 0x01, 0x34, 0x31, 0x55],
                    Effect.socketWrite [0xAA, 0x02, 0x01, 0x34, 0x31, 0x55],
                    Effect.socketWrite [0xAA, 0x02, 0x01, 0x34, 0x31, 0x55],
                    Effect.socketWrite [0xAA, 0x02, 0x01, 0x34, 0x31, 0x55],
                    Effect.DataSent false] } :=
  ⟨⟨by decide, by decide⟩,
   (retry_bound
      { BluetoothSocketCommunicate.init true true with
        m_sendQueue := [FrameData.mk [0xAA, 0x02, 0x01, 0x34, 0x31, 0x55] 1 2 true] }
      (FrameData.mk [0xAA, 0x02, 0x01, 0x34, 0x31, 0x55] 1 2 true) []
      [Event.tick, Event.ackTimeout, Event.tick, Event.ackTimeout, Event.ackTimeout]
      rfl rfl rfl rfl (by decide)).2 (by decide) 1⟩

/-- C10 (ACK correlation). For every state and every ACK payload with first byte `c`,
`handleAcknowledgment` returns; if `m_isWaitingForAck` holds and the frame in flight has
command `c`, the result is the state with the ACK timer stopped, `m_isWaitingForAck` false, no
frame in flight, `m_retryCount = 0` and one `DataSent(true)` appended to the trace; in every
other case the result is the state unchanged. -/
theorem ack_correlation (c : Nat) (more : List Nat) (s : BluetoothSocketCommunicate) :
    handleAcknowledgment (c :: more) s
      = .ok (if s.m_isWaitingForAck = true ∧ s.m_currentSendingFrame.map (·.command) = some c
          then { s with ackTimerActive := false, m_isWaitingForAck := false,
                        m_currentSendingFrame := none, m_retryCount := 0,
                        trace := s.trace ++ [Effect.DataSent true] }
          else s) := by
  obtain ⟨rb, q, cur, sz, rc, w, at1, qt, co, wr, tr⟩ := s
  unfold handleAcknowledgment
  cases w <;> cases cur <;>
    simp [QByteArray_at, bind, Except.bind, BluetoothSocketCommunicate.emit]
  rename_i f
  by_cases h : c = f.command
  · simp [h]
  · have h2 : ¬ f.command = c := fun e => h e.symm
    simp [h, h2]

/-! ## Claims about failures and the connection -/

/-- C11 (non-writable transport, as the code has it). When a tick takes a frame that requires
an ACK from the head of the queue and the socket is not writable, `actualSendFrame` emits
`DataSent(false)`, and `processSendQueue` goes on to set `m_isWaitingForAck`, keep the frame
in `m_currentSendingFrame` and start the ACK timer. With the socket still not writable, the
four timeouts that follow each emit `DataSent(false)` again: five reports for the one frame. -/
theorem not_writable_enters_retry (s : BluetoothSocketCommunicate) (frame : FrameData)
    (rest : List FrameData)
    (hidle : s.m_isWaitingForAck = false) (hq : s.m_sendQueue = frame :: rest)
    (hack : frame.requiresAck = true) (hnw : s.socketWritable = false) :
    processSendQueue s
      = { s with
          m_sendQueue := rest, m_currentSendingFrame := some frame,
          m_currentSendSize := (4 + frame.length + 1) % 256,
          m_isWaitingForAck := true, m_retryCount := 0, ackTimerActive := true,
          trace := s.trace ++ [Effect.DataSent false] }
    ∧ run (Event.tick :: List.replicate 4 Event.ackTimeout) s
      = .ok { s with
          m_sendQueue := rest, m_currentSendingFrame := none,
          m_currentSendSize := (4 + frame.length + 1) % 256,
          m_isWaitingForAck := false, m_retryCount := 0, ackTimerActive := true,
          trace := s.trace ++ List.replicate 5 (Effect.DataSent false) } := by
  obtain ⟨rb, q, cur, sz, rc, w, at1, qt, co, wr, tr⟩ := s
  simp only at hidle hq hnw
  subst hidle hq hnw
  constructor
  · simp [processSendQueue, actualSendFrame, BluetoothSocketCommunicate.emit, hack,
      FRAME_HEADER_SIZE]
  · simp [run, step, processSendQueue, handleAckTimeout, actualSendFrame,
      BluetoothSocketCommunicate.emit, hack, MAX_RETRIES, FRAME_HEADER_SIZE, bind, Except.bind,
      List.replicate]

/-- C11, on the frame `AA 02 01 34 31 55` alone in the queue of a freshly constructed object
whose socket is open but not writable. -/
theorem not_writable_enters_retry_witness :
    processSendQueue
        { BluetoothSocketCommunicate.init true false with
          m_sendQueue := [FrameData.mk [0xAA, 0x02, 0x01, 0x34, 0x31, 0x55] 1 2 true] }
      = { BluetoothSocketCommunicate.init true false with
          m_sendQueue := [],
          m_currentSendingFrame := some (FrameData.mk [0xAA, 0x02, 0x01, 0x34, 0x31, 0x55] 1 2 true),
          m_currentSendSize := 6,
          m_isWaitingForAck := true, m_retryCount := 0, ackTimerActive := true,
          trace := [Effect.DataSent false] }
    ∧ run (Event.tick :: List.replicate 4 Event.ackTimeout)
        { BluetoothSocketCommunicate.init true false with
          m_sendQueue := [FrameData.mk [0xAA, 0x02, 0x01, 0x34, 0x31, 0x55] 1 2 true] }
      = .ok { BluetoothSocketCommunicate.init true false with
          m_sendQueue := [], m_currentSendingFrame := none,
          m_currentSendSize := 6,
          m_isWaitingForAck := false, m_retryCount := 0, ackTimerActive := true,
          trace := [Effect.DataSent false, Effect.DataSent false, Effect.DataSent false,
                    Effect.DataSent false, Effect.DataSent false] } :=
  not_writable_enters_retry
    { BluetoothSocketCommunicate.init true false with
      m_sendQueue := [FrameData.mk [0xAA, 0x02, 0x01, 0x34, 0x31, 0x55] 1 2 true] }
    (FrameData.mk [0xAA, 0x02, 0x01, 0x34, 0x31, 0x55] 1 2 true) [] rfl rfl rfl rfl

/-- C12 (flush, as the code has it). `clearSendQueue` empties the queue and the in-flight
slot but assigns neither `m_isWaitingForAck` nor `m_retryCount`. Flushed while a frame awaits
its ACK (by `enableConnection(false)` or `disconnectFromController`), the scheduler keeps
`m_isWaitingForAck = true` with no frame in flight; after the socket is connected and writable
again, no sequence of `SendFrameWithCommand` calls, ticks, timeouts and received bytes ever
hands a byte to the socket. -/
theorem flush_keeps_waiting (s : BluetoothSocketCommunicate)
    (hw : s.m_isWaitingForAck = true) :
    (clearSendQueue s).m_sendQueue = [] ∧ (clearSendQueue s).m_currentSendingFrame = none
    ∧ (clearSendQueue s).m_isWaitingForAck = true
    ∧ (clearSendQueue s).m_retryCount = s.m_retryCount
    ∧ (enableConnection false s).m_isWaitingForAck = true
    ∧ (disconnectFromController s).m_isWaitingForAck = true
    ∧ (∀ (as : List Action) (t : BluetoothSocketCommunicate),
        perform as (socketStateChanged .ConnectedState
            { enableConnection false s with socketWritable := true }) = .ok t →
          socketWrites t.trace = socketWrites s.trace)
    ∧ (∀ (as : List Action) (t : BluetoothSocketCommunicate),
        perform as (socketStateChanged .ConnectedState
            { disconnectFromController s with socketWritable := true }) = .ok t →
          socketWrites t.trace = socketWrites s.trace) := by
  refine ⟨rfl, rfl, hw, rfl, hw, hw, ?_, ?_⟩
  · intro as t ht
    exact (Stuck_perform (socketWrites s.trace) as
      (socketStateChanged .ConnectedState { enableConnection false s with socketWritable := true })
      t ⟨hw, rfl, rfl⟩ ht).2.2
  · intro as t ht
    exact (Stuck_perform (socketWrites s.trace) as
      (socketStateChanged .ConnectedState
        { disconnectFromController s with socketWritable := true })
      t ⟨hw, rfl, rfl⟩ ht).2.2

/-- C12, on the object in which the frame `AA 02 01 34 31 55` has been written once and awaits
its ACK: after the flush and the reconnection, enqueueing a frame and ticking twice returns a
state (the theorem then gives that nothing more was written). -/
theorem flush_keeps_waiting_witness :
    ({ BluetoothSocketCommunicate.init true true with
        m_currentSendingFrame := some (FrameData.mk [0xAA, 0x02, 0x01, 0x34, 0x31, 0x55] 1 2 true),
        m_currentSendSize := 6, m_isWaitingForAck := true, ackTimerActive := true,
        trace := [Effect.socketWrite [0xAA, 0x02, 0x01, 0x34, 0x31, 0x55]]
      } : BluetoothSocketCommunicate).m_isWaitingForAck = true
    ∧ (perform [Action.enqueue 3 [0x32] true, Action.event Event.tick, Action.event Event.tick]
        (socketStateChanged .ConnectedState
          { enableConnection false
              { BluetoothSocketCommunicate.init true true with
                m_currentSendingFrame :=
                  some (FrameData.mk [0xAA, 0x02, 0x01, 0x34, 0x31, 0x55] 1 2 true),
                m_currentSendSize := 6, m_isWaitingForAck := true, ackTimerActive := true,
                trace := [Effect.socketWrite [0xAA, 0x02, 0x01, 0x34, 0x31, 0x55]] }
            with socketWritable := true })).toOption.map
        (fun t => (t.m_isWaitingForAck, t.m_sendQueue.map (·.data), socketWrites t.trace))
      = some (true, [[0xAA, 0x03, 0x01, 0x36, 0x32, 0x55]],
              [[0xAA, 0x02, 0x01, 0x34, 0x31, 0x55]])
    ∧ (∀ (as : List Action) (t : BluetoothSocketCommunicate),
        perform as (socketStateChanged .ConnectedState
          { enableConnection false
              { BluetoothSocketCommunicate.init true true with
                m_currentSendingFrame :=
                  some (FrameData.mk [0xAA, 0x02, 0x01, 0x34, 0x31, 0x55] 1 2 true),
                m_currentSendSize := 6, m_isWaitingForAck := true, ackTimerActive := true,
                trace := [Effect.socketWrite [0xAA, 0x02, 0x01, 0x34, 0x31, 0x55]] }
            with socketWritable := true }) = .ok t →
          socketWrites t.trace = [[0xAA, 0x02, 0x01, 0x34, 0x31, 0x55]]) :=
  ⟨rfl, rfl,
   (flush_keeps_waiting
      { BluetoothSocketCommunicate.init true true with
        m_currentSendingFrame := some (FrameData.mk [0xAA, 0x02, 0x01, 0x34, 0x31, 0x55] 1 2 true),
        m_currentSendSize := 6, m_isWaitingForAck := true, ackTimerActive := true,
        trace := [Effect.socketWrite [0xAA, 0x02, 0x01, 0x34, 0x31, 0x55]] }
      rfl).2.2.2.2.2.2.1⟩

/-- C13 (abandon on disconnect, as the code has it). When the connection is disabled
(`enableConnection(false)`) or closed (`disconnectFromController`) while a frame is in flight
and awaits its ACK, the flush releases that frame and empties the queue but emits nothing: the
trace, and with it the list of `DataSent` reports, is what it was before. The two other
routines that release the frame in flight do report it, on the same object: `handleAckTimeout`
with the retries used up appends `DataSent(false)`, and `handleAcknowledgment` of the frame's
command appends `DataSent(true)`. -/
theorem flush_drops_unreported (s : BluetoothSocketCommunicate) (frame : FrameData)
    (hw : s.m_isWaitingForAck = true) (hf : s.m_currentSendingFrame = some frame) :
    ((clearSendQueue s).m_currentSendingFrame = none
      ∧ (clearSendQueue s).m_sendQueue = []
      ∧ (clearSendQueue s).trace = s.trace)
    ∧ ((enableConnection false s).m_currentSendingFrame = none
      ∧ (enableConnection false s).m_sendQueue = []
      ∧ (enableConnection false s).trace = s.trace
      ∧ sendResults (enableConnection false s).trace = sendResults s.trace)
    ∧ ((disconnectFromController s).m_currentSendingFrame = none
      ∧ (disconnectFromController s).m_sendQueue = []
      ∧ (disconnectFromController s).trace = s.trace
      ∧ sendResults (disconnectFromController s).trace = sendResults s.trace)
    ∧ (¬ s.m_retryCount < MAX_RETRIES →
        (handleAckTimeout s).m_currentSendingFrame = none
        ∧ (handleAckTimeout s).trace = s.trace ++ [Effect.DataSent false])
    ∧ (∀ more : List Nat, ∃ t, handleAcknowledgment (frame.command :: more) s = .ok t
        ∧ t.m_currentSendingFrame = none
        ∧ t.trace = s.trace ++ [Effect.DataSent true]) := by
  obtain ⟨rb, q, cur, sz, rc, w, at1, qt, co, wr, tr⟩ := s
  simp only at hw hf
  subst hw hf
  refine ⟨⟨rfl, rfl, rfl⟩, ⟨rfl, rfl, rfl, rfl⟩, ⟨rfl, rfl, rfl, rfl⟩, ?_, ?_⟩
  · intro hge
    simp only at hge
    simp [handleAckTimeout, BluetoothSocketCommunicate.emit, hge]
  · intro more
    simp [handleAcknowledgment, QByteArray_at, BluetoothSocketCommunicate.emit, bind,
      Except.bind]

/-- C13, on the object in which the frame `AA 02 01 34 31 55` has been written once and awaits
its ACK: after `enableConnection(false)`, and after `disconnectFromController`, no frame is in
flight and the trace holds the one write and no `DataSent`. -/
theorem flush_drops_unreported_witness :
    (enableConnection false
        { BluetoothSocketCommunicate.init true true with
          m_currentSendingFrame :=
            some (FrameData.mk [0xAA, 0x02, 0x01, 0x34, 0x31, 0x55] 1 2 true),
          m_currentSendSize := 6, m_isWaitingForAck := true, ackTimerActive := true,
          trace := [Effect.socketWrite [0xAA, 0x02, 0x01, 0x34, 0x31, 0x55]] }).m_currentSendingFrame
      = none
    ∧ (enableConnection false
        { BluetoothSocketCommunicate.init true true with
          m_currentSendingFrame :=
            some (FrameData.mk [0xAA, 0x02, 0x01, 0x34, 0x31, 0x55] 1 2 true),
          m_currentSendSize := 6, m_isWaitingForAck := true, ackTimerActive := true,
          trace := [Effect.socketWrite [0xAA, 0x02, 0x01, 0x34, 0x31, 0x55]] }).trace
      = [Effect.socketWrite [0xAA, 0x02, 0x01, 0x34, 0x31, 0x55]]
    ∧ sendResults (disconnectFromController
        { BluetoothSocketCommunicate.init true true with
          m_currentSendingFrame :=
            some (FrameData.mk [0xAA, 0x02, 0x01, 0x34, 0x31, 0x55] 1 2 true),
          m_currentSendSize := 6, m_isWaitingForAck := true, ackTimerActive := true,
          trace := [Effect.socketWrite [0xAA, 0x02, 0x01, 0x34, 0x31, 0x55]] }).trace = [] :=
  ⟨(flush_drops_unreported
      { BluetoothSocketCommunicate.init true true with
        m_currentSendingFrame := some (FrameData.mk [0xAA, 0x02, 0x01, 0x34, 0x31, 0x55] 1 2 true),
        m_currentSendSize := 6, m_isWaitingForAck := true, ackTimerActive := true,
        trace := [Effect.socketWrite [0xAA, 0x02, 0x01, 0x34, 0x31, 0x55]] }
      (FrameData.mk [0xAA, 0x02, 0x01, 0x34, 0x31, 0x55] 1 2 true) rfl rfl).2.1.1,
   (flush_drops_unreported
      { BluetoothSocketCommunicate.init true true with
        m_currentSendingFrame := some (FrameData.mk [0xAA, 0x02, 0x01, 0x34, 0x31, 0x55] 1 2 true),
        m_currentSendSize := 6, m_isWaitingForAck := true, ackTimerActive := true,
        trace := [Effect.socketWrite [0xAA, 0x02, 0x01, 0x34, 0x31, 0x55]] }
      (FrameData.mk [0xAA, 0x02, 0x01, 0x34, 0x31, 0x55] 1 2 true) rfl rfl).2.1.2.2.1,
   (flush_drops_unreported
      { BluetoothSocketCommunicate.init true true with
        m_currentSendingFrame := some (FrameData.mk [0xAA, 0x02, 0x01, 0x34, 0x31, 0x55] 1 2 true),
        m_currentSendSize := 6, m_isWaitingForAck := true, ackTimerActive := true,
        trace := [Effect.socketWrite [0xAA, 0x02, 0x01, 0x34, 0x31, 0x55]] }
      (FrameData.mk [0xAA, 0x02, 0x01, 0x34, 0x31, 0x55] 1 2 true) rfl rfl).2.2.1.2.2.2⟩

/-! ## Claims about dispatch -/

/-- C14 (receive-side acknowledgment). For every well-formed frame with a command `c` other
than `0x01`, received into an empty buffer while the socket is open, `dataReceived` returns the
object with exactly one `ReceivedData(payload)` appended to the trace and exactly one frame
appended to the tail of the send queue: the ACK frame `AA 01 01 crc c 55` with command `0x01`,
length 1 and `requiresAck = false`. Every other member (the rest of the queue, the frame in
flight, `m_isWaitingForAck`, `m_retryCount`, the buffer) is as before. -/
theorem receive_acknowledges (c : Nat) (p : List Nat) (s : BluetoothSocketCommunicate)
    (hc : c ≠ 0x01) (hopen : s.socketConnected = true) (hempty : s.m_receiveBuffer = []) :
    dataReceived ([0xAA, c, p.length, CalcCRC c p.length p] ++ p ++ [0x55]) s
      = .ok { s with
          trace := s.trace ++ [Effect.ReceivedData p],
          m_sendQueue := s.m_sendQueue ++
            [FrameData.mk [0xAA, 0x01, 1, CalcCRC 0x01 1 [c], c, 0x55] 1 0x01 false] } := by
  have h := dataReceived_wireFrame c p s hempty
  have hw : wireFrame c p = [0xAA, c, p.length, CalcCRC c p.length p] ++ p ++ [0x55] := rfl
  rw [hw] at h
  rw [h]
  unfold processReceivedData.dispatch
  simp only [hc, if_false]
  rw [sendAcknowledgment_ok]
  simp [BluetoothSocketCommunicate.emit, hopen, wireFrame, FRAME_START_BYTE, FRAME_END_BYTE]

/-- C14, at the frame `AA 02 01 34 31 55` received by a freshly constructed object on an open
socket. -/
theorem receive_acknowledges_witness :
    ((2 : Nat) ≠ 0x01 ∧ (BluetoothSocketCommunicate.init true true).socketConnected = true
      ∧ (BluetoothSocketCommunicate.init true true).m_receiveBuffer = [])
    ∧ dataReceived ([0xAA, 2, [0x31].length, CalcCRC 2 [0x31].length [0x31]] ++ [0x31] ++ [0x55])
        (BluetoothSocketCommunicate.init true true)
      = .ok { BluetoothSocketCommunicate.init true true with
          trace := (BluetoothSocketCommunicate.init true true).trace ++ [Effect.ReceivedData [0x31]],
          m_sendQueue := (BluetoothSocketCommunicate.init true true).m_sendQueue ++
            [FrameData.mk [0xAA, 0x01, 1, CalcCRC 0x01 1 [2], 2, 0x55] 1 0x01 false] } :=
  ⟨⟨by decide, rfl, rfl⟩,
   receive_acknowledges 2 [0x31] (BluetoothSocketCommunicate.init true true) (by decide) rfl rfl⟩

/-- C16 as stated fails: the frame that `SendFrameWithCommand(0x02, [0x31], 1, true)` queues is
not `AA 02 01 33 31 55`. -/
theorem test_vector_counterexample :
    (SendFrameWithCommand 0x02 [0x31] 1 true (BluetoothSocketCommunicate.init true true)).toOption.map
        (fun t => t.m_sendQueue.map (·.data))
      ≠ some [[0xAA, 0x02, 0x01, 0x33, 0x31, 0x55]] := by
  decide

/-- C16, amended. `SendFrameWithCommand(0x02, [0x31], 1, true)` on an open socket queues the
frame `AA 02 01 34 31 55`: the sum is `1 + 2 + 0x31 = 0x34`, its high byte is 0, and
`CalcCRC` returns `0x34`. -/
theorem test_vector :
    CalcCRC 0x02 1 [0x31] = 0x34
    ∧ SendFrameWithCommand 0x02 [0x31] 1 true (BluetoothSocketCommunicate.init true true)
      = .ok { BluetoothSocketCommunicate.init true true with
          m_sendQueue := [FrameData.mk [0xAA, 0x02, 0x01, 0x34, 0x31, 0x55] 1 0x02 true] } :=
  ⟨rfl, rfl⟩

/-- C17 (validation decides dispatch). Let the receive buffer begin with `0xAA` and hold at
least `4 + L + 1` bytes, where `L` is its byte 2. If byte 3 equals
`CalcCRC(byte 1, L, bytes 4 .. 4+L)` and byte `4 + L` is `0x55`, the first iteration of the
receive loop dispatches the frame with command byte 1 and payload bytes `4 .. 4+L`, removes the
`4 + L + 1` bytes and goes on; otherwise it dispatches nothing, removes the `4 + L + 1` bytes
and goes on with the object otherwise unchanged. -/
theorem validation_decides_dispatch (fuel : Nat) (s : BluetoothSocketCommunicate)
    (hstart : s.m_receiveBuffer.head? = some 0xAA)
    (hsize : 4 + s.m_receiveBuffer.getD 2 0 + 1 ≤ s.m_receiveBuffer.length) :
    (s.m_receiveBuffer.getD 3 0
          = CalcCRC (s.m_receiveBuffer.getD 1 0) (s.m_receiveBuffer.getD 2 0)
              ((s.m_receiveBuffer.drop 4).take (s.m_receiveBuffer.getD 2 0))
        ∧ s.m_receiveBuffer.getD (4 + s.m_receiveBuffer.getD 2 0) 0 = 0x55 →
      processReceivedData.loop (fuel + 1) s
        = processReceivedData.dispatch (s.m_receiveBuffer.getD 1 0)
            ((s.m_receiveBuffer.drop 4).take (s.m_receiveBuffer.getD 2 0)) s >>= fun t =>
          processReceivedData.loop fuel
            { t with m_receiveBuffer :=
                s.m_receiveBuffer.drop (4 + s.m_receiveBuffer.getD 2 0 + 1) })
    ∧ (¬ (s.m_receiveBuffer.getD 3 0
          = CalcCRC (s.m_receiveBuffer.getD 1 0) (s.m_receiveBuffer.getD 2 0)
              ((s.m_receiveBuffer.drop 4).take (s.m_receiveBuffer.getD 2 0))
        ∧ s.m_receiveBuffer.getD (4 + s.m_receiveBuffer.getD 2 0) 0 = 0x55) →
      processReceivedData.loop (fuel + 1) s
        = processReceivedData.loop fuel
            { s with m_receiveBuffer :=
                s.m_receiveBuffer.drop (4 + s.m_receiveBuffer.getD 2 0 + 1) }) := by
  match hb : s.m_receiveBuffer with
  | [] => rw [hb] at hstart; simp at hstart
  | [_] => rw [hb] at hsize; simp at hsize
  | [_, _] => rw [hb] at hsize; simp at hsize
  | [_, _, _] => rw [hb] at hsize; simp at hsize; omega
  | x :: cmd :: len :: crc :: body =>
    rw [hb] at hstart hsize
    simp only [List.head?_cons, Option.some.injEq] at hstart
    subst hstart
    simp only [List.getD_cons_succ, List.getD_cons_zero, List.length_cons] at hsize
    have hlen : len + 1 ≤ body.length := by omega
    have hstep := loop_complete fuel s cmd len crc body hb hlen
    have hg4 : (170 :: cmd :: len :: crc :: body).getD (4 + len) 0 = body.getD len 0 := by
      rw [Nat.add_comm]; rfl
    have hd4 : List.drop 4 (170 :: cmd :: len :: crc :: body) = body := rfl
    simp only [List.getD_cons_succ, List.getD_cons_zero, hg4, hd4, CalcCRC_take]
    have hfn : (fun t : BluetoothSocketCommunicate => processReceivedData.loop fuel
          { t with m_receiveBuffer := t.m_receiveBuffer.drop (FRAME_HEADER_SIZE + len + 1) })
        = fun t => processReceivedData.loop fuel
          { t with m_receiveBuffer := t.m_receiveBuffer.drop (4 + len + 1) } := rfl
    constructor
    · intro hv
      have hv2 : crc = CalcCRC cmd len body ∧ body.getD len 0 = FRAME_END_BYTE := hv
      rw [hstep, if_pos hv2]
      cases hd : processReceivedData.dispatch cmd (List.take len body) s with
      | error e => rfl
      | ok t =>
        have hbuf := dispatch_buffer _ _ _ _ hd
        simp only [bind, Except.bind]
        rw [hbuf, hb]
        rfl
    · intro hv
      have hv2 : ¬ (crc = CalcCRC cmd len body ∧ body.getD len 0 = FRAME_END_BYTE) := hv
      rw [hstep, if_neg hv2]
      simp only [bind, Except.bind]
      rw [hb]
      rfl

/-- C17, at the buffer `AA 02 01 34 31 55` of a freshly constructed object: the checksum and
the end byte match, and the frame is dispatched with command `0x02` and payload `[0x31]`. -/
theorem validation_decides_dispatch_witness :
    (({ BluetoothSocketCommunicate.init true true with
          m_receiveBuffer := [0xAA, 0x02, 0x01, 0x34, 0x31, 0x55]
        } : BluetoothSocketCommunicate).m_receiveBuffer.head? = some 0xAA
      ∧ 4 + [0xAA, 0x02, 0x01, 0x34, 0x31, 0x55].getD 2 0 + 1
          ≤ [0xAA, 0x02, 0x01, 0x34, 0x31, 0x55].length)
    ∧ processReceivedData.loop (5 + 1)
        { BluetoothSocketCommunicate.init true true with
          m_receiveBuffer := [0xAA, 0x02, 0x01, 0x34, 0x31, 0x55] }
      = processReceivedData.dispatch 0x02 [0x31]
          { BluetoothSocketCommunicate.init true true with
            m_receiveBuffer := [0xAA, 0x02, 0x01, 0x34, 0x31, 0x55] } >>= fun t =>
        processReceivedData.loop 5 { t with m_receiveBuffer := [] } :=
  ⟨⟨rfl, by decide⟩,
   (validation_decides_dispatch 5
      { BluetoothSocketCommunicate.init true true with
        m_receiveBuffer := [0xAA, 0x02, 0x01, 0x34, 0x31, 0x55] }
      rfl (by decide)).1 ⟨rfl, rfl⟩⟩

/-- C18 (ACK handling, as the code has it). The ACK frame with an empty payload,
`AA 01 00 01 55`, is what `SendFrameWithCommand(0x01, [], 0)` builds and passes validation.
Received (empty buffer before) while a frame is in flight and awaits its ACK, it makes
`handleAcknowledgment` read byte 0 of a payload of 0 bytes: a read out of bounds. -/
theorem ack_empty_payload_overread (s : BluetoothSocketCommunicate) (frame : FrameData)
    (hw : s.m_isWaitingForAck = true) (hf : s.m_currentSendingFrame = some frame)
    (hempty : s.m_receiveBuffer = []) :
    SendFrameWithCommand.frameData 0x01 [] 0 = .ok [0xAA, 0x01, 0x00, 0x01, 0x55]
    ∧ QByteArray_at (QByteArray_mid [0xAA, 0x01, 0x00, 0x01, 0x55] 4 0) 0
        = .error .readOutOfBounds
    ∧ dataReceived [0xAA, 0x01, 0x00, 0x01, 0x55] s = .error .readOutOfBounds := by
  refine ⟨rfl, rfl, ?_⟩
  have h := dataReceived_wireFrame 1 [] s hempty
  have hwf : wireFrame 1 [] = [0xAA, 0x01, 0x00, 0x01, 0x55] := rfl
  rw [hwf] at h
  rw [h]
  simp [processReceivedData.dispatch, handleAcknowledgment, hw, hf, QByteArray_at, bind,
    Except.bind]

/-- C18, on the object in which the frame `AA 02 01 34 31 55` has been written once and awaits
its ACK. -/
theorem ack_empty_payload_overread_witness :
    SendFrameWithCommand.frameData 0x01 [] 0 = .ok [0xAA, 0x01, 0x00, 0x01, 0x55]
    ∧ QByteArray_at (QByteArray_mid [0xAA, 0x01, 0x00, 0x01, 0x55] 4 0) 0
        = .error .readOutOfBounds
    ∧ dataReceived [0xAA, 0x01, 0x00, 0x01, 0x55]
        { BluetoothSocketCommunicate.init true true with
          m_currentSendingFrame := some (FrameData.mk [0xAA, 0x02, 0x01, 0x34, 0x31, 0x55] 1 2 true),
          m_currentSendSize := 6, m_isWaitingForAck := true, ackTimerActive := true,
          trace := [Effect.socketWrite [0xAA, 0x02, 0x01, 0x34, 0x31, 0x55]] }
      = .error .readOutOfBounds :=
  ack_empty_payload_overread
    { BluetoothSocketCommunicate.init true true with
      m_currentSendingFrame := some (FrameData.mk [0xAA, 0x02, 0x01, 0x34, 0x31, 0x55] 1 2 true),
      m_currentSendSize := 6, m_isWaitingForAck := true, ackTimerActive := true,
      trace := [Effect.socketWrite [0xAA, 0x02, 0x01, 0x34, 0x31, 0x55]] }
    (FrameData.mk [0xAA, 0x02, 0x01, 0x34, 0x31, 0x55] 1 2 true) rfl rfl rfl

/-! ## Claims about the receive buffer -/

/-- C19 (chunk-boundary independence). For every byte sequence and every way of splitting it
into consecutive chunks, delivering the chunks one `dataReceived` at a time into an empty
receive buffer runs exactly the dispatches that delivering the whole sequence in one
`dataReceived` runs: the valid frames `decode` finds in the sequence, command and payload, in
order. The two runs end alike, fault or state, and the states differ at most in bytes of the
receive buffer that precede its first start marker `0xAA`. -/
theorem chunk_independence (chunks : List (List Nat)) (s : BluetoothSocketCommunicate)
    (hempty : s.m_receiveBuffer = []) :
    ∃ r1 r2 : List Nat,
      feed chunks s
        = (dispatchAll (decode chunks.flatten).1 s >>= fun t =>
            .ok { t with m_receiveBuffer := r1 })
      ∧ feed [chunks.flatten] s
        = (dispatchAll (decode chunks.flatten).1 s >>= fun t =>
            .ok { t with m_receiveBuffer := r2 })
      ∧ skipNoise r1 = skipNoise r2 := by
  have h1 := feed_decodeChunks chunks s
  have h2 := feed_decodeChunks [chunks.flatten] s
  obtain ⟨c1, c2⟩ := decodeChunks_decode chunks [] rfl
  rw [hempty] at h1 h2
  simp only [List.nil_append] at c1 c2
  refine ⟨(decodeChunks [] chunks).2, (decode chunks.flatten).2, ?_, ?_, c2⟩
  · rw [h1, c1]
  · rw [h2]
    simp [decodeChunks]

/-- C19, at the bytes `01 02 03 04 05 AA 02 01 34 31 55` delivered as `01 02 03 04`,
`05 AA 02`, `01 34 31 55` to a freshly constructed object. -/
theorem chunk_independence_witness :
    (BluetoothSocketCommunicate.init true true).m_receiveBuffer = []
    ∧ ∃ r1 r2 : List Nat,
      feed [[0x01, 0x02, 0x03, 0x04], [0x05, 0xAA, 0x02], [0x01, 0x34, 0x31, 0x55]]
          (BluetoothSocketCommunicate.init true true)
        = (dispatchAll
            (decode [[0x01, 0x02, 0x03, 0x04], [0x05, 0xAA, 0x02],
              [0x01, 0x34, 0x31, 0x55]].flatten).1
            (BluetoothSocketCommunicate.init true true) >>= fun t =>
            .ok { t with m_receiveBuffer := r1 })
      ∧ feed [[[0x01, 0x02, 0x03, 0x04], [0x05, 0xAA, 0x02], [0x01, 0x34, 0x31, 0x55]].flatten]
          (BluetoothSocketCommunicate.init true true)
        = (dispatchAll
            (decode [[0x01, 0x02, 0x03, 0x04], [0x05, 0xAA, 0x02],
              [0x01, 0x34, 0x31, 0x55]].flatten).1
            (BluetoothSocketCommunicate.init true true) >>= fun t =>
            .ok { t with m_receiveBuffer := r2 })
      ∧ skipNoise r1 = skipNoise r2 :=
  ⟨rfl,
   chunk_independence [[0x01, 0x02, 0x03, 0x04], [0x05, 0xAA, 0x02], [0x01, 0x34, 0x31, 0x55]]
     (BluetoothSocketCommunicate.init true true) rfl⟩

/-- C20 (bounded residue). For every content of the receive buffer, of any length, made of
bytes: when `processReceivedData` returns, the buffer holds fewer than 4 bytes, or it starts
with `0xAA` and is shorter than the `4 + buffer[2] + 1` bytes it announces; in both cases it
holds at most 259 bytes. When `processReceivedData` does not return, it has stopped at a read
out of bounds, not for want of loop budget. -/
theorem bounded_residue (s : BluetoothSocketCommunicate)
    (hb : ∀ x ∈ s.m_receiveBuffer, x < 256) :
    (∀ t, processReceivedData s = .ok t →
      (t.m_receiveBuffer.length < 4
        ∨ (t.m_receiveBuffer.head? = some 0xAA
          ∧ t.m_receiveBuffer.length < 4 + t.m_receiveBuffer.getD 2 0 + 1))
      ∧ t.m_receiveBuffer.length ≤ 259)
    ∧ (∀ e, processReceivedData s = .error e → e = .readOutOfBounds) := by
  constructor
  · intro t ht
    rw [processReceivedData_decode] at ht
    obtain ⟨hres, hmem, _⟩ := decode_residue s.m_receiveBuffer
    have hbuf : t.m_receiveBuffer = (decode s.m_receiveBuffer).2 := by
      cases hd : dispatchAll (decode s.m_receiveBuffer).1 s with
      | error e => simp only [hd, bind, Except.bind] at ht; cases ht
      | ok u =>
        simp only [hd, bind, Except.bind, Except.ok.injEq] at ht
        rw [← ht]
    rw [hbuf]
    refine ⟨hres, ?_⟩
    have hbytes : ∀ x ∈ (decode s.m_receiveBuffer).2, x < 256 := fun x hx => hb x (hmem x hx)
    have h2 := getD_lt_of_bytes (decode s.m_receiveBuffer).2 2 hbytes
    rcases hres with h | ⟨_, h⟩ <;> omega
  · intro e he
    exact loop_budget _ s e (Nat.le_refl _) he

/-- C20, at a buffer of six noise bytes followed by the first three bytes of a frame, in a
freshly constructed object: the call returns and leaves the three bytes `AA 02 01`. -/
theorem bounded_residue_witness :
    (∀ x ∈ [0x01, 0x02, 0x03, 0x04, 0x05, 0x06, 0xAA, 0x02, 0x01], x < 256)
    ∧ processReceivedData
        { BluetoothSocketCommunicate.init true true with
          m_receiveBuffer := [0x01, 0x02, 0x03, 0x04, 0x05, 0x06, 0xAA, 0x02, 0x01] }
      = .ok { BluetoothSocketCommunicate.init true true with
          m_receiveBuffer := [0xAA, 0x02, 0x01] }
    ∧ ([0xAA, 0x02, 0x01].length < 4
        ∨ ([0xAA, 0x02, 0x01].head? = some 0xAA
          ∧ [0xAA, 0x02, 0x01].length < 4 + [0xAA, 0x02, 0x01].getD 2 0 + 1))
    ∧ [0xAA, 0x02, 0x01].length ≤ 259 :=
  ⟨by decide, rfl,
   (bounded_residue
      { BluetoothSocketCommunicate.init true true with
        m_receiveBuffer := [0x01, 0x02, 0x03, 0x04, 0x05, 0x06, 0xAA, 0x02, 0x01] }
      (by decide)).1
      { BluetoothSocketCommunicate.init true true with m_receiveBuffer := [0xAA, 0x02, 0x01] }
      rfl⟩

/-! ## Claims about the order of transmission -/

/-- C15 (transmission order). Start from an idle scheduler with an empty queue and an empty
receive buffer, on an open, writable socket, and run any sequence of enqueues (payloads of at
most 250 bytes), ticks, ACK timeouts and arrivals of well-formed ACK frames. If the run returns,
there is a list `sent` of frames with a number of writes each, such that: the frames of `sent`
followed by the frames still in the queue are the frames enqueued, in the order of their
enqueueing; the byte strings handed to the socket since the start are, block after block in
that order, `k` copies of the bytes of each frame of `sent`; and every `k` is between 1 and 4.
So frames are first written in the order of their enqueueing, and every retry of a frame comes
before the first write of any frame enqueued after it. A run that does not return has stopped
at a read out of bounds. -/
theorem transmission_order (s0 : BluetoothSocketCommunicate) (as : List Action)
    (hopen : s0.socketConnected = true) (hwr : s0.socketWritable = true)
    (hidle : s0.m_isWaitingForAck = false) (hq : s0.m_sendQueue = [])
    (hbuf : s0.m_receiveBuffer = []) (hall : ∀ a ∈ as, a.scheduling) :
    (∀ t, perform as s0 = .ok t →
      ∃ (new : List Effect) (sent : List (FrameData × Nat)),
        t.trace = s0.trace ++ new
        ∧ sent.map Prod.fst ++ t.m_sendQueue = enqueued as
        ∧ socketWrites new = sent.flatMap (fun p => List.replicate p.2 p.1.data)
        ∧ ∀ p ∈ sent, 1 ≤ p.2 ∧ p.2 ≤ 4)
    ∧ (∀ e, perform as s0 = .error e → e = .readOutOfBounds) := by
  have hinit : OrderInv s0.trace [] s0 :=
    ⟨hopen, hwr, hbuf, by simp, [], [], by simp, by simp [hq], rfl, by simp,
      fun h => by rw [hidle] at h; cases h⟩
  constructor
  · intro t ht
    obtain ⟨_, _, _, _, new, sent, h1, h2, h3, h4, _⟩ :=
      OrderInv_perform s0.trace as [] s0 t hall hinit ht
    exact ⟨new, sent, h1, by simpa using h2, h3, h4⟩
  · intro e he
    exact OrderInv_fault s0.trace as [] s0 e hall hinit he

/-- C15, on a freshly constructed object: two frames are enqueued, the first is written, retried
once and acknowledged, then the second is written. -/
theorem transmission_order_witness :
    ((BluetoothSocketCommunicate.init true true).socketConnected = true
      ∧ (BluetoothSocketCommunicate.init true true).socketWritable = true
      ∧ (BluetoothSocketCommunicate.init true true).m_isWaitingForAck = false
      ∧ (BluetoothSocketCommunicate.init true true).m_sendQueue = []
      ∧ (BluetoothSocketCommunicate.init true true).m_receiveBuffer = [])
    ∧ (perform
          [Action.enqueue 2 [0x31] true, Action.enqueue 3 [0x32] true, Action.event Event.tick,
            Action.event Event.ackTimeout, Action.event (Event.received (wireFrame 0x01 [2])),
            Action.event Event.tick]
          (BluetoothSocketCommunicate.init true true)).toOption.map
        (fun t => socketWrites t.trace)
      = some [[0xAA, 0x02, 0x01, 0x34, 0x31, 0x55], [0xAA, 0x02, 0x01, 0x34, 0x31, 0x55],
              [0xAA, 0x03, 0x01, 0x36, 0x32, 0x55]]
    ∧ (∀ t,
        perform
          [Action.enqueue 2 [0x31] true, Action.enqueue 3 [0x32] true, Action.event Event.tick,
            Action.event Event.ackTimeout, Action.event (Event.received (wireFrame 0x01 [2])),
            Action.event Event.tick]
          (BluetoothSocketCommunicate.init true true) = .ok t →
        ∃ (new : List Effect) (sent : List (FrameData × Nat)),
          t.trace = (BluetoothSocketCommunicate.init true true).trace ++ new
          ∧ sent.map Prod.fst ++ t.m_sendQueue
              = enqueued
                  [Action.enqueue 2 [0x31] true, Action.enqueue 3 [0x32] true,
                    Action.event Event.tick, Action.event Event.ackTimeout,
                    Action.event (Event.received (wireFrame 0x01 [2])), Action.event Event.tick]
          ∧ socketWrites new = sent.flatMap (fun p => List.replicate p.2 p.1.data)
          ∧ ∀ p ∈ sent, 1 ≤ p.2 ∧ p.2 ≤ 4) :=
  ⟨⟨rfl, rfl, rfl, rfl, rfl⟩, rfl,
   (transmission_order (BluetoothSocketCommunicate.init true true)
      [Action.enqueue 2 [0x31] true, Action.enqueue 3 [0x32] true, Action.event Event.tick,
        Action.event Event.ackTimeout, Action.event (Event.received (wireFrame 0x01 [2])),
        Action.event Event.tick]
      rfl rfl rfl rfl rfl
      (by
        intro a ha
        simp only [List.mem_cons, List.mem_singleton, List.not_mem_nil, or_false] at ha
        rcases ha with h | h | h | h | h | h <;> subst h
        · show [0x31].length ≤ 250
          decide
        · show [0x32].length ≤ 250
          decide
        · exact True.intro
        · exact True.intro
        · exact ⟨[2], rfl⟩
        · exact True.intro)).1⟩

end BtControl
